import Mathlib

/-!
# Kusto devops query generator (tsbs): shallow embedding

The embedding covers `cmd/tsbs_generate_queries/databases/kusto/devops.go` and
`cmd/tsbs_generate_data/serialize/kusto.go`.

* Go strings are Lean `String`s; Go `int`, `time.Duration` (nanoseconds) and
  instants (nanoseconds since the Unix epoch) are `Int`, without the 64-bit
  wrap-around.
* The process-wide `math/rand` source is an explicit sampler state threaded
  through every call (`World.rand`); the request object a pattern is handed is
  `World.qi`.
* A Go panic is an explicit outcome that keeps the effects made before it.
* The loop that samples distinct hosts takes a bound on the number of draws
  (fuel); a call returns `none` when the bound is hit.
* The packages `devops`, `utils` and `query` are not part of the embedded
  sources; their functions are modelled from the specification and marked so.
* The sink of the serializer is a writer with an explicit state; the rendering
  of a field value (`fastFormatAppend`) is a parameter.
-/

namespace Kusto

set_option maxRecDepth 100000

/-! ## Go standard library: `fmt`, `strings`, `net/url`, `time` -/

/-- Go `fmt.Sprintf("%d", n)` for an `int`. -/
def sprintD : Int → String
  | Int.ofNat m => Nat.repr m
  | Int.negSucc m => "-" ++ Nat.repr (m + 1)

/-- Go `fmt.Sprintf("%4d", n)`: the decimal rendering, padded on the left with
spaces to a width of four. -/
def sprint4D (n : Int) : String :=
  String.mk (List.replicate (4 - (sprintD n).length) ' ') ++ sprintD n

/-- Go `strings.Join(elems, sep)`. -/
def stringsJoin (elems : List String) (sep : String) : String :=
  match elems with
  | [] => ""
  | [a] => a
  | a :: rest => rest.foldl (fun b s => b ++ sep ++ s) a

/-- Upper-case hexadecimal digit, the table `upperhex` of `net/url`. -/
def upperhex (n : Nat) : Char :=
  if n < 10 then Char.ofNat (48 + n) else Char.ofNat (55 + n)

/-- Go `url.shouldEscape(c, encodeQueryComponent)`: only ASCII letters, digits
and `-`, `_`, `.`, `~` are left alone. -/
def shouldEscape (c : Nat) : Bool :=
  !((97 ≤ c && c ≤ 122) || (65 ≤ c && c ≤ 90) || (48 ≤ c && c ≤ 57)
    || c == 45 || c == 95 || c == 46 || c == 126)

/-- One byte of `url.QueryEscape`: a space becomes `+`, an escaped byte becomes
`%XX`, every other byte is kept. -/
def escapeByte (c : Nat) : List Char :=
  if c = 32 then ['+']
  else if shouldEscape c then ['%', upperhex (c / 16), upperhex (c % 16)]
  else [Char.ofNat c]

/-- Go `url.QueryEscape(s)`, byte by byte over the UTF-8 encoding of `s`. -/
def QueryEscape (s : String) : String :=
  String.mk ((s.data.flatMap String.utf8EncodeChar).flatMap (fun b => escapeByte b.toNat))

/-- Go `url.Values.Encode()` for values holding one value per key, the keys
given in sorted order: `key=value` pairs joined by `&`. -/
def ValuesEncode (v : List (String × String)) : String :=
  stringsJoin (v.map (fun kv => QueryEscape kv.1 ++ "=" ++ QueryEscape kv.2)) "&"

/-- Go `time.fmtFrac`: the fraction of `v / 10^prec` without trailing zeros,
written right to left in front of `acc`, and the integer part `v / 10^prec`. -/
def fmtFrac : Nat → Nat → Bool → List Char → List Char × Nat
  | 0, v, print, acc => (if print then '.' :: acc else acc, v)
  | prec + 1, v, print, acc =>
    let digit := v % 10
    let print1 := print || digit != 0
    fmtFrac prec (v / 10) print1 (if print1 then Nat.digitChar digit :: acc else acc)

/-- Go `time.Duration.String()` of a non-negative number of nanoseconds. -/
def durationFormat (u : Nat) : String :=
  if u < 1000000000 then
    if u = 0 then "0s"
    else if u < 1000 then
      let r := fmtFrac 0 u false []
      Nat.repr r.2 ++ String.mk r.1 ++ "ns"
    else if u < 1000000 then
      let r := fmtFrac 3 u false []
      Nat.repr r.2 ++ String.mk r.1 ++ "µs"
    else
      let r := fmtFrac 6 u false []
      Nat.repr r.2 ++ String.mk r.1 ++ "ms"
  else
    let r := fmtFrac 9 u false []
    let secs := Nat.repr (r.2 % 60) ++ String.mk r.1 ++ "s"
    let u1 := r.2 / 60
    if 0 < u1 then
      let mins := Nat.repr (u1 % 60) ++ "m" ++ secs
      let u2 := u1 / 60
      if 0 < u2 then Nat.repr u2 ++ "h" ++ mins else mins
    else secs

/-- Go `time.Duration.String()`, as `%s` prints a duration. -/
def DurationString (d : Int) : String :=
  if d < 0 then "-" ++ durationFormat d.natAbs else durationFormat d.natAbs

/-- Go `time.Second`, in nanoseconds. -/
def Second : Int := 1000000000

/-- Go `time.Hour`, in nanoseconds. -/
def Hour : Int := 3600 * Second

/-- Zero-padded decimal of width two, as `time.Format` prints months, days,
hours, minutes and seconds. -/
def pad2 (n : Nat) : String :=
  if n < 10 then "0" ++ Nat.repr n else Nat.repr n

/-- Zero-padded decimal of width four, as `time.Format` prints the year. -/
def pad4 (y : Int) : String :=
  let s := Nat.repr y.natAbs
  let body := String.mk (List.replicate (4 - s.length) '0') ++ s
  if y < 0 then "-" ++ body else body

/-- Civil date (year, month, day) of a day number counted from 1970-01-01 in
the proleptic Gregorian calendar. -/
def civilFromDays (days : Int) : Int × Nat × Nat :=
  let z := days + 719468
  let era := z / 146097
  let doe := (z - era * 146097).toNat
  let yoe := (doe - doe / 1460 + doe / 36524 - doe / 146096) / 365
  let doy := doe - (365 * yoe + yoe / 4 - yoe / 100)
  let mp := (5 * doy + 2) / 153
  let d := doy - (153 * mp + 2) / 5 + 1
  let m := if mp < 10 then mp + 3 else mp - 9
  let y := (yoe : Int) + era * 400
  (if m ≤ 2 then y + 1 else y, m, d)

/-- Go `t.UTC().Format(time.RFC3339)` of the instant `t` nanoseconds after the
Unix epoch: second precision, the fraction dropped, zone `Z`. -/
def formatRFC3339 (t : Int) : String :=
  let secs := t / 1000000000
  let days := secs / 86400
  let rem := (secs % 86400).toNat
  let ymd := civilFromDays days
  pad4 ymd.1 ++ "-" ++ pad2 ymd.2.1 ++ "-" ++ pad2 ymd.2.2 ++ "T"
    ++ pad2 (rem / 3600) ++ ":" ++ pad2 (rem % 3600 / 60) ++ ":" ++ pad2 (rem % 60) ++ "Z"

/-! ## Requests, panics and the sampler -/

/-- The request object `query.HTTP`; `Body = none` is Go's `nil`. -/
structure HTTP where
  HumanLabel : String
  HumanDescription : String
  Method : String
  Path : String
  Body : Option String
deriving DecidableEq

/-- Modelled from the spec: `query.NewHTTP` (package `query`), the empty
request object: label, description, method and path have length zero and the
body is an empty buffer. -/
def NewHTTP : HTTP :=
  { HumanLabel := "", HumanDescription := "", Method := "", Path := "", Body := some "" }

/-- The value a Go panic carries.  `text` holds the message where the message
is documented literally; the other failures are named by their cause. -/
inductive PanicValue
  | text (msg : String)
  | windowTooLarge (window : Int)
  | negativeWindow (window : Int)
  | hostsExceedScale (nHosts scale : Int)
  | tooManyMetrics (numMetrics : Int)
  | negativeHosts (nHosts : Int)
deriving DecidableEq

/-- The pseudo-random source (`math/rand` behind the spec's
DeterministicSampler): `nextInt s bound` is the draw made in state `s` and the
state after it; a draw with a positive bound lies in `[0, bound)`. -/
structure Sampler (σ : Type) where
  nextInt : σ → Nat → Nat × σ
  nextInt_lt : ∀ s bound, 0 < bound → (nextInt s bound).1 < bound

/-- What a call can touch: the request object it was handed and the state of
the process-wide sampler. -/
structure World (σ : Type) where
  qi : HTTP
  rand : σ
deriving DecidableEq

/-- How a Go call ends: it returns a value or it panics. -/
inductive Outcome (α : Type)
  | ok (a : α)
  | panic (p : PanicValue)
deriving DecidableEq

/-- A Go function body: from a world to the outcome and the world left behind
(a panic keeps the effects made before it); `none` when the sampling loop was
cut off by its fuel. -/
def Go (σ α : Type) : Type := World σ → Option (Outcome α × World σ)

instance instMonadGo {σ : Type} : Monad (Go σ) where
  pure a := fun w => some (Outcome.ok a, w)
  bind m f := fun w =>
    match m w with
    | none => none
    | some (Outcome.panic p, w1) => some (Outcome.panic p, w1)
    | some (Outcome.ok a, w1) => f a w1

/-- A call into a function that reads and advances the sampler. -/
def useRand {σ α : Type} (f : σ → Option (α × σ)) : Go σ α := fun w =>
  match f w.rand with
  | none => none
  | some (a, s1) => some (Outcome.ok a, { w with rand := s1 })

/-- Source `panicIfErr`: panic with the error of a call that failed. -/
def panicIfErr {σ α : Type} : Except PanicValue α → Go σ α
  | Except.ok a => pure a
  | Except.error e => fun w => some (Outcome.panic e, w)

/-! ## Package `devops` (core of the generator) -/

/-- The time span `utils.TimeInterval`, both ends in nanoseconds since the
Unix epoch. -/
structure TimeInterval where
  start : Int
  stop : Int
deriving DecidableEq

/-- The generator core `devops.Core`: the horizon and the number of hosts. -/
structure Core where
  Interval : TimeInterval
  Scale : Int
deriving DecidableEq

/-- Modelled from the spec: `TimeInterval.RandWindow` (IntervalPicker
`pickWindow`): fails if the duration exceeds the horizon length; fails for a
negative duration, for which no window has `start <= end` and
`end - start = duration`; otherwise draws a single offset such that
`start = horizon.start + offset` and `start + duration <= horizon.end`. -/
def RandWindow {σ : Type} (rng : Sampler σ) (ti : TimeInterval) (window : Int) (s : σ) :
    Except PanicValue TimeInterval × σ :=
  if window > ti.stop - ti.start then (Except.error (PanicValue.windowTooLarge window), s)
  else if window < 0 then (Except.error (PanicValue.negativeWindow window), s)
  else
    let r := rng.nextInt s (ti.stop - ti.start - window + 1).toNat
    (Except.ok { start := ti.start + r.1, stop := ti.start + r.1 + window }, r.2)

/-- Modelled from the spec: `TimeInterval.MustRandWindow`, `RandWindow` that
panics on failure. -/
def MustRandWindow {σ : Type} (rng : Sampler σ) (ti : TimeInterval) (window : Int) :
    Go σ TimeInterval := do
  let r ← useRand (fun s => some (RandWindow rng ti window s))
  panicIfErr r

/-- Modelled from the spec: `TimeInterval.StartString`, the start rendered in
RFC3339 with second precision, UTC. -/
def TimeInterval.StartString (ti : TimeInterval) : String := formatRFC3339 ti.start

/-- Modelled from the spec: `TimeInterval.EndString`, the end rendered in
RFC3339 with second precision, UTC. -/
def TimeInterval.EndString (ti : TimeInterval) : String := formatRFC3339 ti.stop

/-- Modelled from the spec: EntityPool `sampleDistinct`, the loop of
`GetRandomHosts`: draw indices below `total`, discard those already collected,
until `k` more distinct indices are collected, in draw order.  The first
argument bounds the number of draws. -/
def sampleDistinct {σ : Type} (rng : Sampler σ) (total : Nat) :
    Nat → Nat → List Nat → σ → Option (List Nat × σ)
  | _, 0, res, s => some (res, s)
  | 0, _ + 1, _, _ => none
  | fuel + 1, k + 1, res, s =>
    let r := rng.nextInt s total
    if r.1 ∈ res then sampleDistinct rng total fuel (k + 1) res r.2
    else sampleDistinct rng total fuel k (res ++ [r.1]) r.2

/-- Modelled from the spec: the host identifier of a pool index, `host_<index>`. -/
def hostName (n : Nat) : String := "host_" ++ sprintD n

/-- Modelled from the spec: `Core.GetRandomHosts`: fails with the literal
message for a host count below one, with a bounds error for a count above the
scale, and otherwise samples `nHosts` distinct hosts of the pool. -/
def GetRandomHosts {σ : Type} (rng : Sampler σ) (d : Core) (fuel : Nat) (nHosts : Int) (s : σ) :
    Option (Except PanicValue (List String) × σ) :=
  if nHosts < 1 then
    some (Except.error (PanicValue.text ("number of hosts cannot be < 1; got " ++ sprintD nHosts)), s)
  else if nHosts > d.Scale then
    some (Except.error (PanicValue.hostsExceedScale nHosts d.Scale), s)
  else
    match sampleDistinct rng d.Scale.toNat fuel nHosts.toNat [] s with
    | none => none
    | some (idx, s1) => some (Except.ok (idx.map hostName), s1)

/-- Modelled from the spec: the fixed metric catalogue `cpuMetrics`, in
canonical order. -/
def cpuMetrics : List String :=
  ["usage_user", "usage_system", "usage_idle", "usage_nice", "usage_iowait",
   "usage_irq", "usage_softirq", "usage_steal", "usage_guest", "usage_guest_nice"]

/-- Modelled from the spec: `devops.GetAllCPUMetrics`, the whole catalogue. -/
def GetAllCPUMetrics : List String := cpuMetrics

/-- Modelled from the spec: `devops.GetCPUMetricsSlice`, the first
`numMetrics` metrics of the catalogue in canonical order; fails with the
literal message for a count below one and with a bounds error for a count
above the catalogue size. -/
def GetCPUMetricsSlice (numMetrics : Int) : Except PanicValue (List String) :=
  if numMetrics < 1 then Except.error (PanicValue.text "cannot get 0 metrics")
  else if numMetrics > cpuMetrics.length then Except.error (PanicValue.tooManyMetrics numMetrics)
  else Except.ok (cpuMetrics.take numMetrics.toNat)

/-- Modelled from the spec: `devops.DoubleGroupByDuration`, 12 hours. -/
def DoubleGroupByDuration : Int := 12 * Hour

/-- Modelled from the spec: `devops.HighCPUDuration`, 12 hours. -/
def HighCPUDuration : Int := 12 * Hour

/-- Modelled from the spec: `devops.MaxAllDuration`, 8 hours. -/
def MaxAllDuration : Int := 8 * Hour

/-- Modelled from the spec: `devops.GetDoubleGroupByLabel`. -/
def GetDoubleGroupByLabel (dbName : String) (numMetrics : Int) : String :=
  dbName ++ " mean of " ++ sprintD numMetrics ++ " metrics, all hosts, random "
    ++ DurationString DoubleGroupByDuration ++ " by 1h"

/-- Modelled from the spec: `devops.GetMaxAllLabel`. -/
def GetMaxAllLabel (dbName : String) (nHosts : Int) : String :=
  dbName ++ " max of all CPU metrics, random " ++ sprint4D nHosts ++ " hosts, random "
    ++ DurationString MaxAllDuration ++ " by 1h"

/-- Modelled from the spec: `devops.GetHighCPULabel`: the host count, or
"all hosts" for a count of zero; a negative count is an error. -/
def GetHighCPULabel (dbName : String) (nHosts : Int) : Except PanicValue String :=
  if nHosts > 0 then Except.ok (dbName ++ " CPU over threshold, " ++ sprintD nHosts ++ " host(s)")
  else if nHosts = 0 then Except.ok (dbName ++ " CPU over threshold, all hosts")
  else Except.error (PanicValue.negativeHosts nHosts)

/-! ## Package `kusto`: `devops.go` -/

/-- Source `Devops.GenerateEmptyQuery`. -/
def GenerateEmptyQuery : HTTP := NewHTTP

/-- Source `Devops.getHostWhereWithHostnames`. -/
def getHostWhereWithHostnames (hostnames : List String) : String :=
  let hostnameClauses := hostnames.foldl (fun acc s => acc ++ ["'" ++ s ++ "'"]) []
  let combinedHostnameClause := stringsJoin hostnameClauses ", "
  "hostname in (" ++ combinedHostnameClause ++ ")"

/-- Source `Devops.getHostWhereString`. -/
def getHostWhereString {σ : Type} (rng : Sampler σ) (d : Core) (fuel : Nat) (nHosts : Int) :
    Go σ String := do
  let r ← useRand (GetRandomHosts rng d fuel nHosts)
  let hostnames ← panicIfErr r
  pure (getHostWhereWithHostnames hostnames)

/-- Source `Devops.getSelectClausesAggMetrics`: a slice of `len(metrics)`
empty strings whose `i`-th slot is assigned in the `i`-th round of the loop. -/
def getSelectClausesAggMetrics (agg : String) (metrics : List String) : List String :=
  metrics.enum.foldl (fun selectClauses im => selectClauses.set im.1 (agg ++ "(" ++ im.2 ++ ")"))
    (List.replicate metrics.length "")

/-- Source `Devops.fillInQuery` on the request object itself. -/
def fillHTTP (q : HTTP) (humanLabel humanDesc kql : String) : HTTP :=
  let kql1 := "let cpu = CpuMetrics_v2; " ++ kql
  let v := [("csl", kql1)]
  { q with
    HumanLabel := humanLabel
    HumanDescription := humanDesc
    Method := "GET"
    Path := "/v2/rest/query?" ++ ValuesEncode v
    Body := none }

/-- Source `Devops.fillInQuery`. -/
def fillInQuery {σ : Type} (humanLabel humanDesc kql : String) : Go σ Unit := fun w =>
  some (Outcome.ok (), { w with qi := fillHTTP w.qi humanLabel humanDesc kql })

/-- Source `Devops.GroupByTime`. -/
def GroupByTime {σ : Type} (rng : Sampler σ) (d : Core) (fuel : Nat)
    (nHosts numMetrics : Int) (timeRange : Int) : Go σ Unit := do
  let interval ← MustRandWindow rng d.Interval timeRange
  let metrics ← panicIfErr (GetCPUMetricsSlice numMetrics)
  let selectClauses := getSelectClausesAggMetrics "max" metrics
  let whereHosts ← getHostWhereString rng d fuel nHosts
  let humanLabel := "Kusto " ++ sprintD numMetrics ++ " cpu metric(s), random " ++ sprint4D nHosts
    ++ " hosts, random " ++ DurationString timeRange ++ " by 1m"
  let humanDesc := humanLabel ++ ": " ++ interval.StartString
  let kql := "cpu | where " ++ whereHosts ++ " and timestamp >= datetime('" ++ interval.StartString
    ++ "') and timestamp < datetime('" ++ interval.EndString ++ "') | summarize "
    ++ stringsJoin selectClauses ", " ++ " by bin(timestamp, 1m) | order by timestamp asc"
  fillInQuery humanLabel humanDesc kql

/-- Source `Devops.GroupByOrderByLimit`. -/
def GroupByOrderByLimit {σ : Type} (rng : Sampler σ) (d : Core) : Go σ Unit := do
  let interval ← MustRandWindow rng d.Interval Hour
  let whereClause := "where timestamp < datetime('" ++ interval.EndString ++ "')"
  let humanLabel := "Kusto max cpu over last 5 min-intervals (random end)"
  let humanDesc := humanLabel ++ ": " ++ interval.StartString
  let kql := "cpu | " ++ whereClause
    ++ " | summarize max(usage_user) by bin(timestamp, 1m) | top 5 by timestamp desc"
  fillInQuery humanLabel humanDesc kql

/-- Source `Devops.GroupByTimeAndPrimaryTag`. -/
def GroupByTimeAndPrimaryTag {σ : Type} (rng : Sampler σ) (d : Core) (numMetrics : Int) :
    Go σ Unit := do
  let metrics ← panicIfErr (GetCPUMetricsSlice numMetrics)
  let interval ← MustRandWindow rng d.Interval DoubleGroupByDuration
  let selectClauses := getSelectClausesAggMetrics "avg" metrics
  let humanLabel := GetDoubleGroupByLabel "Kusto" numMetrics
  let humanDesc := humanLabel ++ ": " ++ interval.StartString
  let kql := "cpu | where timestamp >= datetime('" ++ interval.StartString
    ++ "') and timestamp < datetime('" ++ interval.EndString ++ "') | summarize "
    ++ stringsJoin selectClauses ", " ++ " by bin(timestamp, 1h), hostname | order by timestamp"
  fillInQuery humanLabel humanDesc kql

/-- Source `Devops.MaxAllCPU`. -/
def MaxAllCPU {σ : Type} (rng : Sampler σ) (d : Core) (fuel : Nat) (nHosts : Int) :
    Go σ Unit := do
  let interval ← MustRandWindow rng d.Interval MaxAllDuration
  let whereHosts ← getHostWhereString rng d fuel nHosts
  let selectClauses := getSelectClausesAggMetrics "max" GetAllCPUMetrics
  let humanLabel := GetMaxAllLabel "Kusto" nHosts
  let humanDesc := humanLabel ++ ": " ++ interval.StartString
  let kql := "cpu | where " ++ whereHosts ++ " and timestamp >= datetime('" ++ interval.StartString
    ++ "') and timestamp < datetime('" ++ interval.EndString ++ "') | summarize "
    ++ stringsJoin selectClauses "," ++ " by bin(timestamp, 1h) | order by timestamp"
  fillInQuery humanLabel humanDesc kql

/-- Source `Devops.LastPointPerHost`. -/
def LastPointPerHost {σ : Type} (_d : Core) : Go σ Unit := do
  let humanLabel := "Kusto last row per host"
  let humanDesc := humanLabel ++ ": cpu"
  let kql := "cpu | summarize arg_max(timestamp, *) by hostname"
  fillInQuery humanLabel humanDesc kql

/-- Source `Devops.HighCPUForHosts`. -/
def HighCPUForHosts {σ : Type} (rng : Sampler σ) (d : Core) (fuel : Nat) (nHosts : Int) :
    Go σ Unit := do
  let interval ← MustRandWindow rng d.Interval HighCPUDuration
  let hostWhereClause ←
    (if nHosts = 0 then (pure "" : Go σ String)
     else getHostWhereString rng d fuel nHosts >>= fun whereHosts => pure ("and " ++ whereHosts))
  let humanLabel ← panicIfErr (GetHighCPULabel "Kusto" nHosts)
  let humanDesc := humanLabel ++ ": " ++ interval.StartString
  let kql := "cpu | where usage_user > 90.0 " ++ hostWhereClause ++ " and timestamp >= datetime('"
    ++ interval.StartString ++ "') and timestamp < datetime('" ++ interval.EndString ++ "')"
  fillInQuery humanLabel humanDesc kql

/-! ## Package `serialize`: `kusto.go` -/

/-- Modelled from the spec: the data point `serialize.Point`: a measurement
name, ordered tag keys and tag values, ordered field keys and field values, and
a timestamp (nanoseconds since the Unix epoch).  A field value is of any type
`V` that `fastFormatAppend` can render. -/
structure Point (V : Type) where
  measurementName : String
  tagKeys : List String
  tagValues : List String
  fieldKeys : List String
  fieldValues : List V
  timestamp : Int

/-- The sink `io.Writer`: `Write s buf` is the sink after the write of `buf`
and the error of the write (`none` is Go's `nil`); the byte count is left out,
`Serialize` drops it. -/
structure Writer (ω ε : Type) where
  Write : ω → String → ω × Option ε

/-- How a call of `Serialize` ends: it returns its error value (`none` is Go's
`nil`), or a slice index is out of range and the call panics. -/
inductive SerializeResult (ε : Type)
  | returned (err : Option ε)
  | indexOutOfRange
deriving DecidableEq

/-- Modelled from the spec: `fastFormatAppend(v, buf)`, the buffer with the
textual rendering of the field value appended; the rendering itself is the
parameter `format`. -/
def fastFormatAppend {V : Type} (format : V → String) (v : V) (buf : String) : String :=
  buf ++ format v

/-- Source `CsvSerializer.Serialize`, the loop over the tags: for every index
below `len(p.tagKeys)` a comma and `p.tagValues[i]` are appended; `none` when
an index is out of range. -/
def appendTags (tagValues : List String) : List Nat → String → Option String
  | [], buf => some buf
  | i :: rest, buf =>
    match tagValues[i]? with
    | none => none
    | some v => appendTags tagValues rest (buf ++ "," ++ v)

/-- Source `CsvSerializer.Serialize`, the loop over the fields: for every index
below `len(p.fieldKeys)` a comma and the rendering of `p.fieldValues[i]` are
appended; `none` when an index is out of range. -/
def appendFields {V : Type} (format : V → String) (fieldValues : List V) :
    List Nat → String → Option String
  | [], buf => some buf
  | i :: rest, buf =>
    match fieldValues[i]? with
    | none => none
    | some v => appendFields format fieldValues rest (fastFormatAppend format v (buf ++ ","))

/-- Source `CsvSerializer.Serialize`: the sink after the call and how the call
ended. -/
def CsvSerializer.Serialize {ω ε V : Type} (wr : Writer ω ε) (format : V → String)
    (p : Point V) (w : ω) : SerializeResult ε × ω :=
  let buf := "" ++ formatRFC3339 p.timestamp
  match appendTags p.tagValues (List.range p.tagKeys.length) buf with
  | none => (SerializeResult.indexOutOfRange, w)
  | some buf1 =>
    let r1 := wr.Write w buf1
    match r1.2 with
    | some err => (SerializeResult.returned (some err), r1.1)
    | none =>
      match appendFields format p.fieldValues (List.range p.fieldKeys.length) "" with
      | none => (SerializeResult.indexOutOfRange, r1.1)
      | some buf2 =>
        let r2 := wr.Write r1.1 (buf2 ++ "\n")
        (SerializeResult.returned r2.2, r2.1)

/-! ## The harness: a run is a sequence of pattern calls -/

/-- One pattern invocation with its parameters. -/
inductive Call
  | groupByTime (nHosts numMetrics timeRange : Int)
  | groupByOrderByLimit
  | groupByTimeAndPrimaryTag (numMetrics : Int)
  | maxAllCPU (nHosts : Int)
  | lastPointPerHost
  | highCPUForHosts (nHosts : Int)
deriving DecidableEq

/-- The pattern function a call names. -/
def Call.body {σ : Type} (rng : Sampler σ) (d : Core) (fuel : Nat) : Call → Go σ Unit
  | Call.groupByTime nHosts numMetrics timeRange => GroupByTime rng d fuel nHosts numMetrics timeRange
  | Call.groupByOrderByLimit => GroupByOrderByLimit rng d
  | Call.groupByTimeAndPrimaryTag numMetrics => GroupByTimeAndPrimaryTag rng d numMetrics
  | Call.maxAllCPU nHosts => MaxAllCPU rng d fuel nHosts
  | Call.lastPointPerHost => LastPointPerHost d
  | Call.highCPUForHosts nHosts => HighCPUForHosts rng d fuel nHosts

/-- What a caller sees of one call: the panic value, or the label, description
and path of the filled request. -/
inductive Observation
  | failed (p : PanicValue)
  | filled (label description path : String)
deriving DecidableEq

/-- Test `runTestCases`, one case: the pattern runs on a fresh empty query
with the shared sampler; a panic is recovered and reported. -/
def runCase {σ : Type} (rng : Sampler σ) (d : Core) (fuel : Nat) (c : Call) (s : σ) :
    Option (Observation × σ) :=
  match c.body rng d fuel { qi := GenerateEmptyQuery, rand := s } with
  | none => none
  | some (Outcome.panic p, w) => some (Observation.failed p, w.rand)
  | some (Outcome.ok _, w) =>
    some (Observation.filled w.qi.HumanLabel w.qi.HumanDescription w.qi.Path, w.rand)

/-- Test `runTestCases`: the cases run in order on the one sampler. -/
def runCases {σ : Type} (rng : Sampler σ) (d : Core) (fuel : Nat) :
    List Call → σ → Option (List Observation × σ)
  | [], s => some ([], s)
  | c :: cs, s =>
    match runCase rng d fuel c s with
    | none => none
    | some (o, s1) =>
      match runCases rng d fuel cs s1 with
      | none => none
      | some (os, s2) => some (o :: os, s2)

/-! ## Specification-side definitions -/

/-- The text `sep ++ x1 ++ sep ++ x2 ++ ...`: every element preceded by the
separator. -/
def sepConcat (sep : String) : List String → String
  | [] => ""
  | x :: xs => sep ++ x ++ sepConcat sep xs

/-- The quoted hostnames after the first: `, 'h2', 'h3', ...`. -/
def quotedRest : List String → String
  | [] => ""
  | h :: hs => ", '" ++ h ++ "'" ++ quotedRest hs

/-- The state of the sampler after `n` draws with the bound `b`. -/
def afterDraws {σ : Type} (rng : Sampler σ) (b : Nat) : Nat → σ → σ
  | 0, s => s
  | n + 1, s => afterDraws rng b n (rng.nextInt s b).2

/-- The values of the first `n` draws with the bound `b`, in draw order. -/
def draws {σ : Type} (rng : Sampler σ) (b : Nat) : Nat → σ → List Nat
  | 0, _ => []
  | n + 1, s => (rng.nextInt s b).1 :: draws rng b n (rng.nextInt s b).2

/-- The values of a sequence of draws that are new, each at its first
occurrence and in draw order; `seen` holds the values met before. -/
def keepFirst : List Nat → List Nat → List Nat
  | _, [] => []
  | seen, x :: xs => if x ∈ seen then keepFirst seen xs else x :: keepFirst (seen ++ [x]) xs

/-- A sampler is fair when, from every state and for every bound, every value
below the bound comes up after finitely many draws. -/
def Sampler.Fair {σ : Type} (rng : Sampler σ) : Prop :=
  ∀ (s : σ) (b v : Nat), v < b → ∃ n, (rng.nextInt (afterDraws rng b n s) b).1 = v

/-- A sampler for concrete runs: the state is a counter, a draw is the counter
reduced modulo the bound. -/
def counterSampler : Sampler Nat where
  nextInt s bound := (s % bound, s + 1)
  nextInt_lt := fun s _ h => Nat.mod_lt s h

/-- A sampler that always draws zero. -/
def zeroSampler : Sampler Unit where
  nextInt s _ := (0, s)
  nextInt_lt := fun _ _ h => h

/-- The results of one computation started on two request objects `q1`, `q2`
with the same sampler state: the computation returned in both or in neither,
with the same outcome and sampler state, and left both objects as they were. -/
def Untouched {σ α : Type} (q1 q2 : HTTP) :
    Option (Outcome α × World σ) → Option (Outcome α × World σ) → Prop
  | none, none => True
  | some (o1, w1), some (o2, w2) => o1 = o2 ∧ w1.rand = w2.rand ∧ w1.qi = q1 ∧ w2.qi = q2
  | _, _ => False

/-- The results of one pattern started on two request objects `q1`, `q2` with
the same sampler state: both returned or neither; both filled the request
alike, or both panicked with the same value and left their request as it was;
the sampler ends in the same state. -/
def SameResult {σ : Type} (q1 q2 : HTTP) :
    Option (Outcome Unit × World σ) → Option (Outcome Unit × World σ) → Prop
  | none, none => True
  | some (Outcome.ok _, w1), some (Outcome.ok _, w2) => w1.rand = w2.rand ∧ w1.qi = w2.qi
  | some (Outcome.panic p1, w1), some (Outcome.panic p2, w2) =>
    p1 = p2 ∧ w1.rand = w2.rand ∧ w1.qi = q1 ∧ w2.qi = q2
  | _, _ => False

/-- A computation that reads and advances the sampler only. -/
def ReadsOnlyRand {σ α : Type} (m : Go σ α) : Prop :=
  ∀ (q1 q2 : HTTP) (s : σ), Untouched q1 q2 (m { qi := q1, rand := s }) (m { qi := q2, rand := s })

/-- A computation whose only effect on the request is a final fill that does
not depend on what the request held. -/
def FillsLast {σ : Type} (m : Go σ Unit) : Prop :=
  ∀ (q1 q2 : HTTP) (s : σ), SameResult q1 q2 (m { qi := q1, rand := s }) (m { qi := q2, rand := s })

/-- The computation `m2` returns whatever `m1` returns: it has at least the
fuel of `m1`. -/
def Extends {σ α : Type} (m1 m2 : Go σ α) : Prop :=
  ∀ (w : World σ) (r : Outcome α × World σ), m1 w = some r → m2 w = some r

/-- The rest of `l` after the prefix `p`, if `l` starts with `p`. -/
def stripPrefix : List Char → List Char → Option (List Char)
  | [], l => some l
  | _ :: _, [] => none
  | p :: ps, c :: cs => if p = c then stripPrefix ps cs else none

/-- The part of `l` before the suffix `s`, if `l` ends with `s`. -/
def stripSuffix (s l : List Char) : Option (List Char) :=
  (stripPrefix s.reverse l.reverse).map List.reverse

/-- The pieces of a text between the occurrences of the separator `, `, found
from left to right (Go `strings.Split(text, ", ")`). -/
def splitCommaSpace : List Char → List (List Char)
  | [] => [[]]
  | ',' :: ' ' :: rest => [] :: splitCommaSpace rest
  | c :: rest =>
    match splitCommaSpace rest with
    | [] => [[c]]
    | p :: ps => (c :: p) :: ps

/-- A piece without the single quotes that surround it; `none` if the piece
does not start and end with a single quote. -/
def unquote (piece : List Char) : Option (List Char) :=
  (stripPrefix "'".data piece).bind (stripSuffix "'".data)

/-- Every piece without its quotes; `none` if one of them is not quoted. -/
def unquoteAll : List (List Char) → Option (List String)
  | [] => some []
  | p :: ps =>
    match unquote p, unquoteAll ps with
    | some h, some hs => some (String.mk h :: hs)
    | _, _ => none

/-- The host clause parsed back as the round-trip property words it: strip
`hostname in (` and `)`, split on `, `, remove the surrounding single quotes. -/
def parseHostClause (clause : String) : Option (List String) :=
  (stripPrefix "hostname in (".data clause.data).bind fun r =>
    (stripSuffix ")".data r).bind fun body => unquoteAll (splitCommaSpace body)

/-- Whether somewhere in the text the character `a` is directly followed by the
character `b`. -/
def hasPair (a b : Char) : List Char → Bool
  | [] => false
  | x :: l => (x == a && l.head? == some b) || hasPair a b l

/-- A writer that also keeps, in order, the buffers it is handed. -/
def recording {ω ε : Type} (wr : Writer ω ε) : Writer (ω × List String) ε where
  Write s buf := (((wr.Write s.1 buf).1, s.2 ++ [buf]), (wr.Write s.1 buf).2)

/-- A sink that accepts every write and holds the bytes written so far. -/
def bufferWriter (ε : Type) : Writer String ε where
  Write s buf := (s ++ buf, none)

/-- A sink that holds the bytes written so far and refuses, with the error
`e`, every write once it holds `limit` bytes or more. -/
def limitedWriter {ε : Type} (limit : Nat) (e : ε) : Writer String ε where
  Write s buf := if s.length < limit then (s ++ buf, none) else (s, some e)

/-- The record of the timestamp and the tag values of a point: the timestamp in
RFC3339, then a comma and the value for every tag key. -/
def tagRow {V : Type} (p : Point V) : String :=
  formatRFC3339 p.timestamp ++ sepConcat "," (p.tagValues.take p.tagKeys.length)

/-- The record of the field values of a point: a comma and the rendered value
for every field key, then a newline. -/
def fieldRow {V : Type} (format : V → String) (p : Point V) : String :=
  sepConcat "," ((p.fieldValues.take p.fieldKeys.length).map format) ++ "\n"

/-- A sampler that replays a script: the state is the list of raw values still
to come, a draw is the next raw value reduced modulo the bound (zero once the
script is used up). -/
def scriptedSampler : Sampler (List Nat) where
  nextInt s bound :=
    match s with
    | [] => (0, [])
    | x :: rest => (x % bound, rest)
  nextInt_lt := fun s bound h => by
    cases s with
    | nil => exact h
    | cons x rest => exact Nat.mod_lt x h

/-! ## Lemmas on the library models -/

theorem foldl_sep_eq (sep : String) (rest : List String) (a : String) :
    rest.foldl (fun b s => b ++ sep ++ s) a = a ++ sepConcat sep rest := by
  induction rest generalizing a with
  | nil => simp [sepConcat]
  | cons x xs ih =>
    simp only [List.foldl_cons, sepConcat]
    rw [ih]
    simp only [String.append_assoc]

theorem stringsJoin_cons (a : String) (rest : List String) (sep : String) :
    stringsJoin (a :: rest) sep = a ++ sepConcat sep rest := by
  cases rest with
  | nil => simp [stringsJoin, sepConcat]
  | cons x xs =>
    simp only [stringsJoin]
    rw [foldl_sep_eq]

theorem foldl_snoc_eq_map {α β : Type} (f : α → β) (l : List α) (init : List β) :
    l.foldl (fun acc s => acc ++ [f s]) init = init ++ l.map f := by
  induction l generalizing init with
  | nil => simp
  | cons x xs ih => simp [ih]

theorem sepConcat_quoted (hs : List String) :
    sepConcat ", " (hs.map (fun s => "'" ++ s ++ "'")) = quotedRest hs := by
  induction hs with
  | nil => rfl
  | cons h t ih =>
    simp only [List.map, sepConcat, quotedRest, ih]
    have e : ", " ++ ("'" ++ h ++ "'") = ", '" ++ h ++ "'" := by
      rw [String.append_assoc, ← String.append_assoc ", " "'"]
      rw [String.append_assoc]
      rfl
    rw [e]

theorem getHostWhereWithHostnames_eq_map (hostnames : List String) :
    getHostWhereWithHostnames hostnames
      = "hostname in (" ++ stringsJoin (hostnames.map (fun s => "'" ++ s ++ "'")) ", " ++ ")" := by
  simp [getHostWhereWithHostnames, foldl_snoc_eq_map]

theorem getHostWhereWithHostnames_cons (h : String) (t : List String) :
    getHostWhereWithHostnames (h :: t) = "hostname in ('" ++ h ++ "'" ++ quotedRest t ++ ")" := by
  rw [getHostWhereWithHostnames_eq_map, List.map_cons, stringsJoin_cons, sepConcat_quoted]
  have e : "hostname in (" ++ ("'" ++ h ++ "'" ++ quotedRest t)
      = "hostname in ('" ++ h ++ "'" ++ quotedRest t := by
    simp only [String.append_assoc]
    rw [← String.append_assoc "hostname in (" "'"]
    rfl
  rw [e]

theorem foldl_set_enumFrom (f : String → String) (l : List String) (pre : List String) :
    (List.enumFrom pre.length l).foldl (fun sc im => sc.set im.1 (f im.2))
        (pre ++ List.replicate l.length "")
      = pre ++ l.map f := by
  induction l generalizing pre with
  | nil => simp
  | cons x xs ih =>
    have h := ih (pre ++ [f x])
    simp only [List.length_append, List.length_singleton, List.append_assoc,
      List.singleton_append] at h
    simp only [List.enumFrom_cons, List.foldl_cons, List.length_cons, List.replicate_succ,
      List.map_cons]
    rw [List.set_append_right _ _ (Nat.le_refl _)]
    simp only [Nat.sub_self, List.set_cons_zero]
    exact h

theorem getSelectClausesAggMetrics_eq_map (agg : String) (metrics : List String) :
    getSelectClausesAggMetrics agg metrics = metrics.map (fun m => agg ++ "(" ++ m ++ ")") := by
  have h := foldl_set_enumFrom (fun m => agg ++ "(" ++ m ++ ")") metrics []
  simpa [getSelectClausesAggMetrics, List.enum] using h

theorem digitChar_inj : ∀ a b : Fin 10, Nat.digitChar a.1 = Nat.digitChar b.1 → a = b := by decide

theorem digitChar_isDigit : ∀ a : Fin 10, (Nat.digitChar a.1).isDigit = true := by decide

theorem toDigitsCore_eq_digits (fuel n : Nat) (acc : List Char) (hn : 0 < n) (hf : n < fuel) :
    Nat.toDigitsCore 10 fuel n acc = ((Nat.digits 10 n).reverse.map Nat.digitChar) ++ acc := by
  induction fuel generalizing n acc with
  | zero => omega
  | succ f ih =>
    rw [Nat.toDigitsCore]
    have hd : Nat.digits 10 n = (n % 10) :: Nat.digits 10 (n / 10) :=
      Nat.digits_def' (by decide) hn
    by_cases h0 : n / 10 = 0
    · simp [h0, hd]
    · have h1 : 0 < n / 10 := Nat.pos_of_ne_zero h0
      have h2 : n / 10 < f := by omega
      simp only [h0, if_false]
      rw [ih (n / 10) _ h1 h2, hd]
      simp

theorem toDigits_eq_digits (n : Nat) (hn : 0 < n) :
    Nat.toDigits 10 n = (Nat.digits 10 n).reverse.map Nat.digitChar := by
  rw [Nat.toDigits, toDigitsCore_eq_digits (n + 1) n [] hn (by omega)]
  simp

theorem toDigits_zero : Nat.toDigits 10 0 = ['0'] := by decide

theorem toDigits_ne_nil (n : Nat) : Nat.toDigits 10 n ≠ [] := by
  rcases Nat.eq_zero_or_pos n with h | h
  · subst h; decide
  · rw [toDigits_eq_digits n h]
    have : Nat.digits 10 n ≠ [] := Nat.digits_ne_nil_iff_ne_zero.mpr (by omega)
    simpa using this

theorem toDigits_isDigit (n : Nat) : ∀ c ∈ Nat.toDigits 10 n, c.isDigit = true := by
  rcases Nat.eq_zero_or_pos n with h | h
  · subst h; decide
  · rw [toDigits_eq_digits n h]
    intro c hc
    simp only [List.mem_map, List.mem_reverse] at hc
    obtain ⟨a, ha, rfl⟩ := hc
    have hlt : a < 10 := Nat.digits_lt_base (by decide) ha
    exact digitChar_isDigit ⟨a, hlt⟩

theorem map_digitChar_inj (l1 l2 : List Nat) (h1 : ∀ a ∈ l1, a < 10) (h2 : ∀ a ∈ l2, a < 10)
    (h : l1.map Nat.digitChar = l2.map Nat.digitChar) : l1 = l2 := by
  induction l1 generalizing l2 with
  | nil => cases l2 <;> simp_all
  | cons a t ih =>
    cases l2 with
    | nil => simp at h
    | cons b u =>
      simp only [List.map_cons, List.cons.injEq] at h
      have ha : a < 10 := h1 a (by simp)
      have hb : b < 10 := h2 b (by simp)
      have e := digitChar_inj ⟨a, ha⟩ ⟨b, hb⟩ h.1
      have e1 : a = b := congrArg Fin.val e
      rw [e1, ih u (fun x hx => h1 x (by simp [hx])) (fun x hx => h2 x (by simp [hx])) h.2]

theorem toDigits_injective (m n : Nat) (h : Nat.toDigits 10 m = Nat.toDigits 10 n) : m = n := by
  rcases Nat.eq_zero_or_pos m with hm | hm <;> rcases Nat.eq_zero_or_pos n with hn | hn
  · omega
  · subst hm
    rw [toDigits_zero, toDigits_eq_digits n hn] at h
    have hd : Nat.digits 10 n = (n % 10) :: Nat.digits 10 (n / 10) :=
      Nat.digits_def' (by decide) hn
    by_cases h0 : n / 10 = 0
    · have hlt : n % 10 < 10 := Nat.mod_lt _ (by decide)
      have hn10 : n % 10 ≠ 0 := by omega
      rw [hd, h0] at h
      simp only [Nat.digits_zero, List.reverse_cons, List.reverse_nil, List.nil_append,
        List.map_cons, List.map_nil, List.cons.injEq, and_true] at h
      have e := digitChar_inj ⟨0, by decide⟩ ⟨n % 10, hlt⟩ h
      have e1 : 0 = n % 10 := congrArg Fin.val e
      omega
    · have hl := congrArg List.length h
      have hne : Nat.digits 10 (n / 10) ≠ [] :=
        Nat.digits_ne_nil_iff_ne_zero.mpr h0
      have hpos : 0 < (Nat.digits 10 (n / 10)).length := List.length_pos.mpr hne
      rw [hd] at hl
      simp only [List.length_cons, List.length_nil, List.length_map, List.length_reverse] at hl
      omega
  · subst hn
    rw [toDigits_zero, toDigits_eq_digits m hm] at h
    have hd : Nat.digits 10 m = (m % 10) :: Nat.digits 10 (m / 10) :=
      Nat.digits_def' (by decide) hm
    by_cases h0 : m / 10 = 0
    · have hlt : m % 10 < 10 := Nat.mod_lt _ (by decide)
      rw [hd, h0] at h
      simp only [Nat.digits_zero, List.reverse_cons, List.reverse_nil, List.nil_append,
        List.map_cons, List.map_nil, List.cons.injEq, and_true] at h
      have e := digitChar_inj ⟨m % 10, hlt⟩ ⟨0, by decide⟩ h
      have e1 : m % 10 = 0 := congrArg Fin.val e
      omega
    · have hl := congrArg List.length h
      have hne : Nat.digits 10 (m / 10) ≠ [] :=
        Nat.digits_ne_nil_iff_ne_zero.mpr h0
      have hpos : 0 < (Nat.digits 10 (m / 10)).length := List.length_pos.mpr hne
      rw [hd] at hl
      simp only [List.length_cons, List.length_nil, List.length_map, List.length_reverse] at hl
      omega
  · rw [toDigits_eq_digits m hm, toDigits_eq_digits n hn] at h
    have h1 : (Nat.digits 10 m).reverse = (Nat.digits 10 n).reverse :=
      map_digitChar_inj _ _
        (fun a ha => Nat.digits_lt_base (by decide) (List.mem_reverse.mp ha))
        (fun a ha => Nat.digits_lt_base (by decide) (List.mem_reverse.mp ha)) h
    exact Nat.digits.injective 10 (List.reverse_injective h1)

theorem repr_data (n : Nat) : (Nat.repr n).data = Nat.toDigits 10 n := rfl

theorem repr_injective (m n : Nat) (h : Nat.repr m = Nat.repr n) : m = n :=
  toDigits_injective m n (by rw [← repr_data, ← repr_data, h])

theorem hostName_data (n : Nat) : (hostName n).data = "host_".data ++ Nat.toDigits 10 n := by
  simp [hostName, sprintD, String.data_append, repr_data]

theorem hostName_injective (m n : Nat) (h : hostName m = hostName n) : m = n := by
  have h1 := congrArg String.data h
  rw [hostName_data, hostName_data] at h1
  exact toDigits_injective m n (List.append_cancel_left h1)

/-! ### The Go monad -/

theorem bind_apply {σ α β : Type} (m : Go σ α) (f : α → Go σ β) (w : World σ) :
    (m >>= f) w = match m w with
      | none => none
      | some (Outcome.panic p, w1) => some (Outcome.panic p, w1)
      | some (Outcome.ok a, w1) => f a w1 := rfl

theorem pure_apply {σ α : Type} (a : α) (w : World σ) :
    (pure a : Go σ α) w = some (Outcome.ok a, w) := rfl

theorem bind_ok {σ α β : Type} (m : Go σ α) (f : α → Go σ β) (w w1 : World σ) (a : α)
    (h : m w = some (Outcome.ok a, w1)) : (m >>= f) w = f a w1 := by
  rw [bind_apply, h]

theorem bind_panic {σ α β : Type} (m : Go σ α) (f : α → Go σ β) (w w1 : World σ)
    (p : PanicValue) (h : m w = some (Outcome.panic p, w1)) :
    (m >>= f) w = some (Outcome.panic p, w1) := by
  rw [bind_apply, h]

theorem bind_none {σ α β : Type} (m : Go σ α) (f : α → Go σ β) (w : World σ)
    (h : m w = none) : (m >>= f) w = none := by
  rw [bind_apply, h]

theorem MustRandWindow_fits {σ : Type} (rng : Sampler σ) (ti : TimeInterval) (window : Int)
    (w : World σ) (h : window ≤ ti.stop - ti.start) (h0 : 0 ≤ window) :
    ∃ iv s1, RandWindow rng ti window w.rand = (Except.ok iv, s1)
      ∧ MustRandWindow rng ti window w = some (Outcome.ok iv, { qi := w.qi, rand := s1 }) := by
  have hn : ¬ window > ti.stop - ti.start := by omega
  have hneg : ¬ window < 0 := by omega
  refine ⟨{ start := ti.start + (rng.nextInt w.rand (ti.stop - ti.start - window + 1).toNat).1,
             stop := ti.start + (rng.nextInt w.rand (ti.stop - ti.start - window + 1).toNat).1
               + window },
    (rng.nextInt w.rand (ti.stop - ti.start - window + 1).toNat).2, ?_, ?_⟩
  · simp only [RandWindow, hn, hneg, if_false]
  · simp only [MustRandWindow, bind_apply, useRand, RandWindow, hn, hneg, if_false, panicIfErr,
      pure_apply]

theorem MustRandWindow_tooLarge {σ : Type} (rng : Sampler σ) (ti : TimeInterval) (window : Int)
    (w : World σ) (h : ti.stop - ti.start < window) :
    MustRandWindow rng ti window w
      = some (Outcome.panic (PanicValue.windowTooLarge window), w) := by
  have hn : window > ti.stop - ti.start := h
  simp only [MustRandWindow, bind_apply, useRand, RandWindow, hn, if_true, panicIfErr]

theorem MustRandWindow_negative {σ : Type} (rng : Sampler σ) (ti : TimeInterval) (window : Int)
    (w : World σ) (h : window ≤ ti.stop - ti.start) (h0 : window < 0) :
    MustRandWindow rng ti window w
      = some (Outcome.panic (PanicValue.negativeWindow window), w) := by
  have hn : ¬ window > ti.stop - ti.start := by omega
  simp only [MustRandWindow, bind_apply, useRand, RandWindow, hn, h0, if_true, if_false,
    panicIfErr]

theorem MustRandWindow_cases {σ : Type} (rng : Sampler σ) (ti : TimeInterval) (window : Int)
    (w : World σ) :
    (∃ p, MustRandWindow rng ti window w = some (Outcome.panic p, w))
    ∨ (∃ iv s1, MustRandWindow rng ti window w = some (Outcome.ok iv, { qi := w.qi, rand := s1 })) := by
  by_cases h : window ≤ ti.stop - ti.start
  · by_cases h0 : 0 ≤ window
    · obtain ⟨iv, s1, _, h2⟩ := MustRandWindow_fits rng ti window w h h0
      exact Or.inr ⟨iv, s1, h2⟩
    · exact Or.inl ⟨_, MustRandWindow_negative rng ti window w h (by omega)⟩
  · exact Or.inl ⟨_, MustRandWindow_tooLarge rng ti window w (by omega)⟩

/-! ### Sampling distinct hosts -/

theorem draws_lt {σ : Type} (rng : Sampler σ) (b : Nat) (hb : 0 < b) (n : Nat) (s : σ) :
    ∀ x ∈ draws rng b n s, x < b := by
  induction n generalizing s with
  | zero => simp [draws]
  | succ n ih =>
    intro x hx
    simp only [draws, List.mem_cons] at hx
    rcases hx with rfl | hx
    · exact rng.nextInt_lt s b hb
    · exact ih _ x hx

theorem keepFirst_subset (seen l : List Nat) : ∀ x ∈ keepFirst seen l, x ∈ l := by
  induction l generalizing seen with
  | nil => simp [keepFirst]
  | cons a t ih =>
    intro x hx
    simp only [keepFirst] at hx
    split at hx
    · exact List.mem_cons_of_mem _ (ih _ x hx)
    · simp only [List.mem_cons] at hx
      rcases hx with rfl | hx
      · simp
      · exact List.mem_cons_of_mem _ (ih _ x hx)

theorem keepFirst_nodup (seen l : List Nat) (hs : seen.Nodup) :
    (seen ++ keepFirst seen l).Nodup := by
  induction l generalizing seen with
  | nil => simpa [keepFirst] using hs
  | cons a t ih =>
    simp only [keepFirst]
    split
    · exact ih seen hs
    · rename_i hna
      have h1 : (seen ++ [a]).Nodup := by
        rw [List.nodup_append]
        refine ⟨hs, List.nodup_singleton a, ?_⟩
        intro x hx hx1
        simp only [List.mem_singleton] at hx1
        subst hx1
        exact hna hx
      have h2 := ih (seen ++ [a]) h1
      simpa [List.append_assoc] using h2

theorem sampleDistinct_spec {σ : Type} (rng : Sampler σ) (total fuel k : Nat) (res : List Nat)
    (s : σ) (out : List Nat) (s1 : σ)
    (h : sampleDistinct rng total fuel k res s = some (out, s1)) :
    ∃ n, n ≤ fuel ∧ s1 = afterDraws rng total n s
      ∧ out = res ++ keepFirst res (draws rng total n s)
      ∧ (keepFirst res (draws rng total n s)).length = k := by
  induction fuel generalizing k res s with
  | zero =>
    cases k with
    | zero =>
      simp only [sampleDistinct, Option.some.injEq, Prod.mk.injEq] at h
      exact ⟨0, Nat.le_refl _, h.2.symm, by simp [draws, keepFirst, h.1], by simp [draws, keepFirst]⟩
    | succ k => simp [sampleDistinct] at h
  | succ f ih =>
    cases k with
    | zero =>
      simp only [sampleDistinct, Option.some.injEq, Prod.mk.injEq] at h
      exact ⟨0, Nat.zero_le _, h.2.symm, by simp [draws, keepFirst, h.1], by simp [draws, keepFirst]⟩
    | succ k =>
      simp only [sampleDistinct] at h
      split at h
      · rename_i hmem
        obtain ⟨n, hn, hs, ho, hl⟩ := ih (k + 1) res _ h
        refine ⟨n + 1, by omega, ?_, ?_, ?_⟩
        · simpa [afterDraws] using hs
        · simpa [draws, keepFirst, hmem] using ho
        · simpa [draws, keepFirst, hmem] using hl
      · rename_i hmem
        obtain ⟨n, hn, hs, ho, hl⟩ := ih k (res ++ [(rng.nextInt s total).1]) _ h
        refine ⟨n + 1, by omega, ?_, ?_, ?_⟩
        · simpa [afterDraws] using hs
        · simpa [draws, keepFirst, hmem, List.append_assoc] using ho
        · simpa [draws, keepFirst, hmem] using hl

theorem sampleDistinct_mono {σ : Type} (rng : Sampler σ) (total f1 f2 k : Nat) (res : List Nat)
    (s : σ) (r : List Nat × σ) (hle : f1 ≤ f2)
    (h : sampleDistinct rng total f1 k res s = some r) :
    sampleDistinct rng total f2 k res s = some r := by
  induction f1 generalizing f2 k res s with
  | zero =>
    cases k with
    | zero =>
      cases f2 <;> simpa [sampleDistinct] using h
    | succ k => simp [sampleDistinct] at h
  | succ f ih =>
    cases k with
    | zero => cases f2 <;> simpa [sampleDistinct] using h
    | succ k =>
      cases f2 with
      | zero => omega
      | succ g =>
        simp only [sampleDistinct] at h ⊢
        split
        · rename_i hmem
          rw [if_pos hmem] at h
          exact ih g (k + 1) res _ (by omega) h
        · rename_i hmem
          rw [if_neg hmem] at h
          exact ih g k _ _ (by omega) h

theorem exists_fresh (total : Nat) (res : List Nat) (hlen : res.length < total) :
    ∃ v, v < total ∧ v ∉ res := by
  by_contra hcon
  push_neg at hcon
  have hsub : List.range total ⊆ res := by
    intro x hx
    exact hcon x (List.mem_range.mp hx)
  have hle := (List.subperm_of_subset (List.nodup_range total) hsub).length_le
  simp at hle
  omega

theorem sampleDistinct_skip {σ : Type} (rng : Sampler σ) (total k : Nat) (res : List Nat)
    (n : Nat) (s : σ) (hfresh : (rng.nextInt (afterDraws rng total n s) total).1 ∉ res) :
    ∃ (f r : Nat) (s1 : σ), r ∉ res
      ∧ ∀ g, sampleDistinct rng total (g + f) (k + 1) res s
          = sampleDistinct rng total g k (res ++ [r]) s1 := by
  induction n generalizing s with
  | zero =>
    have hf : (rng.nextInt s total).1 ∉ res := by simpa [afterDraws] using hfresh
    refine ⟨1, (rng.nextInt s total).1, (rng.nextInt s total).2, hf, ?_⟩
    intro g
    simp only [sampleDistinct, if_neg hf]
  | succ n ih =>
    by_cases hmem : (rng.nextInt s total).1 ∈ res
    · obtain ⟨f, r, s1, hr, hg⟩ := ih (rng.nextInt s total).2 (by simpa [afterDraws] using hfresh)
      refine ⟨f + 1, r, s1, hr, ?_⟩
      intro g
      have e := hg g
      rw [← e]
      show sampleDistinct rng total (g + f + 1) (k + 1) res s = _
      simp only [sampleDistinct, if_pos hmem]
    · refine ⟨1, (rng.nextInt s total).1, (rng.nextInt s total).2, hmem, ?_⟩
      intro g
      simp only [sampleDistinct, if_neg hmem]

theorem sampleDistinct_terminates {σ : Type} (rng : Sampler σ) (hfair : rng.Fair)
    (total k : Nat) (res : List Nat) (s : σ) (hlen : res.length + k ≤ total) :
    ∃ fuel r, sampleDistinct rng total fuel k res s = some r := by
  induction k generalizing res s with
  | zero => exact ⟨0, (res, s), by simp [sampleDistinct]⟩
  | succ k ih =>
    obtain ⟨v, hv, hvn⟩ := exists_fresh total res (by omega)
    obtain ⟨n, hn⟩ := hfair s total v hv
    obtain ⟨f, r, s1, _, hg⟩ := sampleDistinct_skip rng total k res n s (by rw [hn]; exact hvn)
    obtain ⟨fuel, out, ho⟩ := ih (res ++ [r]) s1 (by simp; omega)
    exact ⟨fuel + f, out, by rw [hg fuel]; exact ho⟩

theorem counterSampler_afterDraws (b n s : Nat) : afterDraws counterSampler b n s = s + n := by
  induction n generalizing s with
  | zero => rfl
  | succ n ih =>
    simp only [afterDraws]
    rw [ih]
    simp [counterSampler]
    omega

theorem counterSampler_fair : counterSampler.Fair := by
  intro s b v hv
  refine ⟨v + (b - 1) * s, ?_⟩
  rw [counterSampler_afterDraws]
  show (s + (v + (b - 1) * s)) % b = v
  have e : s + (v + (b - 1) * s) = v + b * s := by
    have hb : 1 ≤ b := by omega
    have : (b - 1) * s + s = b * s := by
      rw [← Nat.succ_mul]
      congr 1
      omega
    omega
  rw [e, Nat.add_mul_mod_self_left, Nat.mod_eq_of_lt hv]

/-! ### `getHostWhereString` -/

theorem getHostWhereString_lt_one {σ : Type} (rng : Sampler σ) (d : Core) (fuel : Nat)
    (nHosts : Int) (w : World σ) (h : nHosts < 1) :
    getHostWhereString rng d fuel nHosts w
      = some (Outcome.panic
          (PanicValue.text ("number of hosts cannot be < 1; got " ++ sprintD nHosts)), w) := by
  simp only [getHostWhereString, bind_apply, useRand, GetRandomHosts, h, if_true, panicIfErr]

theorem getHostWhereString_gt_scale {σ : Type} (rng : Sampler σ) (d : Core) (fuel : Nat)
    (nHosts : Int) (w : World σ) (h1 : 1 ≤ nHosts) (h2 : d.Scale < nHosts) :
    getHostWhereString rng d fuel nHosts w
      = some (Outcome.panic (PanicValue.hostsExceedScale nHosts d.Scale), w) := by
  have h1n : ¬ nHosts < 1 := by omega
  have h2n : nHosts > d.Scale := h2
  simp only [getHostWhereString, bind_apply, useRand, GetRandomHosts, h1n, h2n, if_true, if_false,
    panicIfErr]

theorem getHostWhereString_valid {σ : Type} (rng : Sampler σ) (d : Core) (fuel : Nat)
    (nHosts : Int) (w : World σ) (h1 : 1 ≤ nHosts) (h2 : nHosts ≤ d.Scale) :
    getHostWhereString rng d fuel nHosts w
      = match sampleDistinct rng d.Scale.toNat fuel nHosts.toNat [] w.rand with
        | none => none
        | some (idx, s1) =>
          some (Outcome.ok (getHostWhereWithHostnames (idx.map hostName)),
            { qi := w.qi, rand := s1 }) := by
  have h1n : ¬ nHosts < 1 := by omega
  have h2n : ¬ nHosts > d.Scale := by omega
  simp only [getHostWhereString, bind_apply, useRand, GetRandomHosts, h1n, h2n, if_false]
  cases sampleDistinct rng d.Scale.toNat fuel nHosts.toNat [] w.rand with
  | none => rfl
  | some r => rfl

theorem getHostWhereString_mono {σ : Type} (rng : Sampler σ) (d : Core) (f1 f2 : Nat)
    (nHosts : Int) (w : World σ) (r : Outcome String × World σ) (hle : f1 ≤ f2)
    (h : getHostWhereString rng d f1 nHosts w = some r) :
    getHostWhereString rng d f2 nHosts w = some r := by
  by_cases h1 : nHosts < 1
  · rw [getHostWhereString_lt_one rng d _ nHosts w h1] at h ⊢
    exact h
  · by_cases h2 : d.Scale < nHosts
    · rw [getHostWhereString_gt_scale rng d _ nHosts w (by omega) h2] at h ⊢
      exact h
    · rw [getHostWhereString_valid rng d _ nHosts w (by omega) (by omega)] at h ⊢
      cases hs : sampleDistinct rng d.Scale.toNat f1 nHosts.toNat [] w.rand with
      | none => rw [hs] at h; simp at h
      | some x =>
        rw [sampleDistinct_mono rng _ f1 f2 _ _ _ x hle hs]
        rw [hs] at h
        exact h

/-! ### Frame and fuel properties of the patterns -/

theorem ReadsOnlyRand_pure {σ α : Type} (a : α) : ReadsOnlyRand (pure a : Go σ α) := by
  intro q1 q2 s
  simp [pure_apply, Untouched]

theorem ReadsOnlyRand_panicIfErr {σ α : Type} (e : Except PanicValue α) :
    ReadsOnlyRand (panicIfErr e : Go σ α) := by
  intro q1 q2 s
  cases e <;> simp [panicIfErr, pure_apply, Untouched]

theorem ReadsOnlyRand_useRand {σ α : Type} (f : σ → Option (α × σ)) :
    ReadsOnlyRand (useRand f) := by
  intro q1 q2 s
  simp only [useRand]
  cases f s with
  | none => simp [Untouched]
  | some r => simp [Untouched]

theorem ReadsOnlyRand_bind {σ α β : Type} (m : Go σ α) (k : α → Go σ β)
    (hm : ReadsOnlyRand m) (hk : ∀ a, ReadsOnlyRand (k a)) : ReadsOnlyRand (m >>= k) := by
  intro q1 q2 s
  have h := hm q1 q2 s
  simp only [bind_apply]
  cases h1 : m { qi := q1, rand := s } with
  | none =>
    cases h2 : m { qi := q2, rand := s } with
    | none => simp [Untouched]
    | some r2 => rw [h1, h2] at h; simp [Untouched] at h
  | some r1 =>
    cases h2 : m { qi := q2, rand := s } with
    | none => rw [h1, h2] at h; simp [Untouched] at h
    | some r2 =>
      rw [h1, h2] at h
      obtain ⟨o1, w1⟩ := r1
      obtain ⟨o2, w2⟩ := r2
      obtain ⟨w1q, w1r⟩ := w1
      obtain ⟨w2q, w2r⟩ := w2
      simp only [Untouched] at h
      obtain ⟨ho, hr, hq1, hq2⟩ := h
      subst ho
      subst hr hq1 hq2
      cases o1 with
      | panic p => simp [Untouched]
      | ok a => exact hk a _ _ _

theorem FillsLast_bind {σ α : Type} (m : Go σ α) (k : α → Go σ Unit)
    (hm : ReadsOnlyRand m) (hk : ∀ a, FillsLast (k a)) : FillsLast (m >>= k) := by
  intro q1 q2 s
  have h := hm q1 q2 s
  simp only [bind_apply]
  cases h1 : m { qi := q1, rand := s } with
  | none =>
    cases h2 : m { qi := q2, rand := s } with
    | none => simp [SameResult]
    | some r2 => rw [h1, h2] at h; simp [Untouched] at h
  | some r1 =>
    cases h2 : m { qi := q2, rand := s } with
    | none => rw [h1, h2] at h; simp [Untouched] at h
    | some r2 =>
      rw [h1, h2] at h
      obtain ⟨o1, w1⟩ := r1
      obtain ⟨o2, w2⟩ := r2
      obtain ⟨w1q, w1r⟩ := w1
      obtain ⟨w2q, w2r⟩ := w2
      simp only [Untouched] at h
      obtain ⟨ho, hr, hq1, hq2⟩ := h
      subst ho
      subst hr hq1 hq2
      cases o1 with
      | panic p => simp [SameResult]
      | ok a => exact hk a _ _ _

theorem FillsLast_fillInQuery {σ : Type} (humanLabel humanDesc kql : String) :
    FillsLast (fillInQuery humanLabel humanDesc kql : Go σ Unit) := by
  intro q1 q2 s
  simp [fillInQuery, SameResult, fillHTTP]

theorem ReadsOnlyRand_MustRandWindow {σ : Type} (rng : Sampler σ) (ti : TimeInterval)
    (window : Int) : ReadsOnlyRand (MustRandWindow rng ti window) := by
  unfold MustRandWindow
  exact ReadsOnlyRand_bind _ _ (ReadsOnlyRand_useRand _) (fun a => ReadsOnlyRand_panicIfErr a)

theorem ReadsOnlyRand_getHostWhereString {σ : Type} (rng : Sampler σ) (d : Core) (fuel : Nat)
    (nHosts : Int) : ReadsOnlyRand (getHostWhereString rng d fuel nHosts) := by
  unfold getHostWhereString
  exact ReadsOnlyRand_bind _ _ (ReadsOnlyRand_useRand _)
    (fun a => ReadsOnlyRand_bind _ _ (ReadsOnlyRand_panicIfErr a) (fun b => ReadsOnlyRand_pure _))

theorem FillsLast_GroupByTime {σ : Type} (rng : Sampler σ) (d : Core) (fuel : Nat)
    (nHosts numMetrics timeRange : Int) :
    FillsLast (GroupByTime rng d fuel nHosts numMetrics timeRange) := by
  unfold GroupByTime
  refine FillsLast_bind _ _ (ReadsOnlyRand_MustRandWindow _ _ _) (fun interval => ?_)
  refine FillsLast_bind _ _ (ReadsOnlyRand_panicIfErr _) (fun metrics => ?_)
  refine FillsLast_bind _ _ (ReadsOnlyRand_getHostWhereString _ _ _ _) (fun whereHosts => ?_)
  exact FillsLast_fillInQuery _ _ _

theorem FillsLast_GroupByOrderByLimit {σ : Type} (rng : Sampler σ) (d : Core) :
    FillsLast (GroupByOrderByLimit rng d) := by
  unfold GroupByOrderByLimit
  refine FillsLast_bind _ _ (ReadsOnlyRand_MustRandWindow _ _ _) (fun interval => ?_)
  exact FillsLast_fillInQuery _ _ _

theorem FillsLast_GroupByTimeAndPrimaryTag {σ : Type} (rng : Sampler σ) (d : Core)
    (numMetrics : Int) : FillsLast (GroupByTimeAndPrimaryTag rng d numMetrics) := by
  unfold GroupByTimeAndPrimaryTag
  refine FillsLast_bind _ _ (ReadsOnlyRand_panicIfErr _) (fun metrics => ?_)
  refine FillsLast_bind _ _ (ReadsOnlyRand_MustRandWindow _ _ _) (fun interval => ?_)
  exact FillsLast_fillInQuery _ _ _

theorem FillsLast_MaxAllCPU {σ : Type} (rng : Sampler σ) (d : Core) (fuel : Nat)
    (nHosts : Int) : FillsLast (MaxAllCPU rng d fuel nHosts) := by
  unfold MaxAllCPU
  refine FillsLast_bind _ _ (ReadsOnlyRand_MustRandWindow _ _ _) (fun interval => ?_)
  refine FillsLast_bind _ _ (ReadsOnlyRand_getHostWhereString _ _ _ _) (fun whereHosts => ?_)
  exact FillsLast_fillInQuery _ _ _

theorem FillsLast_LastPointPerHost {σ : Type} (d : Core) :
    FillsLast (LastPointPerHost d : Go σ Unit) := by
  unfold LastPointPerHost
  exact FillsLast_fillInQuery _ _ _

theorem FillsLast_HighCPUForHosts {σ : Type} (rng : Sampler σ) (d : Core) (fuel : Nat)
    (nHosts : Int) : FillsLast (HighCPUForHosts rng d fuel nHosts) := by
  unfold HighCPUForHosts
  refine FillsLast_bind _ _ (ReadsOnlyRand_MustRandWindow _ _ _) (fun interval => ?_)
  refine FillsLast_bind _ _ ?_ (fun hostWhereClause => ?_)
  · split
    · exact ReadsOnlyRand_pure _
    · exact ReadsOnlyRand_bind _ _ (ReadsOnlyRand_getHostWhereString _ _ _ _)
        (fun a => ReadsOnlyRand_pure _)
  · refine FillsLast_bind _ _ (ReadsOnlyRand_panicIfErr _) (fun humanLabel => ?_)
    exact FillsLast_fillInQuery _ _ _

theorem FillsLast_body {σ : Type} (rng : Sampler σ) (d : Core) (fuel : Nat) (c : Call) :
    FillsLast (c.body rng d fuel) := by
  cases c with
  | groupByTime a b t => exact FillsLast_GroupByTime rng d fuel a b t
  | groupByOrderByLimit => exact FillsLast_GroupByOrderByLimit rng d
  | groupByTimeAndPrimaryTag n => exact FillsLast_GroupByTimeAndPrimaryTag rng d n
  | maxAllCPU n => exact FillsLast_MaxAllCPU rng d fuel n
  | lastPointPerHost => exact FillsLast_LastPointPerHost d
  | highCPUForHosts n => exact FillsLast_HighCPUForHosts rng d fuel n

theorem Extends_refl {σ α : Type} (m : Go σ α) : Extends m m := fun _ _ h => h

theorem Extends_bind {σ α β : Type} (m1 m2 : Go σ α) (k1 k2 : α → Go σ β)
    (hm : Extends m1 m2) (hk : ∀ a, Extends (k1 a) (k2 a)) :
    Extends (m1 >>= k1) (m2 >>= k2) := by
  intro w r h
  rw [bind_apply] at h ⊢
  cases h1 : m1 w with
  | none => rw [h1] at h; simp at h
  | some x =>
    rw [hm w x h1]
    rw [h1] at h
    obtain ⟨o, w1⟩ := x
    cases o with
    | panic p => exact h
    | ok a => exact hk a w1 r h

theorem Extends_getHostWhereString {σ : Type} (rng : Sampler σ) (d : Core) (f1 f2 : Nat)
    (nHosts : Int) (hle : f1 ≤ f2) :
    Extends (getHostWhereString rng d f1 nHosts) (getHostWhereString rng d f2 nHosts) :=
  fun w r h => getHostWhereString_mono rng d f1 f2 nHosts w r hle h

theorem Extends_body {σ : Type} (rng : Sampler σ) (d : Core) (f1 f2 : Nat) (c : Call)
    (hle : f1 ≤ f2) : Extends (c.body rng d f1) (c.body rng d f2) := by
  cases c with
  | groupByTime a b t =>
    simp only [Call.body, GroupByTime]
    refine Extends_bind _ _ _ _ (Extends_refl _) (fun interval => ?_)
    refine Extends_bind _ _ _ _ (Extends_refl _) (fun metrics => ?_)
    refine Extends_bind _ _ _ _ (Extends_getHostWhereString rng d f1 f2 a hle) (fun wh => ?_)
    exact Extends_refl _
  | groupByOrderByLimit => exact Extends_refl _
  | groupByTimeAndPrimaryTag n => exact Extends_refl _
  | maxAllCPU n =>
    simp only [Call.body, MaxAllCPU]
    refine Extends_bind _ _ _ _ (Extends_refl _) (fun interval => ?_)
    refine Extends_bind _ _ _ _ (Extends_getHostWhereString rng d f1 f2 n hle) (fun wh => ?_)
    exact Extends_refl _
  | lastPointPerHost => exact Extends_refl _
  | highCPUForHosts n =>
    simp only [Call.body, HighCPUForHosts]
    refine Extends_bind _ _ _ _ (Extends_refl _) (fun interval => ?_)
    refine Extends_bind _ _ _ _ ?_ (fun hc => Extends_refl _)
    split
    · exact Extends_refl _
    · exact Extends_bind _ _ _ _ (Extends_getHostWhereString rng d f1 f2 n hle)
        (fun a => Extends_refl _)

theorem runCase_mono {σ : Type} (rng : Sampler σ) (d : Core) (f1 f2 : Nat) (c : Call) (s : σ)
    (r : Observation × σ) (hle : f1 ≤ f2) (h : runCase rng d f1 c s = some r) :
    runCase rng d f2 c s = some r := by
  simp only [runCase] at h ⊢
  cases h1 : c.body rng d f1 { qi := GenerateEmptyQuery, rand := s } with
  | none => rw [h1] at h; simp at h
  | some x =>
    rw [Extends_body rng d f1 f2 c hle _ x h1]
    rw [h1] at h
    exact h

theorem runCases_mono {σ : Type} (rng : Sampler σ) (d : Core) (f1 f2 : Nat) (cs : List Call)
    (s : σ) (r : List Observation × σ) (hle : f1 ≤ f2) (h : runCases rng d f1 cs s = some r) :
    runCases rng d f2 cs s = some r := by
  induction cs generalizing s r with
  | nil => simpa [runCases] using h
  | cons c cs ih =>
    simp only [runCases] at h ⊢
    cases h1 : runCase rng d f1 c s with
    | none => rw [h1] at h; simp at h
    | some x =>
      rw [runCase_mono rng d f1 f2 c s x hle h1]
      rw [h1] at h
      obtain ⟨o, s1⟩ := x
      simp only at h ⊢
      cases h2 : runCases rng d f1 cs s1 with
      | none => rw [h2] at h; simp at h
      | some y =>
        rw [ih s1 y h2]
        rw [h2] at h
        exact h

theorem FillsLast_panic_keeps {σ : Type} (m : Go σ Unit) (hm : FillsLast m) (w w1 : World σ)
    (p : PanicValue) (h : m w = some (Outcome.panic p, w1)) : w1.qi = w.qi := by
  have h0 := hm w.qi w.qi w.rand
  have e : ({ qi := w.qi, rand := w.rand } : World σ) = w := rfl
  rw [e, h] at h0
  simp only [SameResult] at h0
  exact h0.2.2.1

theorem GetCPUMetricsSlice_valid (numMetrics : Int) (h1 : 1 ≤ numMetrics)
    (h2 : numMetrics ≤ 10) :
    GetCPUMetricsSlice numMetrics = Except.ok (cpuMetrics.take numMetrics.toNat) := by
  have a : ¬ numMetrics < 1 := by omega
  have b : ¬ numMetrics > (cpuMetrics.length : Int) := by
    have : (cpuMetrics.length : Int) = 10 := by decide
    omega
  simp only [GetCPUMetricsSlice, a, b, if_false]

theorem GroupByTime_hosts_lt_one {σ : Type} (rng : Sampler σ) (d : Core) (fuel : Nat)
    (nHosts numMetrics timeRange : Int) (w : World σ) (hn : nHosts < 1)
    (ht : timeRange ≤ d.Interval.stop - d.Interval.start) (h0 : 0 ≤ timeRange)
    (h1 : 1 ≤ numMetrics) (h2 : numMetrics ≤ 10) :
    ∃ iv s1, RandWindow rng d.Interval timeRange w.rand = (Except.ok iv, s1)
      ∧ GroupByTime rng d fuel nHosts numMetrics timeRange w
        = some (Outcome.panic
            (PanicValue.text ("number of hosts cannot be < 1; got " ++ sprintD nHosts)),
            { qi := w.qi, rand := s1 }) := by
  obtain ⟨iv, s1, e1, e2⟩ := MustRandWindow_fits rng d.Interval timeRange w ht h0
  refine ⟨iv, s1, e1, ?_⟩
  unfold GroupByTime
  rw [bind_ok _ _ _ _ _ e2, GetCPUMetricsSlice_valid numMetrics h1 h2]
  simp only [panicIfErr, bind_apply, pure_apply]
  rw [getHostWhereString_lt_one rng d fuel nHosts _ hn]

theorem MaxAllCPU_hosts_lt_one {σ : Type} (rng : Sampler σ) (d : Core) (fuel : Nat)
    (nHosts : Int) (w : World σ) (hn : nHosts < 1)
    (ht : MaxAllDuration ≤ d.Interval.stop - d.Interval.start) :
    ∃ iv s1, RandWindow rng d.Interval MaxAllDuration w.rand = (Except.ok iv, s1)
      ∧ MaxAllCPU rng d fuel nHosts w
        = some (Outcome.panic
            (PanicValue.text ("number of hosts cannot be < 1; got " ++ sprintD nHosts)),
            { qi := w.qi, rand := s1 }) := by
  obtain ⟨iv, s1, e1, e2⟩ := MustRandWindow_fits rng d.Interval MaxAllDuration w ht (by decide)
  refine ⟨iv, s1, e1, ?_⟩
  unfold MaxAllCPU
  rw [bind_ok _ _ _ _ _ e2]
  simp only [bind_apply]
  rw [getHostWhereString_lt_one rng d fuel nHosts _ hn]

theorem HighCPUForHosts_hosts_lt_zero {σ : Type} (rng : Sampler σ) (d : Core) (fuel : Nat)
    (nHosts : Int) (w : World σ) (hn : nHosts < 1) (h0 : nHosts ≠ 0)
    (ht : HighCPUDuration ≤ d.Interval.stop - d.Interval.start) :
    ∃ iv s1, RandWindow rng d.Interval HighCPUDuration w.rand = (Except.ok iv, s1)
      ∧ HighCPUForHosts rng d fuel nHosts w
        = some (Outcome.panic
            (PanicValue.text ("number of hosts cannot be < 1; got " ++ sprintD nHosts)),
            { qi := w.qi, rand := s1 }) := by
  obtain ⟨iv, s1, e1, e2⟩ := MustRandWindow_fits rng d.Interval HighCPUDuration w ht (by decide)
  refine ⟨iv, s1, e1, ?_⟩
  unfold HighCPUForHosts
  rw [bind_ok _ _ _ _ _ e2]
  simp only [bind_apply, if_neg h0]
  rw [getHostWhereString_lt_one rng d fuel nHosts _ hn]

/-! ### Characters of a rendered instant -/

theorem repr_chars (n : Nat) : ∀ c ∈ (Nat.repr n).data, c.isDigit = true := by
  rw [repr_data]
  exact toDigits_isDigit n

theorem pad2_chars (n : Nat) : ∀ c ∈ (pad2 n).data, c.isDigit = true := by
  intro c hc
  unfold pad2 at hc
  split at hc
  · rw [String.data_append, List.mem_append] at hc
    rcases hc with h | h
    · have e : c = '0' := by simpa using h
      subst e
      decide
    · exact repr_chars n c h
  · exact repr_chars n c hc

theorem pad4_chars (y : Int) : ∀ c ∈ (pad4 y).data, c.isDigit = true ∨ c = '-' := by
  intro c hc
  have hbody : ∀ c ∈ (String.mk (List.replicate (4 - (Nat.repr y.natAbs).length) '0')
      ++ Nat.repr y.natAbs).data, c.isDigit = true := by
    intro c hc
    rw [String.data_append, List.mem_append] at hc
    rcases hc with h | h
    · have e : c = '0' := (List.mem_replicate.mp h).2
      subst e
      decide
    · exact repr_chars _ c h
  unfold pad4 at hc
  simp only at hc
  split at hc
  · rw [String.data_append, List.mem_append] at hc
    rcases hc with h | h
    · right
      simpa using h
    · exact Or.inl (hbody c h)
  · exact Or.inl (hbody c hc)

theorem formatRFC3339_chars (t : Int) :
    ∀ c ∈ (formatRFC3339 t).data,
      c.isDigit = true ∨ c = '-' ∨ c = 'T' ∨ c = ':' ∨ c = 'Z' := by
  intro c hc
  unfold formatRFC3339 at hc
  simp only [String.data_append, List.mem_append] at hc
  have hlit : ∀ (x : Char), c ∈ (String.mk [x]).data → c = x := by
    intro x hx
    simpa using hx
  rcases hc with (((((((((((h | h) | h) | h) | h) | h) | h) | h) | h) | h) | h) | h)
  · rcases pad4_chars _ c h with h1 | h1
    · exact Or.inl h1
    · exact Or.inr (Or.inl h1)
  · exact Or.inr (Or.inl (hlit '-' h))
  · exact Or.inl (pad2_chars _ c h)
  · exact Or.inr (Or.inl (hlit '-' h))
  · exact Or.inl (pad2_chars _ c h)
  · exact Or.inr (Or.inr (Or.inl (hlit 'T' h)))
  · exact Or.inl (pad2_chars _ c h)
  · exact Or.inr (Or.inr (Or.inr (Or.inl (hlit ':' h))))
  · exact Or.inl (pad2_chars _ c h)
  · exact Or.inr (Or.inr (Or.inr (Or.inl (hlit ':' h))))
  · exact Or.inl (pad2_chars _ c h)
  · exact Or.inr (Or.inr (Or.inr (Or.inr (hlit 'Z' h))))

theorem formatRFC3339_no_o (t : Int) : 'o' ∉ (formatRFC3339 t).data := by
  intro h
  rcases formatRFC3339_chars t 'o' h with h1 | h1 | h1 | h1 | h1
  · exact absurd h1 (by decide)
  · exact absurd h1 (by decide)
  · exact absurd h1 (by decide)
  · exact absurd h1 (by decide)
  · exact absurd h1 (by decide)

/-! ### Parsing a host clause back -/

theorem stripPrefix_append (p l : List Char) : stripPrefix p (p ++ l) = some l := by
  induction p with
  | nil => cases l <;> rfl
  | cons c cs ih => simp [stripPrefix, ih]

theorem stripSuffix_append (s l : List Char) : stripSuffix s (l ++ s) = some l := by
  simp [stripSuffix, List.reverse_append, stripPrefix_append]

theorem splitCommaSpace_ne_nil (l : List Char) : splitCommaSpace l ≠ [] := by
  induction l with
  | nil => simp [splitCommaSpace]
  | cons c rest ih =>
    rw [splitCommaSpace.eq_def]
    split
    · simp
    · simp
    · split <;> simp

theorem splitCommaSpace_cons_of_ne (c : Char) (rest : List Char) (hc : c ≠ ',') :
    splitCommaSpace (c :: rest)
      = match splitCommaSpace rest with
        | [] => [[c]]
        | p :: ps => (c :: p) :: ps :=
  splitCommaSpace.eq_3 c rest (fun _ h _ => hc h)

theorem splitCommaSpace_single (a : List Char) (ha : ',' ∉ a) : splitCommaSpace a = [a] := by
  induction a with
  | nil => rfl
  | cons c t ih =>
    have hc : c ≠ ',' := fun e => ha (by simp [e])
    have ht : ',' ∉ t := fun e => ha (by simp [e])
    rw [splitCommaSpace_cons_of_ne c t hc, ih ht]

theorem splitCommaSpace_append (a rest : List Char) (ha : ',' ∉ a) :
    splitCommaSpace (a ++ ',' :: ' ' :: rest) = a :: splitCommaSpace rest := by
  induction a with
  | nil => simp [splitCommaSpace]
  | cons c t ih =>
    have hc : c ≠ ',' := fun e => ha (by simp [e])
    have ht : ',' ∉ t := fun e => ha (by simp [e])
    rw [List.cons_append, splitCommaSpace_cons_of_ne c _ hc, ih ht]

theorem unquote_quoted (h : List Char) : unquote ("'".data ++ h ++ "'".data) = some h := by
  unfold unquote
  rw [List.append_assoc, stripPrefix_append]
  simp only [Option.bind_some]
  exact stripSuffix_append _ _

/-- The characters of the clause body: the quoted names separated by `, `. -/
theorem quotedRest_data (t : List String) :
    (quotedRest t).data = (t.map (fun x => ", '".data ++ x.data ++ "'".data)).flatten := by
  induction t with
  | nil => rfl
  | cons x xs ih =>
    simp only [quotedRest, String.data_append, List.map_cons, List.flatten_cons, ih]

theorem unquoteAll_cons (p h : List Char) (ps : List (List Char)) (hs : List String)
    (e1 : unquote p = some h) (e2 : unquoteAll ps = some hs) :
    unquoteAll (p :: ps) = some (String.mk h :: hs) := by
  simp only [unquoteAll, e1, e2]

theorem unquoteAll_body (h : String) (t : List String) (hh : ',' ∉ h.data)
    (ht : ∀ x ∈ t, ',' ∉ x.data) :
    unquoteAll (splitCommaSpace ("'".data ++ h.data ++ "'".data
        ++ (t.map (fun x => ", '".data ++ x.data ++ "'".data)).flatten))
      = some (h :: t) := by
  induction t generalizing h with
  | nil =>
    have hq : ',' ∉ "'".data ++ h.data ++ "'".data := by
      simp only [List.mem_append, not_or]
      exact ⟨⟨by decide, hh⟩, by decide⟩
    rw [List.map_nil, List.flatten_nil, List.append_nil, splitCommaSpace_single _ hq]
    exact unquoteAll_cons _ _ _ _ (unquote_quoted h.data) rfl
  | cons x xs ih =>
    have hq : ',' ∉ "'".data ++ h.data ++ "'".data := by
      simp only [List.mem_append, not_or]
      exact ⟨⟨by decide, hh⟩, by decide⟩
    have hx : ',' ∉ x.data := ht x (by simp)
    have hxs : ∀ y ∈ xs, ',' ∉ y.data := fun y hy => ht y (by simp [hy])
    have e : "'".data ++ h.data ++ "'".data
          ++ ((x :: xs).map (fun x => ", '".data ++ x.data ++ "'".data)).flatten
        = ("'".data ++ h.data ++ "'".data) ++ ',' :: ' ' ::
            ("'".data ++ x.data ++ "'".data
              ++ (xs.map (fun x => ", '".data ++ x.data ++ "'".data)).flatten) := by
      rw [List.map_cons, List.flatten_cons]
      simp only [List.append_assoc]
      rfl
    rw [e, splitCommaSpace_append _ _ hq]
    exact unquoteAll_cons _ _ _ _ (unquote_quoted h.data) (ih x hx hxs)

theorem getHostWhereWithHostnames_data (h : String) (t : List String) :
    (getHostWhereWithHostnames (h :: t)).data
      = "hostname in (".data ++ ("'".data ++ h.data ++ "'".data
          ++ (t.map (fun x => ", '".data ++ x.data ++ "'".data)).flatten) ++ ")".data := by
  rw [getHostWhereWithHostnames_cons]
  simp only [String.data_append, quotedRest_data, List.append_assoc]
  rfl

theorem parseHostClause_render (h : String) (t : List String) (hh : ',' ∉ h.data)
    (ht : ∀ x ∈ t, ',' ∉ x.data) :
    parseHostClause (getHostWhereWithHostnames (h :: t)) = some (h :: t) := by
  have e1 : stripPrefix "hostname in (".data (getHostWhereWithHostnames (h :: t)).data
      = some (("'".data ++ h.data ++ "'".data
          ++ (t.map (fun x => ", '".data ++ x.data ++ "'".data)).flatten) ++ ")".data) := by
    rw [getHostWhereWithHostnames_data, List.append_assoc]
    exact stripPrefix_append _ _
  unfold parseHostClause
  rw [e1]
  show (stripSuffix ")".data (("'".data ++ h.data ++ "'".data
          ++ (t.map (fun x => ", '".data ++ x.data ++ "'".data)).flatten) ++ ")".data)).bind _ = _
  rw [stripSuffix_append]
  exact unquoteAll_body h t hh ht

theorem hostName_no_comma (n : Nat) : ',' ∉ (hostName n).data := by
  rw [hostName_data]
  intro h
  rcases List.mem_append.mp h with h1 | h1
  · exact absurd h1 (by decide)
  · exact absurd (toDigits_isDigit n _ h1) (by decide)

/-! ### Inversion of successful calls -/

theorem bind_ok_inv {σ α β : Type} (m : Go σ α) (f : α → Go σ β) (w w1 : World σ) (b : β)
    (h : (m >>= f) w = some (Outcome.ok b, w1)) :
    ∃ a w0, m w = some (Outcome.ok a, w0) ∧ f a w0 = some (Outcome.ok b, w1) := by
  rw [bind_apply] at h
  cases hm : m w with
  | none => rw [hm] at h; simp at h
  | some x =>
    obtain ⟨o, w0⟩ := x
    rw [hm] at h
    cases o with
    | panic p => simp at h
    | ok a => exact ⟨a, w0, rfl, h⟩

theorem panicIfErr_ok_inv {σ α : Type} (e : Except PanicValue α) (w w1 : World σ) (a : α)
    (h : panicIfErr e w = some (Outcome.ok a, w1)) : e = Except.ok a ∧ w1 = w := by
  cases e with
  | error p => simp [panicIfErr] at h
  | ok x =>
    simp only [panicIfErr, pure_apply, Option.some.injEq, Prod.mk.injEq, Outcome.ok.injEq] at h
    exact ⟨by rw [h.1], h.2.symm⟩

theorem RandWindow_ok_inv {σ : Type} (rng : Sampler σ) (ti : TimeInterval) (window : Int)
    (s s1 : σ) (iv : TimeInterval) (h : RandWindow rng ti window s = (Except.ok iv, s1)) :
    window ≤ ti.stop - ti.start ∧ iv.stop - iv.start = window ∧ ti.start ≤ iv.start
      ∧ iv.stop ≤ ti.stop := by
  unfold RandWindow at h
  by_cases hw : window > ti.stop - ti.start
  · rw [if_pos hw] at h
    simp at h
  · rw [if_neg hw] at h
    by_cases hneg : window < 0
    · rw [if_pos hneg] at h
      simp at h
    rw [if_neg hneg] at h
    simp only [Prod.mk.injEq, Except.ok.injEq] at h
    have hb : 0 < (ti.stop - ti.start - window + 1).toNat := by omega
    have hlt := rng.nextInt_lt s _ hb
    obtain ⟨hiv, _⟩ := h
    subst hiv
    simp only
    refine ⟨by omega, by omega, by omega, ?_⟩
    have : ((rng.nextInt s (ti.stop - ti.start - window + 1).toNat).1 : Int)
        < ti.stop - ti.start - window + 1 := by omega
    omega

theorem MustRandWindow_ok_inv {σ : Type} (rng : Sampler σ) (ti : TimeInterval) (window : Int)
    (w w1 : World σ) (iv : TimeInterval)
    (h : MustRandWindow rng ti window w = some (Outcome.ok iv, w1)) :
    RandWindow rng ti window w.rand = (Except.ok iv, w1.rand) ∧ w1.qi = w.qi := by
  by_cases hw : window ≤ ti.stop - ti.start
  · by_cases h0 : 0 ≤ window
    · obtain ⟨iv0, s1, e1, e2⟩ := MustRandWindow_fits rng ti window w hw h0
      rw [e2] at h
      simp only [Option.some.injEq, Prod.mk.injEq, Outcome.ok.injEq] at h
      obtain ⟨h1, h2⟩ := h
      subst h1 h2
      exact ⟨e1, rfl⟩
    · rw [MustRandWindow_negative rng ti window w hw (by omega)] at h
      simp at h
  · rw [MustRandWindow_tooLarge rng ti window w (by omega)] at h
    simp at h

theorem getHostWhereString_ok_inv {σ : Type} (rng : Sampler σ) (d : Core) (fuel : Nat)
    (nHosts : Int) (w w1 : World σ) (clause : String)
    (h : getHostWhereString rng d fuel nHosts w = some (Outcome.ok clause, w1)) :
    1 ≤ nHosts ∧ nHosts ≤ d.Scale
      ∧ ∃ idx s2, sampleDistinct rng d.Scale.toNat fuel nHosts.toNat [] w.rand = some (idx, s2)
          ∧ (idx.length : Int) = nHosts
          ∧ clause = getHostWhereWithHostnames (idx.map hostName)
          ∧ w1 = { qi := w.qi, rand := s2 } := by
  by_cases h1 : nHosts < 1
  · rw [getHostWhereString_lt_one rng d fuel nHosts w h1] at h
    simp at h
  · by_cases h2 : d.Scale < nHosts
    · rw [getHostWhereString_gt_scale rng d fuel nHosts w (by omega) h2] at h
      simp at h
    · refine ⟨by omega, by omega, ?_⟩
      rw [getHostWhereString_valid rng d fuel nHosts w (by omega) (by omega)] at h
      cases hsd : sampleDistinct rng d.Scale.toNat fuel nHosts.toNat [] w.rand with
      | none => rw [hsd] at h; simp at h
      | some r =>
        obtain ⟨idx, s2⟩ := r
        rw [hsd] at h
        simp only [Option.some.injEq, Prod.mk.injEq, Outcome.ok.injEq] at h
        obtain ⟨n, _, _, hout, hlen⟩ := sampleDistinct_spec rng _ fuel _ [] w.rand idx s2 hsd
        simp only [List.nil_append] at hout
        refine ⟨idx, s2, rfl, ?_, h.1.symm, h.2.symm⟩
        rw [hout, hlen]
        omega

theorem fillInQuery_apply {σ : Type} (humanLabel humanDesc kql : String) (w : World σ) :
    fillInQuery humanLabel humanDesc kql w
      = some (Outcome.ok (), { qi := fillHTTP w.qi humanLabel humanDesc kql, rand := w.rand }) :=
  rfl

theorem GetCPUMetricsSlice_ok_inv (numMetrics : Int) (metrics : List String)
    (h : GetCPUMetricsSlice numMetrics = Except.ok metrics) :
    1 ≤ numMetrics ∧ numMetrics ≤ 10 ∧ metrics = cpuMetrics.take numMetrics.toNat := by
  have hlen : (cpuMetrics.length : Int) = 10 := by decide
  unfold GetCPUMetricsSlice at h
  by_cases h1 : numMetrics < 1
  · rw [if_pos h1] at h
    exact Except.noConfusion h
  · rw [if_neg h1] at h
    by_cases h2 : numMetrics > (cpuMetrics.length : Int)
    · rw [if_pos h2] at h
      exact Except.noConfusion h
    · rw [if_neg h2] at h
      simp only [Except.ok.injEq] at h
      exact ⟨by omega, by omega, h.symm⟩

theorem GroupByTime_ok_inv {σ : Type} (rng : Sampler σ) (d : Core) (fuel : Nat)
    (nHosts numMetrics timeRange : Int) (w w1 : World σ) (u : Unit)
    (h : GroupByTime rng d fuel nHosts numMetrics timeRange w = some (Outcome.ok u, w1)) :
    ∃ iv s1 idx s2,
      RandWindow rng d.Interval timeRange w.rand = (Except.ok iv, s1)
      ∧ 1 ≤ numMetrics ∧ numMetrics ≤ 10 ∧ 1 ≤ nHosts ∧ nHosts ≤ d.Scale
      ∧ sampleDistinct rng d.Scale.toNat fuel nHosts.toNat [] s1 = some (idx, s2)
      ∧ (idx.length : Int) = nHosts
      ∧ w1 = { qi := fillHTTP w.qi
                ("Kusto " ++ sprintD numMetrics ++ " cpu metric(s), random " ++ sprint4D nHosts
                  ++ " hosts, random " ++ DurationString timeRange ++ " by 1m")
                ("Kusto " ++ sprintD numMetrics ++ " cpu metric(s), random " ++ sprint4D nHosts
                  ++ " hosts, random " ++ DurationString timeRange ++ " by 1m" ++ ": "
                  ++ iv.StartString)
                ("cpu | where " ++ getHostWhereWithHostnames (idx.map hostName)
                  ++ " and timestamp >= datetime('" ++ iv.StartString
                  ++ "') and timestamp < datetime('" ++ iv.EndString ++ "') | summarize "
                  ++ stringsJoin
                      (getSelectClausesAggMetrics "max" (cpuMetrics.take numMetrics.toNat)) ", "
                  ++ " by bin(timestamp, 1m) | order by timestamp asc"),
               rand := s2 } := by
  unfold GroupByTime at h
  obtain ⟨iv, w0, e1, h⟩ := bind_ok_inv _ _ _ _ _ h
  obtain ⟨hw, hq⟩ := MustRandWindow_ok_inv rng d.Interval timeRange w w0 iv e1
  obtain ⟨metrics, w0a, e2, h⟩ := bind_ok_inv _ _ _ _ _ h
  obtain ⟨hm, hw0a⟩ := panicIfErr_ok_inv _ _ _ _ e2
  rw [hw0a] at h
  obtain ⟨m1, m2, m3⟩ := GetCPUMetricsSlice_ok_inv numMetrics metrics hm
  obtain ⟨clause, w2, e3, h⟩ := bind_ok_inv _ _ _ _ _ h
  obtain ⟨n1, n2, idx, s2, hsd, hlen, hcl, hw2⟩ :=
    getHostWhereString_ok_inv rng d fuel nHosts w0 w2 clause e3
  rw [fillInQuery_apply] at h
  simp only [Option.some.injEq, Prod.mk.injEq, true_and] at h
  refine ⟨iv, w0.rand, idx, s2, hw, m1, m2, n1, n2, hsd, hlen, ?_⟩
  rw [← h, hw2, hcl, m3, hq]

theorem MaxAllCPU_ok_inv {σ : Type} (rng : Sampler σ) (d : Core) (fuel : Nat)
    (nHosts : Int) (w w1 : World σ) (u : Unit)
    (h : MaxAllCPU rng d fuel nHosts w = some (Outcome.ok u, w1)) :
    ∃ iv s1 idx s2,
      RandWindow rng d.Interval MaxAllDuration w.rand = (Except.ok iv, s1)
      ∧ 1 ≤ nHosts ∧ nHosts ≤ d.Scale
      ∧ sampleDistinct rng d.Scale.toNat fuel nHosts.toNat [] s1 = some (idx, s2)
      ∧ (idx.length : Int) = nHosts
      ∧ w1 = { qi := fillHTTP w.qi (GetMaxAllLabel "Kusto" nHosts)
                (GetMaxAllLabel "Kusto" nHosts ++ ": " ++ iv.StartString)
                ("cpu | where " ++ getHostWhereWithHostnames (idx.map hostName)
                  ++ " and timestamp >= datetime('" ++ iv.StartString
                  ++ "') and timestamp < datetime('" ++ iv.EndString ++ "') | summarize "
                  ++ stringsJoin (getSelectClausesAggMetrics "max" GetAllCPUMetrics) ","
                  ++ " by bin(timestamp, 1h) | order by timestamp"),
               rand := s2 } := by
  unfold MaxAllCPU at h
  obtain ⟨iv, w0, e1, h⟩ := bind_ok_inv _ _ _ _ _ h
  obtain ⟨hw, hq⟩ := MustRandWindow_ok_inv rng d.Interval MaxAllDuration w w0 iv e1
  obtain ⟨clause, w2, e3, h⟩ := bind_ok_inv _ _ _ _ _ h
  obtain ⟨n1, n2, idx, s2, hsd, hlen, hcl, hw2⟩ :=
    getHostWhereString_ok_inv rng d fuel nHosts w0 w2 clause e3
  rw [fillInQuery_apply] at h
  simp only [Option.some.injEq, Prod.mk.injEq, true_and] at h
  refine ⟨iv, w0.rand, idx, s2, hw, n1, n2, hsd, hlen, ?_⟩
  rw [← h, hw2, hcl, hq]

theorem GroupByTimeAndPrimaryTag_ok_inv {σ : Type} (rng : Sampler σ) (d : Core)
    (numMetrics : Int) (w w1 : World σ) (u : Unit)
    (h : GroupByTimeAndPrimaryTag rng d numMetrics w = some (Outcome.ok u, w1)) :
    ∃ iv s1,
      RandWindow rng d.Interval DoubleGroupByDuration w.rand = (Except.ok iv, s1)
      ∧ 1 ≤ numMetrics ∧ numMetrics ≤ 10
      ∧ w1 = { qi := fillHTTP w.qi (GetDoubleGroupByLabel "Kusto" numMetrics)
                (GetDoubleGroupByLabel "Kusto" numMetrics ++ ": " ++ iv.StartString)
                ("cpu | where timestamp >= datetime('" ++ iv.StartString
                  ++ "') and timestamp < datetime('" ++ iv.EndString ++ "') | summarize "
                  ++ stringsJoin
                      (getSelectClausesAggMetrics "avg" (cpuMetrics.take numMetrics.toNat)) ", "
                  ++ " by bin(timestamp, 1h), hostname | order by timestamp"),
               rand := s1 } := by
  unfold GroupByTimeAndPrimaryTag at h
  obtain ⟨metrics, w0a, e2, h⟩ := bind_ok_inv _ _ _ _ _ h
  obtain ⟨hm, hw0a⟩ := panicIfErr_ok_inv _ _ _ _ e2
  rw [hw0a] at h
  obtain ⟨m1, m2, m3⟩ := GetCPUMetricsSlice_ok_inv numMetrics metrics hm
  obtain ⟨iv, w0, e1, h⟩ := bind_ok_inv _ _ _ _ _ h
  obtain ⟨hw, hq⟩ := MustRandWindow_ok_inv rng d.Interval DoubleGroupByDuration w w0 iv e1
  rw [fillInQuery_apply] at h
  simp only [Option.some.injEq, Prod.mk.injEq, true_and] at h
  refine ⟨iv, w0.rand, hw, m1, m2, ?_⟩
  rw [← h, m3, hq]

theorem GroupByOrderByLimit_ok_inv {σ : Type} (rng : Sampler σ) (d : Core)
    (w w1 : World σ) (u : Unit)
    (h : GroupByOrderByLimit rng d w = some (Outcome.ok u, w1)) :
    ∃ iv s1,
      RandWindow rng d.Interval Hour w.rand = (Except.ok iv, s1)
      ∧ w1 = { qi := fillHTTP w.qi "Kusto max cpu over last 5 min-intervals (random end)"
                ("Kusto max cpu over last 5 min-intervals (random end)" ++ ": "
                  ++ iv.StartString)
                ("cpu | " ++ ("where timestamp < datetime('" ++ iv.EndString ++ "')")
                  ++ " | summarize max(usage_user) by bin(timestamp, 1m) | top 5 by timestamp desc"),
               rand := s1 } := by
  unfold GroupByOrderByLimit at h
  obtain ⟨iv, w0, e1, h⟩ := bind_ok_inv _ _ _ _ _ h
  obtain ⟨hw, hq⟩ := MustRandWindow_ok_inv rng d.Interval Hour w w0 iv e1
  rw [fillInQuery_apply] at h
  simp only [Option.some.injEq, Prod.mk.injEq, true_and] at h
  refine ⟨iv, w0.rand, hw, ?_⟩
  rw [← h, hq]

theorem HighCPUForHosts_ok_inv {σ : Type} (rng : Sampler σ) (d : Core) (fuel : Nat)
    (nHosts : Int) (w w1 : World σ) (u : Unit)
    (h : HighCPUForHosts rng d fuel nHosts w = some (Outcome.ok u, w1)) :
    ∃ iv s1 humanLabel hostWhereClause,
      RandWindow rng d.Interval HighCPUDuration w.rand = (Except.ok iv, s1)
      ∧ w1.qi = fillHTTP w.qi humanLabel (humanLabel ++ ": " ++ iv.StartString)
          ("cpu | where usage_user > 90.0 " ++ hostWhereClause
            ++ " and timestamp >= datetime('" ++ iv.StartString
            ++ "') and timestamp < datetime('" ++ iv.EndString ++ "')") := by
  unfold HighCPUForHosts at h
  obtain ⟨iv, w0, e1, h⟩ := bind_ok_inv _ _ _ _ _ h
  obtain ⟨hw, hq⟩ := MustRandWindow_ok_inv rng d.Interval HighCPUDuration w w0 iv e1
  obtain ⟨hc, w2, e3, h⟩ := bind_ok_inv _ _ _ _ _ h
  obtain ⟨humanLabel, w3, e4, h⟩ := bind_ok_inv _ _ _ _ _ h
  obtain ⟨_, hw3⟩ := panicIfErr_ok_inv _ _ _ _ e4
  rw [hw3] at h
  rw [fillInQuery_apply] at h
  simp only [Option.some.injEq, Prod.mk.injEq, true_and] at h
  have hq2 : w2.qi = w0.qi := by
    by_cases h0 : nHosts = 0
    · rw [if_pos h0, pure_apply] at e3
      simp only [Option.some.injEq, Prod.mk.injEq, Outcome.ok.injEq] at e3
      rw [← e3.2]
    · rw [if_neg h0] at e3
      obtain ⟨cl, w4, e5, e6⟩ := bind_ok_inv _ _ _ _ _ e3
      obtain ⟨_, _, _, s2, _, _, _, hw4⟩ := getHostWhereString_ok_inv rng d fuel nHosts w0 w4 cl e5
      rw [pure_apply] at e6
      simp only [Option.some.injEq, Prod.mk.injEq, Outcome.ok.injEq] at e6
      rw [← e6.2, hw4]
  refine ⟨iv, w0.rand, humanLabel, hc, hw, ?_⟩
  rw [← h, hq2, hq]

/-! ### Texts without a host predicate -/

theorem hasPair_append_right (a b : Char) (x y : List Char) (h : hasPair a b y = true) :
    hasPair a b (x ++ y) = true := by
  induction x with
  | nil => exact h
  | cons c t ih => simp [hasPair, ih]

theorem hasPair_append_left (a b : Char) (x y : List Char) (h : hasPair a b x = true) :
    hasPair a b (x ++ y) = true := by
  induction x with
  | nil => simp [hasPair] at h
  | cons c t ih =>
    simp only [hasPair, Bool.or_eq_true, Bool.and_eq_true] at h
    simp only [List.cons_append, hasPair, Bool.or_eq_true, Bool.and_eq_true]
    rcases h with ⟨h1, h2⟩ | h
    · left
      refine ⟨h1, ?_⟩
      cases t with
      | nil => simp at h2
      | cons e u => simpa using h2
    · exact Or.inr (ih h)

theorem hasPair_of_infix (a b : Char) (p l : List Char) (hp : p <:+: l)
    (h : hasPair a b p = true) : hasPair a b l = true := by
  obtain ⟨pre, post, rfl⟩ := hp
  exact hasPair_append_left a b _ _ (hasPair_append_right a b _ _ h)

theorem hasPair_drop_front (a b : Char) (s y : List Char) (ha : a ∉ s)
    (h : hasPair a b (s ++ y) = true) : hasPair a b y = true := by
  induction s with
  | nil => exact h
  | cons c t ih =>
    have hc : c ≠ a := fun e => ha (by simp [e])
    have ht : a ∉ t := fun e => ha (by simp [e])
    simp only [List.cons_append, hasPair, Bool.or_eq_true, Bool.and_eq_true, beq_iff_eq] at h
    rcases h with ⟨h1, _⟩ | h
    · exact absurd h1 hc
    · exact ih ht h

theorem head?_drop_mid (b : Char) (x s y : List Char) (hb : b ∉ s)
    (h : (x ++ (s ++ y)).head? = some b) : (x ++ y).head? = some b := by
  cases x with
  | cons c t => simpa using h
  | nil =>
    cases s with
    | nil => simpa using h
    | cons c t =>
      simp only [List.nil_append, List.cons_append, List.head?_cons, Option.some.injEq] at h
      exact absurd (by simp [h]) hb

theorem hasPair_drop_mid (a b : Char) (x s y : List Char) (ha : a ∉ s) (hb : b ∉ s)
    (h : hasPair a b (x ++ (s ++ y)) = true) : hasPair a b (x ++ y) = true := by
  induction x with
  | nil => exact hasPair_drop_front a b s y ha h
  | cons c t ih =>
    simp only [List.cons_append, hasPair, Bool.or_eq_true, Bool.and_eq_true, beq_iff_eq] at h ⊢
    rcases h with ⟨h1, h2⟩ | h
    · exact Or.inl ⟨h1, head?_drop_mid b t s y hb h2⟩
    · exact Or.inr (ih h)

theorem formatRFC3339_no_space (t : Int) : ' ' ∉ (formatRFC3339 t).data := by
  intro h
  rcases formatRFC3339_chars t ' ' h with h1 | h1 | h1 | h1 | h1
  · exact absurd h1 (by decide)
  · exact absurd h1 (by decide)
  · exact absurd h1 (by decide)
  · exact absurd h1 (by decide)
  · exact absurd h1 (by decide)

theorem formatRFC3339_no_i (t : Int) : 'i' ∉ (formatRFC3339 t).data := by
  intro h
  rcases formatRFC3339_chars t 'i' h with h1 | h1 | h1 | h1 | h1
  · exact absurd h1 (by decide)
  · exact absurd h1 (by decide)
  · exact absurd h1 (by decide)
  · exact absurd h1 (by decide)
  · exact absurd h1 (by decide)

theorem formatRFC3339_no_gt (t : Int) : '>' ∉ (formatRFC3339 t).data := by
  intro h
  rcases formatRFC3339_chars t '>' h with h1 | h1 | h1 | h1 | h1
  · exact absurd h1 (by decide)
  · exact absurd h1 (by decide)
  · exact absurd h1 (by decide)
  · exact absurd h1 (by decide)
  · exact absurd h1 (by decide)

/-- A text built around one rendered instant has no `hostname in` if the text
around the instant has no space directly followed by `i`. -/
theorem no_host_predicate_one (A C : String) (t : Int)
    (h : hasPair ' ' 'i' (A.data ++ C.data) = false) :
    ¬ ("hostname in".data <:+: (A ++ formatRFC3339 t ++ C).data) := by
  intro hin
  have h1 := hasPair_of_infix ' ' 'i' _ _ hin (by decide)
  rw [String.data_append, String.data_append, List.append_assoc] at h1
  have h2 := hasPair_drop_mid ' ' 'i' _ _ _ (formatRFC3339_no_space t) (formatRFC3339_no_i t) h1
  rw [h] at h2
  exact Bool.noConfusion h2

/-- A text built around two rendered instants has no `hostname in` if the text
around the instants has no space directly followed by `i`. -/
theorem no_host_predicate_two (A B C : String) (t1 t2 : Int)
    (h : hasPair ' ' 'i' (A.data ++ (B.data ++ C.data)) = false) :
    ¬ ("hostname in".data <:+: (A ++ formatRFC3339 t1 ++ B ++ formatRFC3339 t2 ++ C).data) := by
  intro hin
  have h1 := hasPair_of_infix ' ' 'i' _ _ hin (by decide)
  simp only [String.data_append, List.append_assoc] at h1
  have h2 := hasPair_drop_mid ' ' 'i' _ _ _ (formatRFC3339_no_space t1) (formatRFC3339_no_i t1) h1
  rw [← List.append_assoc] at h2
  have h3 := hasPair_drop_mid ' ' 'i' _ _ _ (formatRFC3339_no_space t2) (formatRFC3339_no_i t2) h2
  rw [List.append_assoc, h] at h3
  exact Bool.noConfusion h3

/-! ### Labels and aggregate clauses in closed form -/

theorem avgClauses_eq (metrics : List String) :
    getSelectClausesAggMetrics "avg" metrics = metrics.map (fun m => "avg(" ++ m ++ ")") := by
  rw [getSelectClausesAggMetrics_eq_map]
  rfl

theorem maxClauses_eq (metrics : List String) :
    getSelectClausesAggMetrics "max" metrics = metrics.map (fun m => "max(" ++ m ++ ")") := by
  rw [getSelectClausesAggMetrics_eq_map]
  rfl

theorem GetDoubleGroupByLabel_eq (numMetrics : Int) :
    GetDoubleGroupByLabel "Kusto" numMetrics
      = "Kusto mean of " ++ sprintD numMetrics ++ " metrics, all hosts, random 12h0m0s by 1h" := by
  have hd : DurationString DoubleGroupByDuration = "12h0m0s" := by decide
  unfold GetDoubleGroupByLabel
  rw [hd]
  apply String.ext
  simp only [String.data_append, List.append_assoc]
  rfl

theorem GetMaxAllLabel_eq (nHosts : Int) :
    GetMaxAllLabel "Kusto" nHosts
      = "Kusto max of all CPU metrics, random " ++ sprint4D nHosts
          ++ " hosts, random 8h0m0s by 1h" := by
  have hd : DurationString MaxAllDuration = "8h0m0s" := by decide
  unfold GetMaxAllLabel
  rw [hd]
  apply String.ext
  simp only [String.data_append, List.append_assoc]
  rfl

theorem GroupByTimeAndPrimaryTag_valid {σ : Type} (rng : Sampler σ) (d : Core)
    (numMetrics : Int) (w : World σ) (h1 : 1 ≤ numMetrics) (h2 : numMetrics ≤ 10)
    (h : DoubleGroupByDuration ≤ d.Interval.stop - d.Interval.start) :
    ∃ iv s1, RandWindow rng d.Interval DoubleGroupByDuration w.rand = (Except.ok iv, s1)
      ∧ GroupByTimeAndPrimaryTag rng d numMetrics w
        = some (Outcome.ok (),
            { qi := fillHTTP w.qi
                ("Kusto mean of " ++ sprintD numMetrics
                  ++ " metrics, all hosts, random 12h0m0s by 1h")
                ("Kusto mean of " ++ sprintD numMetrics
                  ++ " metrics, all hosts, random 12h0m0s by 1h" ++ ": " ++ iv.StartString)
                ("cpu | where timestamp >= datetime('" ++ iv.StartString
                  ++ "') and timestamp < datetime('" ++ iv.EndString ++ "') | summarize "
                  ++ stringsJoin
                      ((cpuMetrics.take numMetrics.toNat).map (fun m => "avg(" ++ m ++ ")")) ", "
                  ++ " by bin(timestamp, 1h), hostname | order by timestamp"),
              rand := s1 }) := by
  obtain ⟨iv, s1, e1, e2⟩ := MustRandWindow_fits rng d.Interval DoubleGroupByDuration w h (by decide)
  refine ⟨iv, s1, e1, ?_⟩
  unfold GroupByTimeAndPrimaryTag
  rw [GetCPUMetricsSlice_valid numMetrics h1 h2]
  simp only [panicIfErr, bind_apply, pure_apply, e2, fillInQuery_apply, avgClauses_eq,
    GetDoubleGroupByLabel_eq]

theorem GroupByTimeAndPrimaryTag_no_host (numMetrics : Int) (t1 t2 : Int)
    (h1 : 1 ≤ numMetrics) (h2 : numMetrics ≤ 10) :
    ¬ ("hostname in".data <:+:
        ("cpu | where timestamp >= datetime('" ++ formatRFC3339 t1
          ++ "') and timestamp < datetime('" ++ formatRFC3339 t2 ++ "') | summarize "
          ++ stringsJoin
              ((cpuMetrics.take numMetrics.toNat).map (fun m => "avg(" ++ m ++ ")")) ", "
          ++ " by bin(timestamp, 1h), hostname | order by timestamp").data) := by
  have e : ∀ J : String,
      "cpu | where timestamp >= datetime('" ++ formatRFC3339 t1
          ++ "') and timestamp < datetime('" ++ formatRFC3339 t2 ++ "') | summarize "
          ++ J ++ " by bin(timestamp, 1h), hostname | order by timestamp"
        = "cpu | where timestamp >= datetime('" ++ formatRFC3339 t1
          ++ "') and timestamp < datetime('" ++ formatRFC3339 t2
          ++ ("') | summarize " ++ J ++ " by bin(timestamp, 1h), hostname | order by timestamp") := by
    intro J
    simp only [String.append_assoc]
  rw [e]
  apply no_host_predicate_two
  interval_cases numMetrics <;> decide

theorem GroupByOrderByLimit_valid {σ : Type} (rng : Sampler σ) (d : Core) (w : World σ)
    (h : Hour ≤ d.Interval.stop - d.Interval.start) :
    ∃ iv s1, RandWindow rng d.Interval Hour w.rand = (Except.ok iv, s1)
      ∧ GroupByOrderByLimit rng d w
        = some (Outcome.ok (),
            { qi := fillHTTP w.qi "Kusto max cpu over last 5 min-intervals (random end)"
                ("Kusto max cpu over last 5 min-intervals (random end)" ++ ": "
                  ++ iv.StartString)
                ("cpu | where timestamp < datetime('" ++ iv.EndString
                  ++ "') | summarize max(usage_user) by bin(timestamp, 1m) | top 5 by timestamp desc"),
              rand := s1 }) := by
  obtain ⟨iv, s1, e1, e2⟩ := MustRandWindow_fits rng d.Interval Hour w h (by decide)
  refine ⟨iv, s1, e1, ?_⟩
  have et : "cpu | " ++ ("where timestamp < datetime('" ++ iv.EndString ++ "')")
        ++ " | summarize max(usage_user) by bin(timestamp, 1m) | top 5 by timestamp desc"
      = "cpu | where timestamp < datetime('" ++ iv.EndString
        ++ "') | summarize max(usage_user) by bin(timestamp, 1m) | top 5 by timestamp desc" := by
    apply String.ext
    simp only [String.data_append, List.append_assoc]
    rfl
  unfold GroupByOrderByLimit
  rw [bind_ok _ _ _ _ _ e2, fillInQuery_apply, et]

theorem GroupByTime_valid {σ : Type} (rng : Sampler σ) (d : Core) (fuel : Nat)
    (nHosts numMetrics timeRange : Int) (w : World σ)
    (ht : timeRange ≤ d.Interval.stop - d.Interval.start) (h0 : 0 ≤ timeRange)
    (h1 : 1 ≤ numMetrics) (h2 : numMetrics ≤ 10) (h3 : 1 ≤ nHosts) (h4 : nHosts ≤ d.Scale) :
    ∃ iv s1, RandWindow rng d.Interval timeRange w.rand = (Except.ok iv, s1)
      ∧ GroupByTime rng d fuel nHosts numMetrics timeRange w
        = match sampleDistinct rng d.Scale.toNat fuel nHosts.toNat [] s1 with
          | none => none
          | some (idx, s2) =>
            some (Outcome.ok (),
              { qi := fillHTTP w.qi
                  ("Kusto " ++ sprintD numMetrics ++ " cpu metric(s), random " ++ sprint4D nHosts
                    ++ " hosts, random " ++ DurationString timeRange ++ " by 1m")
                  ("Kusto " ++ sprintD numMetrics ++ " cpu metric(s), random " ++ sprint4D nHosts
                    ++ " hosts, random " ++ DurationString timeRange ++ " by 1m" ++ ": "
                    ++ iv.StartString)
                  ("cpu | where " ++ getHostWhereWithHostnames (idx.map hostName)
                    ++ " and timestamp >= datetime('" ++ iv.StartString
                    ++ "') and timestamp < datetime('" ++ iv.EndString ++ "') | summarize "
                    ++ stringsJoin
                        ((cpuMetrics.take numMetrics.toNat).map (fun m => "max(" ++ m ++ ")")) ", "
                    ++ " by bin(timestamp, 1m) | order by timestamp asc"),
                rand := s2 }) := by
  obtain ⟨iv, s1, e1, e2⟩ := MustRandWindow_fits rng d.Interval timeRange w ht h0
  refine ⟨iv, s1, e1, ?_⟩
  unfold GroupByTime
  rw [bind_ok _ _ _ _ _ e2, GetCPUMetricsSlice_valid numMetrics h1 h2]
  simp only [panicIfErr, bind_apply, pure_apply]
  rw [getHostWhereString_valid rng d fuel nHosts _ h3 h4]
  cases sampleDistinct rng d.Scale.toNat fuel nHosts.toNat [] s1 with
  | none => rfl
  | some r => simp only [fillInQuery_apply, maxClauses_eq]

theorem MaxAllCPU_valid {σ : Type} (rng : Sampler σ) (d : Core) (fuel : Nat)
    (nHosts : Int) (w : World σ)
    (ht : MaxAllDuration ≤ d.Interval.stop - d.Interval.start)
    (h3 : 1 ≤ nHosts) (h4 : nHosts ≤ d.Scale) :
    ∃ iv s1, RandWindow rng d.Interval MaxAllDuration w.rand = (Except.ok iv, s1)
      ∧ MaxAllCPU rng d fuel nHosts w
        = match sampleDistinct rng d.Scale.toNat fuel nHosts.toNat [] s1 with
          | none => none
          | some (idx, s2) =>
            some (Outcome.ok (),
              { qi := fillHTTP w.qi
                  ("Kusto max of all CPU metrics, random " ++ sprint4D nHosts
                    ++ " hosts, random 8h0m0s by 1h")
                  ("Kusto max of all CPU metrics, random " ++ sprint4D nHosts
                    ++ " hosts, random 8h0m0s by 1h" ++ ": " ++ iv.StartString)
                  ("cpu | where " ++ getHostWhereWithHostnames (idx.map hostName)
                    ++ " and timestamp >= datetime('" ++ iv.StartString
                    ++ "') and timestamp < datetime('" ++ iv.EndString ++ "') | summarize "
                    ++ "max(usage_user),max(usage_system),max(usage_idle),max(usage_nice),max(usage_iowait),max(usage_irq),max(usage_softirq),max(usage_steal),max(usage_guest),max(usage_guest_nice)"
                    ++ " by bin(timestamp, 1h) | order by timestamp"),
                rand := s2 }) := by
  obtain ⟨iv, s1, e1, e2⟩ := MustRandWindow_fits rng d.Interval MaxAllDuration w ht (by decide)
  refine ⟨iv, s1, e1, ?_⟩
  have hj : stringsJoin (getSelectClausesAggMetrics "max" GetAllCPUMetrics) ","
      = "max(usage_user),max(usage_system),max(usage_idle),max(usage_nice),max(usage_iowait),max(usage_irq),max(usage_softirq),max(usage_steal),max(usage_guest),max(usage_guest_nice)" := by
    decide
  unfold MaxAllCPU
  rw [bind_ok _ _ _ _ _ e2]
  simp only [bind_apply]
  rw [getHostWhereString_valid rng d fuel nHosts _ h3 h4]
  cases sampleDistinct rng d.Scale.toNat fuel nHosts.toNat [] s1 with
  | none => rfl
  | some r => simp only [fillInQuery_apply, hj, GetMaxAllLabel_eq]

/-! ### The serializer -/

theorem appendTags_range' (pre rest : List String) (m : Nat) (buf : String)
    (hm : m ≤ rest.length) :
    appendTags (pre ++ rest) (List.range' pre.length m) buf
      = some (buf ++ sepConcat "," (rest.take m)) := by
  induction m generalizing pre rest buf with
  | zero => simp [appendTags, sepConcat]
  | succ m ih =>
    cases rest with
    | nil => simp at hm
    | cons x rest1 =>
      have hm1 : m ≤ rest1.length := by simpa using hm
      have hget : (pre ++ x :: rest1)[pre.length]? = some x := by
        rw [List.getElem?_append_right (Nat.le_refl _)]
        simp
      have hsplit : pre ++ x :: rest1 = (pre ++ [x]) ++ rest1 := by simp
      have hlen : (pre ++ [x]).length = pre.length + 1 := by simp
      rw [List.range'_succ, appendTags, hget]
      simp only
      rw [hsplit, ← hlen, ih (pre ++ [x]) rest1 _ hm1]
      simp only [List.take_succ_cons, sepConcat, String.append_assoc]

theorem appendTags_range (tagValues : List String) (n : Nat) (buf : String)
    (hn : n ≤ tagValues.length) :
    appendTags tagValues (List.range n) buf = some (buf ++ sepConcat "," (tagValues.take n)) := by
  have h := appendTags_range' [] tagValues n buf hn
  simpa [List.range_eq_range'] using h

theorem appendFields_eq_appendTags {V : Type} (format : V → String) (fieldValues : List V)
    (idx : List Nat) (buf : String) :
    appendFields format fieldValues idx buf = appendTags (fieldValues.map format) idx buf := by
  induction idx generalizing buf with
  | nil => rfl
  | cons i rest ih =>
    simp only [appendFields, appendTags, List.getElem?_map]
    cases fieldValues[i]? with
    | none => rfl
    | some v => simp only [Option.map_some', fastFormatAppend, ih]

theorem appendFields_range {V : Type} (format : V → String) (fieldValues : List V) (n : Nat)
    (buf : String) (hn : n ≤ fieldValues.length) :
    appendFields format fieldValues (List.range n) buf
      = some (buf ++ sepConcat "," ((fieldValues.take n).map format)) := by
  rw [appendFields_eq_appendTags, appendTags_range _ n buf (by simpa using hn), List.map_take]

theorem Serialize_cases {ω ε V : Type} (wr : Writer ω ε) (format : V → String) (p : Point V)
    (w : ω) :
    CsvSerializer.Serialize (recording wr) format p (w, [])
      = match appendTags p.tagValues (List.range p.tagKeys.length)
            ("" ++ formatRFC3339 p.timestamp) with
        | none => (SerializeResult.indexOutOfRange, (w, []))
        | some b1 =>
          match (wr.Write w b1).2 with
          | some err => (SerializeResult.returned (some err), ((wr.Write w b1).1, [b1]))
          | none =>
            match appendFields format p.fieldValues (List.range p.fieldKeys.length) "" with
            | none => (SerializeResult.indexOutOfRange, ((wr.Write w b1).1, [b1]))
            | some b2 =>
              (SerializeResult.returned (wr.Write (wr.Write w b1).1 (b2 ++ "\n")).2,
                ((wr.Write (wr.Write w b1).1 (b2 ++ "\n")).1, [b1, b2 ++ "\n"])) := by
  unfold CsvSerializer.Serialize
  dsimp only
  generalize appendTags p.tagValues (List.range p.tagKeys.length)
    ("" ++ formatRFC3339 p.timestamp) = T
  cases T with
  | none => rfl
  | some b1 =>
    simp only [recording]
    generalize hE : (wr.Write w b1).2 = E
    cases E with
    | some err => rfl
    | none =>
      simp only
      generalize appendFields format p.fieldValues (List.range p.fieldKeys.length) "" = F
      cases F with
      | none => rfl
      | some b2 => rfl

theorem Serialize_wellformed {ω ε V : Type} (wr : Writer ω ε) (format : V → String)
    (p : Point V) (w : ω) (ht : p.tagKeys.length ≤ p.tagValues.length)
    (hf : p.fieldKeys.length ≤ p.fieldValues.length) :
    CsvSerializer.Serialize wr format p w
      = match (wr.Write w (tagRow p)).2 with
        | some err => (SerializeResult.returned (some err), (wr.Write w (tagRow p)).1)
        | none =>
          (SerializeResult.returned
              (wr.Write (wr.Write w (tagRow p)).1 (fieldRow format p)).2,
            (wr.Write (wr.Write w (tagRow p)).1 (fieldRow format p)).1) := by
  unfold CsvSerializer.Serialize
  dsimp only
  rw [appendTags_range _ _ _ ht, appendFields_range format _ _ _ hf]
  simp only [String.empty_append, tagRow, fieldRow]

/-! ### The order of the draws -/

theorem RandWindow_state {σ : Type} (rng : Sampler σ) (ti : TimeInterval) (window : Int)
    (s s1 : σ) (iv : TimeInterval) (h : RandWindow rng ti window s = (Except.ok iv, s1)) :
    s1 = afterDraws rng (ti.stop - ti.start - window + 1).toNat 1 s := by
  unfold RandWindow at h
  by_cases hw : window > ti.stop - ti.start
  · rw [if_pos hw] at h
    simp at h
  · rw [if_neg hw] at h
    by_cases hneg : window < 0
    · rw [if_pos hneg] at h
      simp at h
    rw [if_neg hneg] at h
    simp only [Prod.mk.injEq] at h
    rw [← h.2]
    rfl

theorem GroupByTime_metrics_lt_one {σ : Type} (rng : Sampler σ) (d : Core) (fuel : Nat)
    (nHosts numMetrics timeRange : Int) (w : World σ) (hn : numMetrics < 1)
    (ht : timeRange ≤ d.Interval.stop - d.Interval.start) (h0 : 0 ≤ timeRange) :
    GroupByTime rng d fuel nHosts numMetrics timeRange w
      = some (Outcome.panic (PanicValue.text "cannot get 0 metrics"),
          { qi := w.qi,
            rand := afterDraws rng (d.Interval.stop - d.Interval.start - timeRange + 1).toNat 1
              w.rand }) := by
  obtain ⟨iv, s1, e1, e2⟩ := MustRandWindow_fits rng d.Interval timeRange w ht h0
  rw [← RandWindow_state rng d.Interval timeRange w.rand s1 iv e1]
  unfold GroupByTime
  rw [bind_ok _ _ _ _ _ e2]
  simp only [GetCPUMetricsSlice, hn, if_true, panicIfErr, bind_apply]

theorem GroupByTime_metrics_gt_ten {σ : Type} (rng : Sampler σ) (d : Core) (fuel : Nat)
    (nHosts numMetrics timeRange : Int) (w : World σ) (hn : 10 < numMetrics)
    (ht : timeRange ≤ d.Interval.stop - d.Interval.start) (h0 : 0 ≤ timeRange) :
    GroupByTime rng d fuel nHosts numMetrics timeRange w
      = some (Outcome.panic (PanicValue.tooManyMetrics numMetrics),
          { qi := w.qi,
            rand := afterDraws rng (d.Interval.stop - d.Interval.start - timeRange + 1).toNat 1
              w.rand }) := by
  obtain ⟨iv, s1, e1, e2⟩ := MustRandWindow_fits rng d.Interval timeRange w ht h0
  rw [← RandWindow_state rng d.Interval timeRange w.rand s1 iv e1]
  have h1 : ¬ numMetrics < 1 := by omega
  have h2 : numMetrics > (cpuMetrics.length : Int) := by
    have : (cpuMetrics.length : Int) = 10 := by decide
    omega
  unfold GroupByTime
  rw [bind_ok _ _ _ _ _ e2]
  simp only [GetCPUMetricsSlice, h1, h2, if_true, if_false, panicIfErr, bind_apply]

theorem GroupByTime_hosts_invalid {σ : Type} (rng : Sampler σ) (d : Core) (fuel : Nat)
    (nHosts numMetrics timeRange : Int) (w : World σ)
    (ht : timeRange ≤ d.Interval.stop - d.Interval.start) (h0 : 0 ≤ timeRange)
    (h1 : 1 ≤ numMetrics) (h2 : numMetrics ≤ 10) (hn : nHosts < 1 ∨ d.Scale < nHosts) :
    GroupByTime rng d fuel nHosts numMetrics timeRange w
      = some (Outcome.panic
          (if nHosts < 1 then
            PanicValue.text ("number of hosts cannot be < 1; got " ++ sprintD nHosts)
           else PanicValue.hostsExceedScale nHosts d.Scale),
          { qi := w.qi,
            rand := afterDraws rng (d.Interval.stop - d.Interval.start - timeRange + 1).toNat 1
              w.rand }) := by
  obtain ⟨iv, s1, e1, e2⟩ := MustRandWindow_fits rng d.Interval timeRange w ht h0
  rw [← RandWindow_state rng d.Interval timeRange w.rand s1 iv e1]
  unfold GroupByTime
  rw [bind_ok _ _ _ _ _ e2, GetCPUMetricsSlice_valid numMetrics h1 h2]
  simp only [panicIfErr, bind_apply, pure_apply]
  by_cases hlt : nHosts < 1
  · rw [getHostWhereString_lt_one rng d fuel nHosts _ hlt, if_pos hlt]
  · have hgt : d.Scale < nHosts := by
      rcases hn with h | h
      · exact absurd h hlt
      · exact h
    rw [getHostWhereString_gt_scale rng d fuel nHosts _ (by omega) hgt, if_neg hlt]

theorem MaxAllCPU_hosts_invalid {σ : Type} (rng : Sampler σ) (d : Core) (fuel : Nat)
    (nHosts : Int) (w : World σ)
    (ht : MaxAllDuration ≤ d.Interval.stop - d.Interval.start)
    (hn : nHosts < 1 ∨ d.Scale < nHosts) :
    MaxAllCPU rng d fuel nHosts w
      = some (Outcome.panic
          (if nHosts < 1 then
            PanicValue.text ("number of hosts cannot be < 1; got " ++ sprintD nHosts)
           else PanicValue.hostsExceedScale nHosts d.Scale),
          { qi := w.qi,
            rand := afterDraws rng
              (d.Interval.stop - d.Interval.start - MaxAllDuration + 1).toNat 1 w.rand }) := by
  obtain ⟨iv, s1, e1, e2⟩ := MustRandWindow_fits rng d.Interval MaxAllDuration w ht (by decide)
  rw [← RandWindow_state rng d.Interval MaxAllDuration w.rand s1 iv e1]
  unfold MaxAllCPU
  rw [bind_ok _ _ _ _ _ e2]
  simp only [bind_apply]
  by_cases hlt : nHosts < 1
  · rw [getHostWhereString_lt_one rng d fuel nHosts _ hlt, if_pos hlt]
  · have hgt : d.Scale < nHosts := by
      rcases hn with h | h
      · exact absurd h hlt
      · exact h
    rw [getHostWhereString_gt_scale rng d fuel nHosts _ (by omega) hgt, if_neg hlt]

theorem HighCPUForHosts_hosts_invalid {σ : Type} (rng : Sampler σ) (d : Core) (fuel : Nat)
    (nHosts : Int) (w : World σ)
    (ht : HighCPUDuration ≤ d.Interval.stop - d.Interval.start)
    (h0 : nHosts ≠ 0) (hn : nHosts < 1 ∨ d.Scale < nHosts) :
    HighCPUForHosts rng d fuel nHosts w
      = some (Outcome.panic
          (if nHosts < 1 then
            PanicValue.text ("number of hosts cannot be < 1; got " ++ sprintD nHosts)
           else PanicValue.hostsExceedScale nHosts d.Scale),
          { qi := w.qi,
            rand := afterDraws rng
              (d.Interval.stop - d.Interval.start - HighCPUDuration + 1).toNat 1 w.rand }) := by
  obtain ⟨iv, s1, e1, e2⟩ := MustRandWindow_fits rng d.Interval HighCPUDuration w ht (by decide)
  rw [← RandWindow_state rng d.Interval HighCPUDuration w.rand s1 iv e1]
  unfold HighCPUForHosts
  rw [bind_ok _ _ _ _ _ e2]
  simp only [bind_apply, if_neg h0]
  by_cases hlt : nHosts < 1
  · rw [getHostWhereString_lt_one rng d fuel nHosts _ hlt, if_pos hlt]
  · have hgt : d.Scale < nHosts := by
      rcases hn with h | h
      · exact absurd h hlt
      · exact h
    rw [getHostWhereString_gt_scale rng d fuel nHosts _ (by omega) hgt, if_neg hlt]

/-! ### Rendering of hostnames without a single quote -/

theorem split_at_first (c : Char) (a b x y : List Char) (ha : c ∉ a) (hb : c ∉ b)
    (h : a ++ c :: x = b ++ c :: y) : a = b ∧ x = y := by
  induction a generalizing b with
  | nil =>
    cases b with
    | nil =>
      simp only [List.nil_append, List.cons.injEq, true_and] at h
      exact ⟨rfl, h⟩
    | cons b0 bs =>
      simp only [List.nil_append, List.cons_append, List.cons.injEq] at h
      exact absurd (h.1 ▸ List.mem_cons_self b0 bs) hb
  | cons a0 as ih =>
    cases b with
    | nil =>
      simp only [List.nil_append, List.cons_append, List.cons.injEq] at h
      exact absurd (h.1 ▸ List.mem_cons_self a0 as) ha
    | cons b0 bs =>
      simp only [List.cons_append, List.cons.injEq] at h
      have r := ih bs (fun hm => ha (List.mem_cons_of_mem _ hm))
        (fun hm => hb (List.mem_cons_of_mem _ hm)) h.2
      exact ⟨by rw [h.1, r.1], r.2⟩

theorem quotedTail_injective (t1 t2 : List String)
    (h1 : ∀ x ∈ t1, Char.ofNat 39 ∉ x.data) (h2 : ∀ x ∈ t2, Char.ofNat 39 ∉ x.data)
    (e : (t1.map (fun x => ", '".data ++ x.data ++ "'".data)).flatten
      = (t2.map (fun x => ", '".data ++ x.data ++ "'".data)).flatten) : t1 = t2 := by
  have hs : ", '".data = [',', ' ', Char.ofNat 39] := rfl
  have hq : "'".data = [Char.ofNat 39] := rfl
  induction t1 generalizing t2 with
  | nil =>
    cases t2 with
    | nil => rfl
    | cons y ys =>
      rw [List.map_nil, List.flatten_nil, List.map_cons, List.flatten_cons, hs] at e
      simp only [List.cons_append] at e
      exact absurd e (by intro h; cases h)
  | cons x xs ih =>
    cases t2 with
    | nil =>
      rw [List.map_nil, List.flatten_nil, List.map_cons, List.flatten_cons, hs] at e
      simp only [List.cons_append] at e
      exact absurd e (by intro h; cases h)
    | cons y ys =>
      rw [List.map_cons, List.flatten_cons, List.map_cons, List.flatten_cons, hs, hq] at e
      simp only [List.cons_append, List.nil_append, List.append_assoc, List.cons.injEq,
        true_and] at e
      have r := split_at_first (Char.ofNat 39) x.data y.data _ _
        (h1 x (List.mem_cons_self x xs)) (h2 y (List.mem_cons_self y ys)) e
      have r2 := ih ys (fun z hz => h1 z (List.mem_cons_of_mem _ hz))
        (fun z hz => h2 z (List.mem_cons_of_mem _ hz)) r.2
      rw [String.ext r.1, r2]

theorem getHostWhereWithHostnames_nil_data :
    (getHostWhereWithHostnames []).data = "hostname in (".data ++ [] ++ ")".data := by
  decide

theorem getHostWhereWithHostnames_injective_of_no_quote (l1 l2 : List String)
    (h1 : ∀ x ∈ l1, Char.ofNat 39 ∉ x.data) (h2 : ∀ x ∈ l2, Char.ofNat 39 ∉ x.data)
    (e : getHostWhereWithHostnames l1 = getHostWhereWithHostnames l2) : l1 = l2 := by
  have hq : "'".data = [Char.ofNat 39] := rfl
  have ed := congrArg String.data e
  cases l1 with
  | nil =>
    cases l2 with
    | nil => rfl
    | cons y ys =>
      rw [getHostWhereWithHostnames_nil_data, getHostWhereWithHostnames_data, hq] at ed
      have e1 := List.append_cancel_left (List.append_cancel_right ed)
      simp at e1
  | cons x xs =>
    cases l2 with
    | nil =>
      rw [getHostWhereWithHostnames_nil_data, getHostWhereWithHostnames_data, hq] at ed
      have e1 := List.append_cancel_left (List.append_cancel_right ed)
      simp at e1
    | cons y ys =>
      rw [getHostWhereWithHostnames_data, getHostWhereWithHostnames_data, hq] at ed
      have e1 := List.append_cancel_left (List.append_cancel_right ed)
      simp only [List.cons_append, List.nil_append, List.append_assoc, List.cons.injEq,
        true_and] at e1
      have r := split_at_first (Char.ofNat 39) x.data y.data _ _
        (h1 x (List.mem_cons_self x xs)) (h2 y (List.mem_cons_self y ys)) e1
      have r2 := quotedTail_injective xs ys (fun z hz => h1 z (List.mem_cons_of_mem _ hz))
        (fun z hz => h2 z (List.mem_cons_of_mem _ hz)) r.2
      rw [String.ext r.1, r2]

theorem RandWindow_ok_nonneg {σ : Type} (rng : Sampler σ) (ti : TimeInterval) (window : Int)
    (s s1 : σ) (iv : TimeInterval) (h : RandWindow rng ti window s = (Except.ok iv, s1)) :
    0 ≤ window := by
  unfold RandWindow at h
  by_cases hw : window > ti.stop - ti.start
  · rw [if_pos hw] at h
    simp at h
  · rw [if_neg hw] at h
    by_cases hneg : window < 0
    · rw [if_pos hneg] at h
      simp at h
    · omega

/-! ### The request after `fillInQuery` -/

theorem fillHTTP_eq (q : HTTP) (humanLabel humanDesc kql : String) :
    fillHTTP q humanLabel humanDesc kql
      = { HumanLabel := humanLabel,
          HumanDescription := humanDesc,
          Method := "GET",
          Path := "/v2/rest/query?" ++ ValuesEncode [("csl", "let cpu = CpuMetrics_v2; " ++ kql)],
          Body := none } := rfl

/-! ## Theorems -/

/-- C1 (code defect): on the input of `TestDevopsFillInQuery`, `fillInQuery`
sets label, description, method and body as documented, but the path encodes
the query text with `let cpu = CpuMetrics_v2; ` prepended to it, so it differs
from the path the test expects, the encoding of the query text alone. -/
theorem fillInQuery_path_prepends_let :
    ∃ q : HTTP,
      fillInQuery "this is my label" "and now my description"
          "SELECT * from cpu where usage_user > 90.0 and timestamp < '2017-01-01'"
          ({ qi := GenerateEmptyQuery, rand := () } : World Unit)
        = some (Outcome.ok (), { qi := q, rand := () })
      ∧ q.HumanLabel = "this is my label" ∧ q.HumanDescription = "and now my description"
      ∧ q.Method = "GET" ∧ q.Body = none
      ∧ q.Path = "/v2/rest/query?" ++ ValuesEncode [("csl", "let cpu = CpuMetrics_v2; "
          ++ "SELECT * from cpu where usage_user > 90.0 and timestamp < '2017-01-01'")]
      ∧ q.Path ≠ "/v2/rest/query?" ++ ValuesEncode
          [("csl", "SELECT * from cpu where usage_user > 90.0 and timestamp < '2017-01-01'")] := by
  refine ⟨_, rfl, rfl, rfl, rfl, rfl, rfl, ?_⟩
  decide

/-- C3: for a non-empty list of hostnames `h :: t`, `getHostWhereWithHostnames`
returns `hostname in ('h'` followed by `, 'x'` for every further name `x` in
input order, closed by one `)`. -/
theorem getHostWhereWithHostnames_nonempty (h : String) (t : List String) :
    getHostWhereWithHostnames (h :: t) = "hostname in ('" ++ h ++ "'" ++ quotedRest t ++ ")" :=
  getHostWhereWithHostnames_cons h t

/-- C5: `getSelectClausesAggMetrics agg metrics` has the length of `metrics`,
its `i`-th element is `agg(m_i)`, and for `max` and `foo`, `bar` the result
joined by `,` is `max(foo),max(bar)`. -/
theorem getSelectClausesAggMetrics_spec (agg : String) (metrics : List String) :
    (getSelectClausesAggMetrics agg metrics).length = metrics.length
    ∧ (∀ i : Nat, (getSelectClausesAggMetrics agg metrics)[i]?
        = (metrics[i]?).map (fun m => agg ++ "(" ++ m ++ ")"))
    ∧ stringsJoin (getSelectClausesAggMetrics "max" ["foo", "bar"]) "," = "max(foo),max(bar)" := by
  refine ⟨?_, ?_, ?_⟩
  · simp [getSelectClausesAggMetrics_eq_map]
  · intro i
    simp [getSelectClausesAggMetrics_eq_map]
  · decide

/-- C2: determinism.  Two runs of the same sequence of pattern calls from the
same sampler state give the same sequence of observations (panic value, or
label, description and path) and end in the same sampler state, whatever fuel
each run is given; and one pattern call is a function of the sampler state,
the core (horizon and scale) and its parameters alone: started on two
different request objects it gives the same outcome and sampler state, fills
both requests alike, and on a panic leaves both as they were. -/
theorem runs_deterministic {σ : Type} (rng : Sampler σ) (d : Core) :
    (∀ (cs : List Call) (s : σ) (f1 f2 : Nat) (r1 r2 : List Observation × σ),
      runCases rng d f1 cs s = some r1 → runCases rng d f2 cs s = some r2 → r1 = r2)
    ∧ (∀ (c : Call) (q1 q2 : HTTP) (s : σ) (f1 f2 : Nat) (o1 o2 : Outcome Unit)
        (w1 w2 : World σ),
      c.body rng d f1 { qi := q1, rand := s } = some (o1, w1) →
      c.body rng d f2 { qi := q2, rand := s } = some (o2, w2) →
      o1 = o2 ∧ w1.rand = w2.rand
        ∧ (o1 = Outcome.ok () → w1.qi = w2.qi)
        ∧ (∀ p, o1 = Outcome.panic p → w1.qi = q1 ∧ w2.qi = q2)) := by
  constructor
  · intro cs s f1 f2 r1 r2 h1 h2
    have e1 := runCases_mono rng d f1 (max f1 f2) cs s r1 (Nat.le_max_left _ _) h1
    have e2 := runCases_mono rng d f2 (max f1 f2) cs s r2 (Nat.le_max_right _ _) h2
    rw [e1] at e2
    exact Option.some.inj e2
  · intro c q1 q2 s f1 f2 o1 o2 w1 w2 h1 h2
    have e1 := Extends_body rng d f1 (max f1 f2) c (Nat.le_max_left _ _) _ _ h1
    have e2 := Extends_body rng d f2 (max f1 f2) c (Nat.le_max_right _ _) _ _ h2
    have h := FillsLast_body rng d (max f1 f2) c q1 q2 s
    rw [e1, e2] at h
    cases o1 with
    | ok u =>
      cases o2 with
      | ok v =>
        simp only [SameResult] at h
        exact ⟨rfl, h.1, fun _ => h.2, fun p hp => by simp at hp⟩
      | panic p => simp [SameResult] at h
    | panic p =>
      cases o2 with
      | ok v => simp [SameResult] at h
      | panic p2 =>
        simp only [SameResult] at h
        obtain ⟨hp, hr, ha, hb⟩ := h
        subst hp
        exact ⟨rfl, hr, fun hc => by simp at hc, fun _ _ => ⟨ha, hb⟩⟩

theorem runs_deterministic_witness :
    runCases counterSampler { Interval := { start := 0, stop := 13 * Hour }, Scale := 10 } 2
        [Call.groupByTimeAndPrimaryTag 0, Call.maxAllCPU 2, Call.lastPointPerHost] 7
      = some ([Observation.failed (PanicValue.text "cannot get 0 metrics"),
          Observation.filled
            "Kusto max of all CPU metrics, random    2 hosts, random 8h0m0s by 1h"
            "Kusto max of all CPU metrics, random    2 hosts, random 8h0m0s by 1h: 1970-01-01T00:00:00Z"
            "/v2/rest/query?csl=let+cpu+%3D+CpuMetrics_v2%3B+cpu+%7C+where+hostname+in+%28%27host_8%27%2C+%27host_9%27%29+and+timestamp+%3E%3D+datetime%28%271970-01-01T00%3A00%3A00Z%27%29+and+timestamp+%3C+datetime%28%271970-01-01T08%3A00%3A00Z%27%29+%7C+summarize+max%28usage_user%29%2Cmax%28usage_system%29%2Cmax%28usage_idle%29%2Cmax%28usage_nice%29%2Cmax%28usage_iowait%29%2Cmax%28usage_irq%29%2Cmax%28usage_softirq%29%2Cmax%28usage_steal%29%2Cmax%28usage_guest%29%2Cmax%28usage_guest_nice%29+by+bin%28timestamp%2C+1h%29+%7C+order+by+timestamp",
          Observation.filled "Kusto last row per host" "Kusto last row per host: cpu"
            "/v2/rest/query?csl=let+cpu+%3D+CpuMetrics_v2%3B+cpu+%7C+summarize+arg_max%28timestamp%2C+%2A%29+by+hostname"], 10)
    ∧ runCases counterSampler { Interval := { start := 0, stop := 13 * Hour }, Scale := 10 } 5
        [Call.groupByTimeAndPrimaryTag 0, Call.maxAllCPU 2, Call.lastPointPerHost] 7
      = some ([Observation.failed (PanicValue.text "cannot get 0 metrics"),
          Observation.filled
            "Kusto max of all CPU metrics, random    2 hosts, random 8h0m0s by 1h"
            "Kusto max of all CPU metrics, random    2 hosts, random 8h0m0s by 1h: 1970-01-01T00:00:00Z"
            "/v2/rest/query?csl=let+cpu+%3D+CpuMetrics_v2%3B+cpu+%7C+where+hostname+in+%28%27host_8%27%2C+%27host_9%27%29+and+timestamp+%3E%3D+datetime%28%271970-01-01T00%3A00%3A00Z%27%29+and+timestamp+%3C+datetime%28%271970-01-01T08%3A00%3A00Z%27%29+%7C+summarize+max%28usage_user%29%2Cmax%28usage_system%29%2Cmax%28usage_idle%29%2Cmax%28usage_nice%29%2Cmax%28usage_iowait%29%2Cmax%28usage_irq%29%2Cmax%28usage_softirq%29%2Cmax%28usage_steal%29%2Cmax%28usage_guest%29%2Cmax%28usage_guest_nice%29+by+bin%28timestamp%2C+1h%29+%7C+order+by+timestamp",
          Observation.filled "Kusto last row per host" "Kusto last row per host: cpu"
            "/v2/rest/query?csl=let+cpu+%3D+CpuMetrics_v2%3B+cpu+%7C+summarize+arg_max%28timestamp%2C+%2A%29+by+hostname"], 10)
    ∧ (([Observation.failed (PanicValue.text "cannot get 0 metrics"),
          Observation.filled
            "Kusto max of all CPU metrics, random    2 hosts, random 8h0m0s by 1h"
            "Kusto max of all CPU metrics, random    2 hosts, random 8h0m0s by 1h: 1970-01-01T00:00:00Z"
            "/v2/rest/query?csl=let+cpu+%3D+CpuMetrics_v2%3B+cpu+%7C+where+hostname+in+%28%27host_8%27%2C+%27host_9%27%29+and+timestamp+%3E%3D+datetime%28%271970-01-01T00%3A00%3A00Z%27%29+and+timestamp+%3C+datetime%28%271970-01-01T08%3A00%3A00Z%27%29+%7C+summarize+max%28usage_user%29%2Cmax%28usage_system%29%2Cmax%28usage_idle%29%2Cmax%28usage_nice%29%2Cmax%28usage_iowait%29%2Cmax%28usage_irq%29%2Cmax%28usage_softirq%29%2Cmax%28usage_steal%29%2Cmax%28usage_guest%29%2Cmax%28usage_guest_nice%29+by+bin%28timestamp%2C+1h%29+%7C+order+by+timestamp",
          Observation.filled "Kusto last row per host" "Kusto last row per host: cpu"
            "/v2/rest/query?csl=let+cpu+%3D+CpuMetrics_v2%3B+cpu+%7C+summarize+arg_max%28timestamp%2C+%2A%29+by+hostname"], 10) : List Observation × Nat)
      = ([Observation.failed (PanicValue.text "cannot get 0 metrics"),
          Observation.filled
            "Kusto max of all CPU metrics, random    2 hosts, random 8h0m0s by 1h"
            "Kusto max of all CPU metrics, random    2 hosts, random 8h0m0s by 1h: 1970-01-01T00:00:00Z"
            "/v2/rest/query?csl=let+cpu+%3D+CpuMetrics_v2%3B+cpu+%7C+where+hostname+in+%28%27host_8%27%2C+%27host_9%27%29+and+timestamp+%3E%3D+datetime%28%271970-01-01T00%3A00%3A00Z%27%29+and+timestamp+%3C+datetime%28%271970-01-01T08%3A00%3A00Z%27%29+%7C+summarize+max%28usage_user%29%2Cmax%28usage_system%29%2Cmax%28usage_idle%29%2Cmax%28usage_nice%29%2Cmax%28usage_iowait%29%2Cmax%28usage_irq%29%2Cmax%28usage_softirq%29%2Cmax%28usage_steal%29%2Cmax%28usage_guest%29%2Cmax%28usage_guest_nice%29+by+bin%28timestamp%2C+1h%29+%7C+order+by+timestamp",
          Observation.filled "Kusto last row per host" "Kusto last row per host: cpu"
            "/v2/rest/query?csl=let+cpu+%3D+CpuMetrics_v2%3B+cpu+%7C+summarize+arg_max%28timestamp%2C+%2A%29+by+hostname"], 10) :=
  ⟨by decide, by decide,
    (runs_deterministic counterSampler
      { Interval := { start := 0, stop := 13 * Hour }, Scale := 10 }).1
      [Call.groupByTimeAndPrimaryTag 0, Call.maxAllCPU 2, Call.lastPointPerHost] 7 2 5 _ _
      (by decide) (by decide)⟩

/-- C6: for `1 <= k <= scale` and every sampler state, whenever
`getHostWhereString k` returns it returns the host clause of exactly `k`
hostnames `host_i`, pairwise distinct, every `i` below the scale, in the order
of their first draw (the sampler has advanced by the draws made); it never
panics; and with a fair sampler it does return, for every large enough bound
on the number of draws. -/
theorem getHostWhereString_lists_hosts {σ : Type} (rng : Sampler σ) (d : Core) (k : Int)
    (w : World σ) (hk : 1 ≤ k) (hs : k ≤ d.Scale) :
    (∀ (fuel : Nat) (o : Outcome String) (w1 : World σ),
      getHostWhereString rng d fuel k w = some (o, w1) →
      ∃ n, n ≤ fuel
        ∧ o = Outcome.ok (getHostWhereWithHostnames
            ((keepFirst [] (draws rng d.Scale.toNat n w.rand)).map hostName))
        ∧ ((keepFirst [] (draws rng d.Scale.toNat n w.rand)).length : Int) = k
        ∧ ((keepFirst [] (draws rng d.Scale.toNat n w.rand)).map hostName).Nodup
        ∧ (∀ i ∈ keepFirst [] (draws rng d.Scale.toNat n w.rand), (i : Int) < d.Scale)
        ∧ w1 = { qi := w.qi, rand := afterDraws rng d.Scale.toNat n w.rand })
    ∧ (rng.Fair → ∃ fuel0, ∀ fuel, fuel0 ≤ fuel →
        ∃ clause w1, getHostWhereString rng d fuel k w = some (Outcome.ok clause, w1)) := by
  have hpos : 0 < d.Scale.toNat := by omega
  constructor
  · intro fuel o w1 h
    rw [getHostWhereString_valid rng d fuel k w hk hs] at h
    cases hsd : sampleDistinct rng d.Scale.toNat fuel k.toNat [] w.rand with
    | none => rw [hsd] at h; simp at h
    | some r =>
      obtain ⟨idx, s1⟩ := r
      rw [hsd] at h
      simp only [Option.some.injEq, Prod.mk.injEq] at h
      obtain ⟨n, hn, hs1, hout, hlen⟩ := sampleDistinct_spec rng _ fuel _ [] w.rand idx s1 hsd
      simp only [List.nil_append] at hout
      refine ⟨n, hn, ?_, ?_, ?_, ?_, ?_⟩
      · rw [← hout]; exact h.1.symm
      · rw [hlen]; omega
      · have hnd := keepFirst_nodup [] (draws rng d.Scale.toNat n w.rand) List.nodup_nil
        simp only [List.nil_append] at hnd
        exact List.Nodup.map (fun a b hab => hostName_injective a b hab) hnd
      · intro i hi
        have h1 := keepFirst_subset [] _ i hi
        have h2 := draws_lt rng d.Scale.toNat hpos n w.rand i h1
        omega
      · rw [← h.2, hs1]
  · intro hfair
    obtain ⟨fuel0, r, hr⟩ := sampleDistinct_terminates rng hfair d.Scale.toNat k.toNat [] w.rand
      (by simp; omega)
    refine ⟨fuel0, fun fuel hle => ?_⟩
    rw [getHostWhereString_valid rng d fuel k w hk hs]
    rw [sampleDistinct_mono rng _ fuel0 fuel _ _ _ r hle hr]
    exact ⟨_, _, rfl⟩

theorem getHostWhereString_lists_hosts_witness :
    (1 : Int) ≤ 3 ∧ (3 : Int) ≤ 10
    ∧ getHostWhereString counterSampler
        { Interval := { start := 0, stop := 0 }, Scale := 10 } 4 3 { qi := NewHTTP, rand := 8 }
      = some (Outcome.ok "hostname in ('host_8', 'host_9', 'host_0')", { qi := NewHTTP, rand := 11 })
    ∧ ∃ fuel0, ∀ fuel, fuel0 ≤ fuel → ∃ clause w1,
        getHostWhereString counterSampler
          { Interval := { start := 0, stop := 0 }, Scale := 10 } fuel 3 { qi := NewHTTP, rand := 8 }
        = some (Outcome.ok clause, w1) :=
  ⟨by decide, by decide, by decide,
    (getHostWhereString_lists_hosts counterSampler
      { Interval := { start := 0, stop := 0 }, Scale := 10 } 3 { qi := NewHTTP, rand := 8 }
      (by decide) (by decide)).2 counterSampler_fair⟩

/-- C10: for every core (horizon and scale) and every sampler state,
`LastPointPerHost` fills the request with the label `Kusto last row per host`,
the description `Kusto last row per host: cpu` and the query text
`cpu | summarize arg_max(timestamp, *) by hostname`, and leaves the sampler
state as it was. -/
theorem LastPointPerHost_constant {σ : Type} (d : Core) (w : World σ) :
    LastPointPerHost d w
      = some (Outcome.ok (),
          { qi := fillHTTP w.qi "Kusto last row per host" "Kusto last row per host: cpu"
              "cpu | summarize arg_max(timestamp, *) by hostname",
            rand := w.rand })
    ∧ (fillHTTP w.qi "Kusto last row per host" "Kusto last row per host: cpu"
        "cpu | summarize arg_max(timestamp, *) by hostname").HumanLabel = "Kusto last row per host"
    ∧ (fillHTTP w.qi "Kusto last row per host" "Kusto last row per host: cpu"
        "cpu | summarize arg_max(timestamp, *) by hostname").HumanDescription
        = "Kusto last row per host: cpu" :=
  ⟨rfl, rfl, rfl⟩

/-- C8 (as stated, refuted): with one hour of horizon and a time range of two
hours, `GroupByTime` called with `numMetrics = 0` fails on the window, before
it looks at the metric count: the panic is not `cannot get 0 metrics`. -/
theorem GroupByTime_zero_metrics_window_first :
    GroupByTime counterSampler { Interval := { start := 0, stop := Hour }, Scale := 10 } 5 1 0
        (2 * Hour) { qi := NewHTTP, rand := 0 }
      = some (Outcome.panic (PanicValue.windowTooLarge (2 * Hour)), { qi := NewHTTP, rand := 0 })
    ∧ GroupByTime counterSampler { Interval := { start := 0, stop := Hour }, Scale := 10 } 5 1 0
        (2 * Hour) { qi := NewHTTP, rand := 0 }
      ≠ some (Outcome.panic (PanicValue.text "cannot get 0 metrics"),
          { qi := NewHTTP, rand := 0 }) := by
  constructor <;> decide

/-- C8 (amended): for every core and sampler state, `GroupByTimeAndPrimaryTag`
called with `numMetrics = 0` panics with exactly `cannot get 0 metrics`,
request and sampler untouched; `GroupByTime` called with `numMetrics = 0` and a
time range that fits the horizon (`0 <= timeRange <= horizon length`) panics
with exactly that message after the window draw, the request untouched. -/
theorem zero_metrics_panics {σ : Type} (rng : Sampler σ) (d : Core) (w : World σ) :
    GroupByTimeAndPrimaryTag rng d 0 w
      = some (Outcome.panic (PanicValue.text "cannot get 0 metrics"), w)
    ∧ (∀ (fuel : Nat) (nHosts timeRange : Int),
        0 ≤ timeRange → timeRange ≤ d.Interval.stop - d.Interval.start →
        ∃ iv s1, RandWindow rng d.Interval timeRange w.rand = (Except.ok iv, s1)
          ∧ GroupByTime rng d fuel nHosts 0 timeRange w
            = some (Outcome.panic (PanicValue.text "cannot get 0 metrics"),
                { qi := w.qi, rand := s1 })) := by
  constructor
  · rfl
  · intro fuel nHosts timeRange h0 h
    obtain ⟨iv, s1, h1, h2⟩ := MustRandWindow_fits rng d.Interval timeRange w h h0
    refine ⟨iv, s1, h1, ?_⟩
    unfold GroupByTime
    rw [bind_ok _ _ _ _ _ h2]
    rfl

theorem zero_metrics_panics_witness :
    (0 : Int) ≤ Second ∧ (Second : Int) ≤ Hour - 0
    ∧ ∃ iv s1, RandWindow counterSampler { start := 0, stop := Hour } Second 5 = (Except.ok iv, s1)
        ∧ GroupByTime counterSampler { Interval := { start := 0, stop := Hour }, Scale := 10 } 3 1 0
            Second { qi := NewHTTP, rand := 5 }
          = some (Outcome.panic (PanicValue.text "cannot get 0 metrics"),
              { qi := NewHTTP, rand := s1 }) :=
  ⟨by decide, by decide,
    (zero_metrics_panics counterSampler { Interval := { start := 0, stop := Hour }, Scale := 10 }
      { qi := NewHTTP, rand := 5 }).2 3 1 Second (by decide) (by decide)⟩

/-- C7: `getHostWhereString nHosts` returns a clause only if
`1 <= nHosts <= scale`, and with a fair sampler it does return one for every
such count.  For `nHosts < 1` it panics with exactly
`number of hosts cannot be < 1; got ` followed by `nHosts` in decimal (`got 0`,
`got -1`), and so do `GroupByTime`, `MaxAllCPU` and `HighCPUForHosts`
(`nHosts != 0`) once their window is drawn; whenever one of these three panics
the request object is as it was before the call. -/
theorem getHostWhereString_succeeds_iff {σ : Type} (rng : Sampler σ) (d : Core) (nHosts : Int)
    (w : World σ) :
    (∀ (fuel : Nat) (clause : String) (w1 : World σ),
      getHostWhereString rng d fuel nHosts w = some (Outcome.ok clause, w1) →
      1 ≤ nHosts ∧ nHosts ≤ d.Scale)
    ∧ (rng.Fair → 1 ≤ nHosts → nHosts ≤ d.Scale →
        ∃ fuel clause w1, getHostWhereString rng d fuel nHosts w = some (Outcome.ok clause, w1))
    ∧ (nHosts < 1 → ∀ fuel : Nat,
        getHostWhereString rng d fuel nHosts w
          = some (Outcome.panic
              (PanicValue.text ("number of hosts cannot be < 1; got " ++ sprintD nHosts)), w))
    ∧ "number of hosts cannot be < 1; got " ++ sprintD 0 = "number of hosts cannot be < 1; got 0"
    ∧ "number of hosts cannot be < 1; got " ++ sprintD (-1)
        = "number of hosts cannot be < 1; got -1"
    ∧ (nHosts < 1 → ∀ (fuel : Nat) (numMetrics timeRange : Int),
        0 ≤ timeRange → timeRange ≤ d.Interval.stop - d.Interval.start →
        1 ≤ numMetrics → numMetrics ≤ 10 →
        ∃ s1, GroupByTime rng d fuel nHosts numMetrics timeRange w
          = some (Outcome.panic
              (PanicValue.text ("number of hosts cannot be < 1; got " ++ sprintD nHosts)),
              { qi := w.qi, rand := s1 }))
    ∧ (nHosts < 1 → MaxAllDuration ≤ d.Interval.stop - d.Interval.start → ∀ fuel : Nat,
        ∃ s1, MaxAllCPU rng d fuel nHosts w
          = some (Outcome.panic
              (PanicValue.text ("number of hosts cannot be < 1; got " ++ sprintD nHosts)),
              { qi := w.qi, rand := s1 }))
    ∧ (nHosts < 1 → nHosts ≠ 0 → HighCPUDuration ≤ d.Interval.stop - d.Interval.start →
        ∀ fuel : Nat,
        ∃ s1, HighCPUForHosts rng d fuel nHosts w
          = some (Outcome.panic
              (PanicValue.text ("number of hosts cannot be < 1; got " ++ sprintD nHosts)),
              { qi := w.qi, rand := s1 }))
    ∧ (∀ (fuel : Nat) (numMetrics timeRange : Int) (p : PanicValue) (w1 : World σ),
        GroupByTime rng d fuel nHosts numMetrics timeRange w = some (Outcome.panic p, w1) →
        w1.qi = w.qi)
    ∧ (∀ (fuel : Nat) (p : PanicValue) (w1 : World σ),
        MaxAllCPU rng d fuel nHosts w = some (Outcome.panic p, w1) → w1.qi = w.qi)
    ∧ (∀ (fuel : Nat) (p : PanicValue) (w1 : World σ),
        HighCPUForHosts rng d fuel nHosts w = some (Outcome.panic p, w1) → w1.qi = w.qi) := by
  refine ⟨?_, ?_, ?_, by decide, by decide, ?_, ?_, ?_, ?_, ?_, ?_⟩
  · intro fuel clause w1 h
    by_cases h1 : nHosts < 1
    · rw [getHostWhereString_lt_one rng d fuel nHosts w h1] at h
      simp at h
    · by_cases h2 : d.Scale < nHosts
      · rw [getHostWhereString_gt_scale rng d fuel nHosts w (by omega) h2] at h
        simp at h
      · omega
  · intro hfair h1 h2
    obtain ⟨fuel0, r, hr⟩ := sampleDistinct_terminates rng hfair d.Scale.toNat nHosts.toNat []
      w.rand (by simp; omega)
    refine ⟨fuel0, ?_⟩
    rw [getHostWhereString_valid rng d fuel0 nHosts w h1 h2, hr]
    exact ⟨_, _, rfl⟩
  · intro h fuel
    exact getHostWhereString_lt_one rng d fuel nHosts w h
  · intro h fuel numMetrics timeRange h0 ht h1 h2
    obtain ⟨_, s1, _, e⟩ := GroupByTime_hosts_lt_one rng d fuel nHosts numMetrics timeRange w h ht
      h0 h1 h2
    exact ⟨s1, e⟩
  · intro h ht fuel
    obtain ⟨_, s1, _, e⟩ := MaxAllCPU_hosts_lt_one rng d fuel nHosts w h ht
    exact ⟨s1, e⟩
  · intro h h0 ht fuel
    obtain ⟨_, s1, _, e⟩ := HighCPUForHosts_hosts_lt_zero rng d fuel nHosts w h h0 ht
    exact ⟨s1, e⟩
  · intro fuel numMetrics timeRange p w1 h
    exact FillsLast_panic_keeps _ (FillsLast_GroupByTime rng d fuel nHosts numMetrics timeRange)
      w w1 p h
  · intro fuel p w1 h
    exact FillsLast_panic_keeps _ (FillsLast_MaxAllCPU rng d fuel nHosts) w w1 p h
  · intro fuel p w1 h
    exact FillsLast_panic_keeps _ (FillsLast_HighCPUForHosts rng d fuel nHosts) w w1 p h

theorem getHostWhereString_succeeds_iff_witness :
    (-1 : Int) < 1 ∧ (-1 : Int) ≠ 0 ∧ HighCPUDuration ≤ 13 * Hour - 0
    ∧ (∃ s1, HighCPUForHosts counterSampler
          { Interval := { start := 0, stop := 13 * Hour }, Scale := 10 } 4 (-1)
          { qi := NewHTTP, rand := 2 }
        = some (Outcome.panic
            (PanicValue.text ("number of hosts cannot be < 1; got " ++ sprintD (-1))),
            { qi := NewHTTP, rand := s1 }))
    ∧ MaxAllCPU counterSampler { Interval := { start := 0, stop := 9 * Hour }, Scale := 10 } 4 0
          { qi := NewHTTP, rand := 2 }
        = some (Outcome.panic (PanicValue.text "number of hosts cannot be < 1; got 0"),
            { qi := NewHTTP, rand := 3 }) :=
  ⟨by decide, by decide, by decide,
    (getHostWhereString_succeeds_iff counterSampler
      { Interval := { start := 0, stop := 13 * Hour }, Scale := 10 } (-1)
      { qi := NewHTTP, rand := 2 }).2.2.2.2.2.2.2.1 (by decide) (by decide) (by decide) 4,
    by decide⟩

/-- C9: with a horizon of at least 12 hours, `HighCPUForHosts` with
`nHosts = 0` draws the window `(S, E)` and nothing else from the sampler, and
leaves on the request the label `Kusto CPU over threshold, all hosts`, the
description with `S`, the method `GET` and the path that carries, behind the
`let` prefix of `fillInQuery`, the text `cpu | where usage_user > 90.0 ` ++ ``
++ ` and timestamp >= datetime('S') and timestamp < datetime('E')`, in which
`hostname in` does not occur; with `0 < nHosts <= scale` a call that returns
has sampled the `nHosts` hosts `i, rest` after the window and the text carries
`and hostname in ('host_i', ...)` for them, in draw order, between the
threshold and the time predicate; with a fair sampler the call does return. -/
theorem HighCPUForHosts_host_predicate {σ : Type} (rng : Sampler σ) (d : Core) (w : World σ)
    (h : HighCPUDuration ≤ d.Interval.stop - d.Interval.start) :
    ∃ iv s1, RandWindow rng d.Interval HighCPUDuration w.rand = (Except.ok iv, s1)
      ∧ (∀ fuel : Nat, HighCPUForHosts rng d fuel 0 w
          = some (Outcome.ok (),
              { qi := { HumanLabel := "Kusto CPU over threshold, all hosts",
                        HumanDescription :=
                          "Kusto CPU over threshold, all hosts" ++ ": " ++ iv.StartString,
                        Method := "GET",
                        Path := "/v2/rest/query?" ++ ValuesEncode
                          [("csl", "let cpu = CpuMetrics_v2; "
                            ++ ("cpu | where usage_user > 90.0 " ++ ""
                              ++ " and timestamp >= datetime('" ++ iv.StartString
                              ++ "') and timestamp < datetime('" ++ iv.EndString ++ "')"))],
                        Body := none },
                rand := s1 }))
      ∧ ¬ ("hostname in".data <:+:
            ("cpu | where usage_user > 90.0 " ++ "" ++ " and timestamp >= datetime('"
              ++ iv.StartString ++ "') and timestamp < datetime('" ++ iv.EndString ++ "')").data)
      ∧ (∀ (fuel : Nat) (nHosts : Int) (o : Outcome Unit) (w1 : World σ),
          0 < nHosts → nHosts ≤ d.Scale →
          HighCPUForHosts rng d fuel nHosts w = some (o, w1) →
          ∃ i rest s2,
            sampleDistinct rng d.Scale.toNat fuel nHosts.toNat [] s1 = some (i :: rest, s2)
            ∧ ((i :: rest).length : Int) = nHosts
            ∧ o = Outcome.ok ()
            ∧ w1 = { qi := { HumanLabel :=
                               "Kusto CPU over threshold, " ++ sprintD nHosts ++ " host(s)",
                             HumanDescription :=
                               "Kusto CPU over threshold, " ++ sprintD nHosts ++ " host(s)"
                                 ++ ": " ++ iv.StartString,
                             Method := "GET",
                             Path := "/v2/rest/query?" ++ ValuesEncode
                               [("csl", "let cpu = CpuMetrics_v2; "
                                 ++ ("cpu | where usage_user > 90.0 "
                                   ++ ("and " ++ ("hostname in ('" ++ hostName i ++ "'"
                                     ++ quotedRest (rest.map hostName) ++ ")"))
                                   ++ " and timestamp >= datetime('" ++ iv.StartString
                                   ++ "') and timestamp < datetime('" ++ iv.EndString
                                   ++ "')"))],
                             Body := none },
                     rand := s2 })
      ∧ (rng.Fair → ∀ nHosts : Int, 0 < nHosts → nHosts ≤ d.Scale →
          ∃ fuel w1, HighCPUForHosts rng d fuel nHosts w = some (Outcome.ok (), w1)) := by
  simp only [← fillHTTP_eq w.qi]
  obtain ⟨iv, s1, e1, e2⟩ := MustRandWindow_fits rng d.Interval HighCPUDuration w h (by decide)
  have step : ∀ (fuel : Nat) (nHosts : Int), 0 < nHosts → nHosts ≤ d.Scale →
      HighCPUForHosts rng d fuel nHosts w
        = match sampleDistinct rng d.Scale.toNat fuel nHosts.toNat [] s1 with
          | none => none
          | some (idx, s2) =>
            some (Outcome.ok (),
              { qi := fillHTTP w.qi
                  ("Kusto CPU over threshold, " ++ sprintD nHosts ++ " host(s)")
                  ("Kusto CPU over threshold, " ++ sprintD nHosts ++ " host(s)" ++ ": "
                    ++ iv.StartString)
                  ("cpu | where usage_user > 90.0 "
                    ++ ("and " ++ getHostWhereWithHostnames (idx.map hostName))
                    ++ " and timestamp >= datetime('" ++ iv.StartString
                    ++ "') and timestamp < datetime('" ++ iv.EndString ++ "')"),
                rand := s2 }) := by
    intro fuel nHosts hpos hle
    have h0 : nHosts ≠ 0 := by omega
    have hgt : nHosts > 0 := hpos
    unfold HighCPUForHosts
    rw [bind_ok _ _ _ _ _ e2]
    simp only [bind_apply, if_neg h0]
    rw [getHostWhereString_valid rng d fuel nHosts _ (by omega) hle]
    cases sampleDistinct rng d.Scale.toNat fuel nHosts.toNat [] s1 with
    | none => rfl
    | some r =>
      simp only [pure_apply, GetHighCPULabel, hgt, if_true, panicIfErr, fillInQuery]
      rfl
  refine ⟨iv, s1, e1, ?_, ?_, ?_, ?_⟩
  · intro fuel
    unfold HighCPUForHosts
    rw [bind_ok _ _ _ _ _ e2]
    rfl
  · intro hin
    have ho : 'o' ∈ ("cpu | where usage_user > 90.0 " ++ "" ++ " and timestamp >= datetime('"
        ++ iv.StartString ++ "') and timestamp < datetime('" ++ iv.EndString ++ "')").data :=
      hin.subset (by decide)
    simp only [String.data_append, List.mem_append] at ho
    rcases ho with ((((((h1 | h1) | h1) | h1) | h1) | h1) | h1)
    · exact absurd h1 (by decide)
    · exact absurd h1 (by decide)
    · exact absurd h1 (by decide)
    · exact formatRFC3339_no_o _ h1
    · exact absurd h1 (by decide)
    · exact formatRFC3339_no_o _ h1
    · exact absurd h1 (by decide)
  · intro fuel nHosts o w1 hpos hle hr
    rw [step fuel nHosts hpos hle] at hr
    cases hsd : sampleDistinct rng d.Scale.toNat fuel nHosts.toNat [] s1 with
    | none => rw [hsd] at hr; simp at hr
    | some r =>
      obtain ⟨idx, s2⟩ := r
      rw [hsd] at hr
      simp only [Option.some.injEq, Prod.mk.injEq] at hr
      obtain ⟨n, _, _, hout, hlen⟩ := sampleDistinct_spec rng _ fuel _ [] s1 idx s2 hsd
      simp only [List.nil_append] at hout
      have hl : (idx.length : Int) = nHosts := by
        rw [hout, hlen]
        omega
      cases idx with
      | nil =>
        simp only [List.length_nil] at hl
        omega
      | cons i rest =>
        refine ⟨i, rest, s2, rfl, hl, hr.1.symm, ?_⟩
        rw [← hr.2, List.map_cons, getHostWhereWithHostnames_cons]
  · intro hfair nHosts hpos hle
    obtain ⟨fuel, r, hr⟩ := sampleDistinct_terminates rng hfair d.Scale.toNat nHosts.toNat [] s1
      (by simp; omega)
    refine ⟨fuel, ?_⟩
    rw [step fuel nHosts hpos hle, hr]
    exact ⟨_, rfl⟩

theorem HighCPUForHosts_host_predicate_witness :
    HighCPUDuration ≤ 13 * Hour - 0
    ∧ HighCPUForHosts counterSampler
        { Interval := { start := 0, stop := 13 * Hour }, Scale := 10 } 0 0
        { qi := NewHTTP, rand := 982000000000 }
      = some (Outcome.ok (),
          { qi := { HumanLabel := "Kusto CPU over threshold, all hosts",
                    HumanDescription := "Kusto CPU over threshold, all hosts: 1970-01-01T00:16:22Z",
                    Method := "GET",
                    Path := "/v2/rest/query?csl=let+cpu+%3D+CpuMetrics_v2%3B+cpu+%7C+where+usage_user+%3E+90.0++and+timestamp+%3E%3D+datetime%28%271970-01-01T00%3A16%3A22Z%27%29+and+timestamp+%3C+datetime%28%271970-01-01T12%3A16%3A22Z%27%29",
                    Body := none },
            rand := 982000000001 })
    ∧ HighCPUForHosts counterSampler
        { Interval := { start := 0, stop := 13 * Hour }, Scale := 10 } 3 2
        { qi := NewHTTP, rand := 982000000000 }
      = some (Outcome.ok (),
          { qi := { HumanLabel := "Kusto CPU over threshold, 2 host(s)",
                    HumanDescription := "Kusto CPU over threshold, 2 host(s): 1970-01-01T00:16:22Z",
                    Method := "GET",
                    Path := "/v2/rest/query?csl=let+cpu+%3D+CpuMetrics_v2%3B+cpu+%7C+where+usage_user+%3E+90.0+and+hostname+in+%28%27host_1%27%2C+%27host_2%27%29+and+timestamp+%3E%3D+datetime%28%271970-01-01T00%3A16%3A22Z%27%29+and+timestamp+%3C+datetime%28%271970-01-01T12%3A16%3A22Z%27%29",
                    Body := none },
            rand := 982000000003 })
    ∧ ∃ iv s1, RandWindow counterSampler { start := 0, stop := 13 * Hour } HighCPUDuration
          982000000000 = (Except.ok iv, s1)
        ∧ ¬ ("hostname in".data <:+:
            ("cpu | where usage_user > 90.0 " ++ "" ++ " and timestamp >= datetime('"
              ++ iv.StartString ++ "') and timestamp < datetime('" ++ iv.EndString ++ "')").data)
        ∧ ∃ fuel w1, HighCPUForHosts counterSampler
            { Interval := { start := 0, stop := 13 * Hour }, Scale := 10 } fuel 2
            { qi := NewHTTP, rand := 982000000000 } = some (Outcome.ok (), w1) :=
  ⟨by decide, by decide, by decide,
    match HighCPUForHosts_host_predicate counterSampler
      { Interval := { start := 0, stop := 13 * Hour }, Scale := 10 }
      { qi := NewHTTP, rand := 982000000000 } (by decide) with
    | ⟨iv, s1, e1, _, e3, _, e5⟩ =>
      ⟨iv, s1, e1, e3, e5 counterSampler_fair 2 (by decide) (by decide)⟩⟩

/-- C4 (as stated, refuted): the empty list of host identifiers renders to
`hostname in ()`; stripped of `hostname in (` and `)` the body is empty, its
split on `, ` has one (empty) piece, which has no quotes to remove, so parsing
back does not give the empty list. -/
theorem host_clause_round_trip_fails_on_empty :
    getHostWhereWithHostnames (([] : List Nat).map hostName) = "hostname in ()"
    ∧ splitCommaSpace [] = [[]]
    ∧ parseHostClause (getHostWhereWithHostnames (([] : List Nat).map hostName))
        ≠ some (([] : List Nat).map hostName) := by
  refine ⟨by decide, by decide, by decide⟩

/-- C4 (amended): for every non-empty list of pool indices `i :: rest`,
rendering the identifiers `host_<index>` with `getHostWhereWithHostnames` and
parsing the clause back yields the same identifiers in the same order; and two
lists of pool indices, empty or not, that render to the same clause are
equal. -/
theorem host_clause_round_trip (i : Nat) (rest : List Nat) :
    parseHostClause (getHostWhereWithHostnames ((i :: rest).map hostName))
      = some ((i :: rest).map hostName)
    ∧ (∀ l1 l2 : List Nat,
        getHostWhereWithHostnames (l1.map hostName) = getHostWhereWithHostnames (l2.map hostName) →
        l1 = l2) := by
  have rt : ∀ (j : Nat) (js : List Nat),
      parseHostClause (getHostWhereWithHostnames ((j :: js).map hostName))
        = some ((j :: js).map hostName) := by
    intro j js
    rw [List.map_cons]
    refine parseHostClause_render _ _ (hostName_no_comma j) ?_
    intro x hx
    obtain ⟨n, _, rfl⟩ := List.mem_map.mp hx
    exact hostName_no_comma n
  have hinj : Function.Injective hostName := fun a b hab => hostName_injective a b hab
  have nilcons : ∀ (j : Nat) (js : List Nat),
      getHostWhereWithHostnames (([] : List Nat).map hostName)
        ≠ getHostWhereWithHostnames ((j :: js).map hostName) := by
    intro j js e
    have e1 := congrArg parseHostClause e
    rw [rt j js] at e1
    have e2 : parseHostClause (getHostWhereWithHostnames (([] : List Nat).map hostName)) = none := by
      decide
    rw [e2] at e1
    exact Option.noConfusion e1
  refine ⟨rt i rest, ?_⟩
  intro l1 l2 e
  cases l1 with
  | nil =>
    cases l2 with
    | nil => rfl
    | cons b bs => exact absurd e (nilcons b bs)
  | cons a as =>
    cases l2 with
    | nil => exact absurd e.symm (nilcons a as)
    | cons b bs =>
      have e1 := congrArg parseHostClause e
      rw [rt a as, rt b bs] at e1
      exact List.map_injective_iff.mpr hinj (Option.some.inj e1)

theorem host_clause_round_trip_witness :
    parseHostClause (getHostWhereWithHostnames ([1, 8, 5].map hostName))
      = some ["host_1", "host_8", "host_5"]
    ∧ getHostWhereWithHostnames ([7, 9].map hostName) = "hostname in ('host_7', 'host_9')"
    ∧ ([7, 9] : List Nat) = [7, 9] :=
  ⟨(host_clause_round_trip 1 [8, 5]).1, by decide,
    (host_clause_round_trip 7 [9]).2 [7, 9] [7, 9] rfl⟩

/-- C11 (as stated, refuted): `LastPointPerHost` samples no window; its
description is `Kusto last row per host: cpu`, which is not the label followed
by `: ` and a rendered instant, whatever the instant. -/
theorem LastPointPerHost_description_has_no_timestamp :
    ∃ q : HTTP,
      LastPointPerHost { Interval := { start := 0, stop := Hour }, Scale := 10 }
          ({ qi := NewHTTP, rand := 5 } : World Nat)
        = some (Outcome.ok (), { qi := q, rand := 5 })
      ∧ q.HumanLabel = "Kusto last row per host"
      ∧ q.HumanDescription = "Kusto last row per host: cpu"
      ∧ ∀ t : Int, q.HumanDescription ≠ q.HumanLabel ++ ": " ++ formatRFC3339 t := by
  refine ⟨_, rfl, rfl, rfl, ?_⟩
  intro t e
  have e1 : ("Kusto last row per host" ++ ": " ++ "cpu").data
      = ("Kusto last row per host" ++ ": " ++ formatRFC3339 t).data := congrArg String.data e
  rw [String.data_append, String.data_append ("Kusto last row per host" ++ ": ")] at e1
  have e2 := List.append_cancel_left e1
  have hc : 'c' ∈ (formatRFC3339 t).data := by
    rw [← e2]
    decide
  rcases formatRFC3339_chars t 'c' hc with h1 | h1 | h1 | h1 | h1
  · exact absurd h1 (by decide)
  · exact absurd h1 (by decide)
  · exact absurd h1 (by decide)
  · exact absurd h1 (by decide)
  · exact absurd h1 (by decide)

/-- C11 (amended): for each of the five patterns that sample a window
(`GroupByTime`, `GroupByOrderByLimit`, `GroupByTimeAndPrimaryTag`, `MaxAllCPU`,
`HighCPUForHosts`) and every successful call, the description is the label
followed by `: ` and the start timestamp string of the window drawn in that
call; for `LastPointPerHost` the description is the label followed by `: cpu`
and no window is drawn. -/
theorem description_is_label_and_start {σ : Type} (rng : Sampler σ) (d : Core) (fuel : Nat)
    (w w1 : World σ) :
    (∀ nHosts numMetrics timeRange : Int,
      GroupByTime rng d fuel nHosts numMetrics timeRange w = some (Outcome.ok (), w1) →
      ∃ iv s1, RandWindow rng d.Interval timeRange w.rand = (Except.ok iv, s1)
        ∧ w1.qi.HumanDescription = w1.qi.HumanLabel ++ ": " ++ iv.StartString)
    ∧ (GroupByOrderByLimit rng d w = some (Outcome.ok (), w1) →
      ∃ iv s1, RandWindow rng d.Interval Hour w.rand = (Except.ok iv, s1)
        ∧ w1.qi.HumanDescription = w1.qi.HumanLabel ++ ": " ++ iv.StartString)
    ∧ (∀ numMetrics : Int,
      GroupByTimeAndPrimaryTag rng d numMetrics w = some (Outcome.ok (), w1) →
      ∃ iv s1, RandWindow rng d.Interval DoubleGroupByDuration w.rand = (Except.ok iv, s1)
        ∧ w1.qi.HumanDescription = w1.qi.HumanLabel ++ ": " ++ iv.StartString)
    ∧ (∀ nHosts : Int,
      MaxAllCPU rng d fuel nHosts w = some (Outcome.ok (), w1) →
      ∃ iv s1, RandWindow rng d.Interval MaxAllDuration w.rand = (Except.ok iv, s1)
        ∧ w1.qi.HumanDescription = w1.qi.HumanLabel ++ ": " ++ iv.StartString)
    ∧ (∀ nHosts : Int,
      HighCPUForHosts rng d fuel nHosts w = some (Outcome.ok (), w1) →
      ∃ iv s1, RandWindow rng d.Interval HighCPUDuration w.rand = (Except.ok iv, s1)
        ∧ w1.qi.HumanDescription = w1.qi.HumanLabel ++ ": " ++ iv.StartString)
    ∧ (LastPointPerHost d w = some (Outcome.ok (), w1) →
      w1.qi.HumanDescription = w1.qi.HumanLabel ++ ": cpu" ∧ w1.rand = w.rand) := by
  refine ⟨?_, ?_, ?_, ?_, ?_, ?_⟩
  · intro nHosts numMetrics timeRange h
    obtain ⟨iv, s1, _, _, hw, _, _, _, _, _, _, hq⟩ := GroupByTime_ok_inv _ _ _ _ _ _ _ _ _ h
    exact ⟨iv, s1, hw, by rw [hq]; rfl⟩
  · intro h
    obtain ⟨iv, s1, hw, hq⟩ := GroupByOrderByLimit_ok_inv _ _ _ _ _ h
    exact ⟨iv, s1, hw, by rw [hq]; rfl⟩
  · intro numMetrics h
    obtain ⟨iv, s1, hw, _, _, hq⟩ := GroupByTimeAndPrimaryTag_ok_inv _ _ _ _ _ _ h
    exact ⟨iv, s1, hw, by rw [hq]; rfl⟩
  · intro nHosts h
    obtain ⟨iv, s1, _, _, hw, _, _, _, _, hq⟩ := MaxAllCPU_ok_inv _ _ _ _ _ _ _ h
    exact ⟨iv, s1, hw, by rw [hq]; rfl⟩
  · intro nHosts h
    obtain ⟨iv, s1, _, _, hw, hq⟩ := HighCPUForHosts_ok_inv _ _ _ _ _ _ _ h
    exact ⟨iv, s1, hw, by rw [hq]; rfl⟩
  · intro h
    have h1 : LastPointPerHost d w
        = some (Outcome.ok (),
            { qi := fillHTTP w.qi "Kusto last row per host" "Kusto last row per host: cpu"
                "cpu | summarize arg_max(timestamp, *) by hostname",
              rand := w.rand }) := rfl
    rw [h1] at h
    simp only [Option.some.injEq, Prod.mk.injEq, true_and] at h
    rw [← h]
    exact ⟨rfl, rfl⟩

theorem description_is_label_and_start_witness :
    GroupByOrderByLimit counterSampler { Interval := { start := 0, stop := 2 * Hour }, Scale := 10 }
        { qi := NewHTTP, rand := 982000000000 }
      = some (Outcome.ok (),
          { qi := fillHTTP NewHTTP "Kusto max cpu over last 5 min-intervals (random end)"
              "Kusto max cpu over last 5 min-intervals (random end): 1970-01-01T00:16:22Z"
              "cpu | where timestamp < datetime('1970-01-01T01:16:22Z') | summarize max(usage_user) by bin(timestamp, 1m) | top 5 by timestamp desc",
            rand := 982000000001 })
    ∧ ∃ iv s1, RandWindow counterSampler { start := 0, stop := 2 * Hour } Hour 982000000000
          = (Except.ok iv, s1)
        ∧ "Kusto max cpu over last 5 min-intervals (random end): 1970-01-01T00:16:22Z"
          = "Kusto max cpu over last 5 min-intervals (random end)" ++ ": " ++ iv.StartString :=
  ⟨by decide,
    (description_is_label_and_start counterSampler
      { Interval := { start := 0, stop := 2 * Hour }, Scale := 10 } 0
      { qi := NewHTTP, rand := 982000000000 }
      { qi := fillHTTP NewHTTP "Kusto max cpu over last 5 min-intervals (random end)"
          "Kusto max cpu over last 5 min-intervals (random end): 1970-01-01T00:16:22Z"
          "cpu | where timestamp < datetime('1970-01-01T01:16:22Z') | summarize max(usage_user) by bin(timestamp, 1m) | top 5 by timestamp desc",
        rand := 982000000001 }).2.1 (by decide)⟩

/-- C12: for a valid call `GroupByTime nHosts numMetrics timeRange`
(`1 <= nHosts <= scale`, `1 <= numMetrics <= 10`, `0 <= timeRange <= horizon
length`) the window `(S, E)` is the first draw, and every call that
returns has then sampled `nHosts` hosts and filled the request with the label
`Kusto <numMetrics> cpu metric(s), random <nHosts, width 4> hosts, random
<timeRange> by 1m` and the text `cpu | where <host clause> and timestamp >=
datetime('S') and timestamp < datetime('E') | summarize max(m1), ..., max(mk)
by bin(timestamp, 1m) | order by timestamp asc` over the first `numMetrics`
metrics of the catalogue joined by `, `; with a fair sampler the call returns;
the host count 1 is rendered `   1`. The request after the call is exactly
that label, the description `<label>: S`, the method `GET`, the path
`/v2/rest/query?` followed by the encoded `csl` parameter, whose value is that
text behind the prefix `let cpu = CpuMetrics_v2; ` of `fillInQuery`, and no
body. -/
theorem GroupByTime_label_and_text {σ : Type} (rng : Sampler σ) (d : Core)
    (nHosts numMetrics timeRange : Int) (w : World σ)
    (h3 : 1 ≤ nHosts) (h4 : nHosts ≤ d.Scale) (h1 : 1 ≤ numMetrics) (h2 : numMetrics ≤ 10)
    (h0 : 0 ≤ timeRange) (ht : timeRange ≤ d.Interval.stop - d.Interval.start) :
    ∃ iv s1, RandWindow rng d.Interval timeRange w.rand = (Except.ok iv, s1)
      ∧ (∀ (fuel : Nat) (o : Outcome Unit) (w1 : World σ),
          GroupByTime rng d fuel nHosts numMetrics timeRange w = some (o, w1) →
          ∃ idx s2, sampleDistinct rng d.Scale.toNat fuel nHosts.toNat [] s1 = some (idx, s2)
            ∧ (idx.length : Int) = nHosts
            ∧ o = Outcome.ok ()
            ∧ w1 = { qi := { HumanLabel :=
                               "Kusto " ++ sprintD numMetrics ++ " cpu metric(s), random "
                                 ++ sprint4D nHosts ++ " hosts, random " ++ DurationString timeRange
                                 ++ " by 1m",
                             HumanDescription :=
                               "Kusto " ++ sprintD numMetrics ++ " cpu metric(s), random "
                                 ++ sprint4D nHosts ++ " hosts, random " ++ DurationString timeRange
                                 ++ " by 1m" ++ ": " ++ iv.StartString,
                             Method := "GET",
                             Path := "/v2/rest/query?" ++ ValuesEncode
                                 [("csl", "let cpu = CpuMetrics_v2; "
                                   ++ ("cpu | where " ++ getHostWhereWithHostnames (idx.map hostName)
                                      ++ " and timestamp >= datetime('" ++ iv.StartString
                                      ++ "') and timestamp < datetime('" ++ iv.EndString ++ "') | summarize "
                                      ++ stringsJoin
                                      ((cpuMetrics.take numMetrics.toNat).map (fun m => "max(" ++ m ++ ")"))
                                      ", "
                                      ++ " by bin(timestamp, 1m) | order by timestamp asc"))],
                             Body := none },
                     rand := s2 })
      ∧ (rng.Fair → ∃ fuel w1,
          GroupByTime rng d fuel nHosts numMetrics timeRange w = some (Outcome.ok (), w1))
      ∧ "Kusto " ++ sprintD 1 ++ " cpu metric(s), random " ++ sprint4D 1 ++ " hosts, random "
            ++ DurationString Second ++ " by 1m"
          = "Kusto 1 cpu metric(s), random    1 hosts, random 1s by 1m" := by
  simp only [← fillHTTP_eq w.qi]
  obtain ⟨iv, s1, e1, e2⟩ := GroupByTime_valid rng d 0 nHosts numMetrics timeRange w ht h0 h1 h2 h3 h4
  have step : ∀ fuel : Nat, GroupByTime rng d fuel nHosts numMetrics timeRange w
      = match sampleDistinct rng d.Scale.toNat fuel nHosts.toNat [] s1 with
        | none => none
        | some (idx, s2) =>
          some (Outcome.ok (),
            { qi := fillHTTP w.qi
                ("Kusto " ++ sprintD numMetrics ++ " cpu metric(s), random " ++ sprint4D nHosts
                  ++ " hosts, random " ++ DurationString timeRange ++ " by 1m")
                ("Kusto " ++ sprintD numMetrics ++ " cpu metric(s), random " ++ sprint4D nHosts
                  ++ " hosts, random " ++ DurationString timeRange ++ " by 1m" ++ ": "
                  ++ iv.StartString)
                ("cpu | where " ++ getHostWhereWithHostnames (idx.map hostName)
                  ++ " and timestamp >= datetime('" ++ iv.StartString
                  ++ "') and timestamp < datetime('" ++ iv.EndString ++ "') | summarize "
                  ++ stringsJoin
                      ((cpuMetrics.take numMetrics.toNat).map (fun m => "max(" ++ m ++ ")")) ", "
                  ++ " by bin(timestamp, 1m) | order by timestamp asc"),
              rand := s2 }) := by
    intro fuel
    obtain ⟨iv2, s3, e3, e4⟩ :=
      GroupByTime_valid rng d fuel nHosts numMetrics timeRange w ht h0 h1 h2 h3 h4
    rw [e1] at e3
    simp only [Prod.mk.injEq, Except.ok.injEq] at e3
    rw [e3.1, e3.2]
    exact e4
  refine ⟨iv, s1, e1, ?_, ?_, by decide⟩
  · intro fuel o w1 hr
    rw [step fuel] at hr
    cases hsd : sampleDistinct rng d.Scale.toNat fuel nHosts.toNat [] s1 with
    | none => rw [hsd] at hr; simp at hr
    | some r =>
      obtain ⟨idx, s2⟩ := r
      rw [hsd] at hr
      simp only [Option.some.injEq, Prod.mk.injEq] at hr
      obtain ⟨n, _, _, hout, hlen⟩ := sampleDistinct_spec rng _ fuel _ [] s1 idx s2 hsd
      simp only [List.nil_append] at hout
      refine ⟨idx, s2, rfl, ?_, hr.1.symm, hr.2.symm⟩
      rw [hout, hlen]
      omega
  · intro hfair
    obtain ⟨fuel, r, hr⟩ := sampleDistinct_terminates rng hfair d.Scale.toNat nHosts.toNat [] s1
      (by simp; omega)
    refine ⟨fuel, ?_⟩
    rw [step fuel, hr]
    exact ⟨_, rfl⟩

theorem GroupByTime_label_and_text_witness :
    (1 : Int) ≤ 1 ∧ (1 : Int) ≤ 10 ∧ (0 : Int) ≤ Second ∧ Second ≤ Hour - 0
    ∧ GroupByTime counterSampler { Interval := { start := 0, stop := Hour }, Scale := 10 } 3 1 1
        Second { qi := NewHTTP, rand := 358000000000 }
      = some (Outcome.ok (),
          { qi := { HumanLabel := "Kusto 1 cpu metric(s), random    1 hosts, random 1s by 1m",
                    HumanDescription := "Kusto 1 cpu metric(s), random    1 hosts, random 1s by 1m: 1970-01-01T00:05:58Z",
                    Method := "GET",
                    Path := "/v2/rest/query?csl=let+cpu+%3D+CpuMetrics_v2%3B+cpu+%7C+where+hostname+in+%28%27host_1%27%29+and+timestamp+%3E%3D+datetime%28%271970-01-01T00%3A05%3A58Z%27%29+and+timestamp+%3C+datetime%28%271970-01-01T00%3A05%3A59Z%27%29+%7C+summarize+max%28usage_user%29+by+bin%28timestamp%2C+1m%29+%7C+order+by+timestamp+asc",
                    Body := none },
            rand := 358000000002 })
    ∧ ∃ fuel w1,
        GroupByTime counterSampler { Interval := { start := 0, stop := Hour }, Scale := 10 } fuel
          1 1 Second { qi := NewHTTP, rand := 358000000000 } = some (Outcome.ok (), w1) :=
  ⟨by decide, by decide, by decide, by decide, by decide,
    match GroupByTime_label_and_text counterSampler
      { Interval := { start := 0, stop := Hour }, Scale := 10 } 1 1 Second
      { qi := NewHTTP, rand := 358000000000 } (by decide) (by decide) (by decide) (by decide)
      (by decide) (by decide) with
    | ⟨_, _, _, _, hfair, _⟩ => hfair counterSampler_fair⟩

/-- C13: for `1 <= numMetrics <= 10` and a horizon of at least 12 hours,
`GroupByTimeAndPrimaryTag` draws the window `(S, E)` and nothing else from the
sampler and fills the request with the label `Kusto mean of <numMetrics>
metrics, all hosts, random 12h0m0s by 1h` and the text `cpu | where timestamp
>= datetime('S') and timestamp < datetime('E') | summarize avg(m1), ...,
avg(mk) by bin(timestamp, 1h), hostname | order by timestamp` over the first
`numMetrics` metrics of the catalogue in canonical order, joined by `, `; the
text contains no `hostname in`. The request after the call is exactly
that label, the description `<label>: S`, the method `GET`, the path
`/v2/rest/query?` followed by the encoded `csl` parameter, whose value is that
text behind the prefix `let cpu = CpuMetrics_v2; ` of `fillInQuery`, and no
body. -/
theorem GroupByTimeAndPrimaryTag_label_and_text {σ : Type} (rng : Sampler σ) (d : Core)
    (numMetrics : Int) (w : World σ) (h1 : 1 ≤ numMetrics) (h2 : numMetrics ≤ 10)
    (h : DoubleGroupByDuration ≤ d.Interval.stop - d.Interval.start) :
    ∃ iv s1, RandWindow rng d.Interval DoubleGroupByDuration w.rand = (Except.ok iv, s1)
      ∧ GroupByTimeAndPrimaryTag rng d numMetrics w
        = some (Outcome.ok (),
            { qi := { HumanLabel :=
                        "Kusto mean of " ++ sprintD numMetrics
                          ++ " metrics, all hosts, random 12h0m0s by 1h",
                      HumanDescription :=
                        "Kusto mean of " ++ sprintD numMetrics
                          ++ " metrics, all hosts, random 12h0m0s by 1h" ++ ": " ++ iv.StartString,
                      Method := "GET",
                      Path := "/v2/rest/query?" ++ ValuesEncode
                          [("csl", "let cpu = CpuMetrics_v2; "
                            ++ ("cpu | where timestamp >= datetime('" ++ iv.StartString
                               ++ "') and timestamp < datetime('" ++ iv.EndString ++ "') | summarize "
                               ++ stringsJoin
                               ((cpuMetrics.take numMetrics.toNat).map (fun m => "avg(" ++ m ++ ")")) ", "
                               ++ " by bin(timestamp, 1h), hostname | order by timestamp"))],
                      Body := none },
              rand := s1 })
      ∧ ¬ ("hostname in".data <:+:
            ("cpu | where timestamp >= datetime('" ++ iv.StartString
              ++ "') and timestamp < datetime('" ++ iv.EndString ++ "') | summarize "
              ++ stringsJoin
                  ((cpuMetrics.take numMetrics.toNat).map (fun m => "avg(" ++ m ++ ")")) ", "
              ++ " by bin(timestamp, 1h), hostname | order by timestamp").data)
      ∧ stringsJoin ((cpuMetrics.take 5).map (fun m => "avg(" ++ m ++ ")")) ", "
          = "avg(usage_user), avg(usage_system), avg(usage_idle), avg(usage_nice), avg(usage_iowait)" := by
  simp only [← fillHTTP_eq w.qi]
  obtain ⟨iv, s1, e1, e2⟩ := GroupByTimeAndPrimaryTag_valid rng d numMetrics w h1 h2 h
  exact ⟨iv, s1, e1, e2, GroupByTimeAndPrimaryTag_no_host numMetrics iv.start iv.stop h1 h2,
    by decide⟩

theorem GroupByTimeAndPrimaryTag_label_and_text_witness :
    (1 : Int) ≤ 5 ∧ (5 : Int) ≤ 10 ∧ DoubleGroupByDuration ≤ 13 * Hour - 0
    ∧ GroupByTimeAndPrimaryTag counterSampler
        { Interval := { start := 0, stop := 13 * Hour }, Scale := 10 } 5
        { qi := NewHTTP, rand := 982000000000 }
      = some (Outcome.ok (),
          { qi := { HumanLabel := "Kusto mean of 5 metrics, all hosts, random 12h0m0s by 1h",
                    HumanDescription := "Kusto mean of 5 metrics, all hosts, random 12h0m0s by 1h: 1970-01-01T00:16:22Z",
                    Method := "GET",
                    Path := "/v2/rest/query?csl=let+cpu+%3D+CpuMetrics_v2%3B+cpu+%7C+where+timestamp+%3E%3D+datetime%28%271970-01-01T00%3A16%3A22Z%27%29+and+timestamp+%3C+datetime%28%271970-01-01T12%3A16%3A22Z%27%29+%7C+summarize+avg%28usage_user%29%2C+avg%28usage_system%29%2C+avg%28usage_idle%29%2C+avg%28usage_nice%29%2C+avg%28usage_iowait%29+by+bin%28timestamp%2C+1h%29%2C+hostname+%7C+order+by+timestamp",
                    Body := none },
            rand := 982000000001 })
    ∧ ∃ iv s1, RandWindow counterSampler { start := 0, stop := 13 * Hour } DoubleGroupByDuration
          982000000000 = (Except.ok iv, s1)
        ∧ ¬ ("hostname in".data <:+:
            ("cpu | where timestamp >= datetime('" ++ iv.StartString
              ++ "') and timestamp < datetime('" ++ iv.EndString ++ "') | summarize "
              ++ stringsJoin
                  ((cpuMetrics.take (5 : Int).toNat).map (fun m => "avg(" ++ m ++ ")")) ", "
              ++ " by bin(timestamp, 1h), hostname | order by timestamp").data) :=
  ⟨by decide, by decide, by decide, by decide,
    match GroupByTimeAndPrimaryTag_label_and_text counterSampler
      { Interval := { start := 0, stop := 13 * Hour }, Scale := 10 } 5
      { qi := NewHTTP, rand := 982000000000 } (by decide) (by decide) (by decide) with
    | ⟨iv, s1, e1, _, e3, _⟩ => ⟨iv, s1, e1, e3⟩⟩

/-- C14: with a horizon of at least one hour, `GroupByOrderByLimit` draws one
window `(S, E)` with `E = S + 1h` (also at the second precision of the rendered
timestamps) and fills the request with the constant label `Kusto max cpu over
last 5 min-intervals (random end)`, the description showing `S`, and the text
`cpu | where timestamp < datetime('E') | summarize max(usage_user) by
bin(timestamp, 1m) | top 5 by timestamp desc`; the text has no `>` (no lower
time bound) and no `hostname in`. The request after the call is exactly
that label, the description `<label>: S`, the method `GET`, the path
`/v2/rest/query?` followed by the encoded `csl` parameter, whose value is that
text behind the prefix `let cpu = CpuMetrics_v2; ` of `fillInQuery`, and no
body. -/
theorem GroupByOrderByLimit_label_and_text {σ : Type} (rng : Sampler σ) (d : Core)
    (w : World σ) (h : Hour ≤ d.Interval.stop - d.Interval.start) :
    ∃ iv s1, RandWindow rng d.Interval Hour w.rand = (Except.ok iv, s1)
      ∧ iv.stop = iv.start + Hour
      ∧ iv.stop / 1000000000 = iv.start / 1000000000 + 3600
      ∧ GroupByOrderByLimit rng d w
        = some (Outcome.ok (),
            { qi := { HumanLabel := "Kusto max cpu over last 5 min-intervals (random end)",
                      HumanDescription :=
                        "Kusto max cpu over last 5 min-intervals (random end)" ++ ": "
                          ++ iv.StartString,
                      Method := "GET",
                      Path := "/v2/rest/query?" ++ ValuesEncode
                          [("csl", "let cpu = CpuMetrics_v2; "
                            ++ ("cpu | where timestamp < datetime('" ++ iv.EndString
                               ++ "') | summarize max(usage_user) by bin(timestamp, 1m) | top 5 by timestamp desc"))],
                      Body := none },
              rand := s1 })
      ∧ '>' ∉ ("cpu | where timestamp < datetime('" ++ iv.EndString
            ++ "') | summarize max(usage_user) by bin(timestamp, 1m) | top 5 by timestamp desc").data
      ∧ ¬ ("hostname in".data <:+:
            ("cpu | where timestamp < datetime('" ++ iv.EndString
              ++ "') | summarize max(usage_user) by bin(timestamp, 1m) | top 5 by timestamp desc").data) := by
  simp only [← fillHTTP_eq w.qi]
  obtain ⟨iv, s1, e1, e2⟩ := GroupByOrderByLimit_valid rng d w h
  obtain ⟨_, hd, _, _⟩ := RandWindow_ok_inv rng d.Interval Hour w.rand s1 iv e1
  have hstop : iv.stop = iv.start + Hour := by omega
  refine ⟨iv, s1, e1, hstop, ?_, e2, ?_, ?_⟩
  · rw [hstop]
    have hH : Hour = 3600 * 1000000000 := by decide
    rw [hH]
    omega
  · intro hin
    simp only [String.data_append, List.mem_append] at hin
    rcases hin with (h1 | h1) | h1
    · exact absurd h1 (by decide)
    · exact formatRFC3339_no_gt _ h1
    · exact absurd h1 (by decide)
  · exact no_host_predicate_one _ _ iv.stop (by decide)

theorem GroupByOrderByLimit_label_and_text_witness :
    Hour ≤ 2 * Hour - 0
    ∧ GroupByOrderByLimit counterSampler { Interval := { start := 0, stop := 2 * Hour }, Scale := 10 }
        { qi := NewHTTP, rand := 982000000000 }
      = some (Outcome.ok (),
          { qi := { HumanLabel := "Kusto max cpu over last 5 min-intervals (random end)",
                    HumanDescription := "Kusto max cpu over last 5 min-intervals (random end): 1970-01-01T00:16:22Z",
                    Method := "GET",
                    Path := "/v2/rest/query?csl=let+cpu+%3D+CpuMetrics_v2%3B+cpu+%7C+where+timestamp+%3C+datetime%28%271970-01-01T01%3A16%3A22Z%27%29+%7C+summarize+max%28usage_user%29+by+bin%28timestamp%2C+1m%29+%7C+top+5+by+timestamp+desc",
                    Body := none },
            rand := 982000000001 })
    ∧ ∃ iv s1, RandWindow counterSampler { start := 0, stop := 2 * Hour } Hour 982000000000
          = (Except.ok iv, s1)
        ∧ iv.stop = iv.start + Hour :=
  ⟨by decide, by decide,
    match GroupByOrderByLimit_label_and_text counterSampler
      { Interval := { start := 0, stop := 2 * Hour }, Scale := 10 }
      { qi := NewHTTP, rand := 982000000000 } (by decide) with
    | ⟨iv, s1, e1, e2, _⟩ => ⟨iv, s1, e1, e2⟩⟩

/-- C16: for `1 <= nHosts <= scale` and a horizon of at least 8 hours,
`MaxAllCPU` draws the window `(S, E)` first, and every call that returns has
then sampled `nHosts` hosts and filled the request with the label `Kusto max of
all CPU metrics, random <nHosts, width 4> hosts, random 8h0m0s by 1h` and the
text `cpu | where <host clause> and timestamp >= datetime('S') and timestamp <
datetime('E') | summarize <aggs> by bin(timestamp, 1h) | order by timestamp`,
where `<aggs>` is the constant `max(m)` of the ten catalogue metrics in order,
joined by `,`; with a fair sampler the call returns. The request after the call is exactly
that label, the description `<label>: S`, the method `GET`, the path
`/v2/rest/query?` followed by the encoded `csl` parameter, whose value is that
text behind the prefix `let cpu = CpuMetrics_v2; ` of `fillInQuery`, and no
body. -/
theorem MaxAllCPU_label_and_text {σ : Type} (rng : Sampler σ) (d : Core)
    (nHosts : Int) (w : World σ) (h3 : 1 ≤ nHosts) (h4 : nHosts ≤ d.Scale)
    (ht : MaxAllDuration ≤ d.Interval.stop - d.Interval.start) :
    ∃ iv s1, RandWindow rng d.Interval MaxAllDuration w.rand = (Except.ok iv, s1)
      ∧ (∀ (fuel : Nat) (o : Outcome Unit) (w1 : World σ),
          MaxAllCPU rng d fuel nHosts w = some (o, w1) →
          ∃ idx s2, sampleDistinct rng d.Scale.toNat fuel nHosts.toNat [] s1 = some (idx, s2)
            ∧ (idx.length : Int) = nHosts
            ∧ o = Outcome.ok ()
            ∧ w1 = { qi := { HumanLabel :=
                               "Kusto max of all CPU metrics, random " ++ sprint4D nHosts
                                 ++ " hosts, random 8h0m0s by 1h",
                             HumanDescription :=
                               "Kusto max of all CPU metrics, random " ++ sprint4D nHosts
                                 ++ " hosts, random 8h0m0s by 1h" ++ ": " ++ iv.StartString,
                             Method := "GET",
                             Path := "/v2/rest/query?" ++ ValuesEncode
                                 [("csl", "let cpu = CpuMetrics_v2; "
                                   ++ ("cpu | where " ++ getHostWhereWithHostnames (idx.map hostName)
                                      ++ " and timestamp >= datetime('" ++ iv.StartString
                                      ++ "') and timestamp < datetime('" ++ iv.EndString ++ "') | summarize "
                                      ++ "max(usage_user),max(usage_system),max(usage_idle),max(usage_nice),max(usage_iowait),max(usage_irq),max(usage_softirq),max(usage_steal),max(usage_guest),max(usage_guest_nice)"
                                      ++ " by bin(timestamp, 1h) | order by timestamp"))],
                             Body := none },
                     rand := s2 })
      ∧ (rng.Fair → ∃ fuel w1, MaxAllCPU rng d fuel nHosts w = some (Outcome.ok (), w1))
      ∧ stringsJoin (GetAllCPUMetrics.map (fun m => "max(" ++ m ++ ")")) ","
          = "max(usage_user),max(usage_system),max(usage_idle),max(usage_nice),max(usage_iowait),max(usage_irq),max(usage_softirq),max(usage_steal),max(usage_guest),max(usage_guest_nice)"
      ∧ "Kusto max of all CPU metrics, random " ++ sprint4D 1 ++ " hosts, random 8h0m0s by 1h"
          = "Kusto max of all CPU metrics, random    1 hosts, random 8h0m0s by 1h" := by
  simp only [← fillHTTP_eq w.qi]
  obtain ⟨iv, s1, e1, e2⟩ := MaxAllCPU_valid rng d 0 nHosts w ht h3 h4
  have step : ∀ fuel : Nat, MaxAllCPU rng d fuel nHosts w
      = match sampleDistinct rng d.Scale.toNat fuel nHosts.toNat [] s1 with
        | none => none
        | some (idx, s2) =>
          some (Outcome.ok (),
            { qi := fillHTTP w.qi
                ("Kusto max of all CPU metrics, random " ++ sprint4D nHosts
                  ++ " hosts, random 8h0m0s by 1h")
                ("Kusto max of all CPU metrics, random " ++ sprint4D nHosts
                  ++ " hosts, random 8h0m0s by 1h" ++ ": " ++ iv.StartString)
                ("cpu | where " ++ getHostWhereWithHostnames (idx.map hostName)
                  ++ " and timestamp >= datetime('" ++ iv.StartString
                  ++ "') and timestamp < datetime('" ++ iv.EndString ++ "') | summarize "
                  ++ "max(usage_user),max(usage_system),max(usage_idle),max(usage_nice),max(usage_iowait),max(usage_irq),max(usage_softirq),max(usage_steal),max(usage_guest),max(usage_guest_nice)"
                  ++ " by bin(timestamp, 1h) | order by timestamp"),
              rand := s2 }) := by
    intro fuel
    obtain ⟨iv2, s3, e3, e4⟩ := MaxAllCPU_valid rng d fuel nHosts w ht h3 h4
    rw [e1] at e3
    simp only [Prod.mk.injEq, Except.ok.injEq] at e3
    rw [e3.1, e3.2]
    exact e4
  refine ⟨iv, s1, e1, ?_, ?_, by decide, by decide⟩
  · intro fuel o w1 hr
    rw [step fuel] at hr
    cases hsd : sampleDistinct rng d.Scale.toNat fuel nHosts.toNat [] s1 with
    | none => rw [hsd] at hr; simp at hr
    | some r =>
      obtain ⟨idx, s2⟩ := r
      rw [hsd] at hr
      simp only [Option.some.injEq, Prod.mk.injEq] at hr
      obtain ⟨n, _, _, hout, hlen⟩ := sampleDistinct_spec rng _ fuel _ [] s1 idx s2 hsd
      simp only [List.nil_append] at hout
      refine ⟨idx, s2, rfl, ?_, hr.1.symm, hr.2.symm⟩
      rw [hout, hlen]
      omega
  · intro hfair
    obtain ⟨fuel, r, hr⟩ := sampleDistinct_terminates rng hfair d.Scale.toNat nHosts.toNat [] s1
      (by simp; omega)
    refine ⟨fuel, ?_⟩
    rw [step fuel, hr]
    exact ⟨_, rfl⟩

theorem MaxAllCPU_label_and_text_witness :
    (1 : Int) ≤ 2 ∧ (2 : Int) ≤ 10 ∧ MaxAllDuration ≤ 9 * Hour - 0
    ∧ MaxAllCPU counterSampler { Interval := { start := 0, stop := 9 * Hour }, Scale := 10 } 3 2
        { qi := NewHTTP, rand := 982000000000 }
      = some (Outcome.ok (),
          { qi := { HumanLabel := "Kusto max of all CPU metrics, random    2 hosts, random 8h0m0s by 1h",
                    HumanDescription := "Kusto max of all CPU metrics, random    2 hosts, random 8h0m0s by 1h: 1970-01-01T00:16:22Z",
                    Method := "GET",
                    Path := "/v2/rest/query?csl=let+cpu+%3D+CpuMetrics_v2%3B+cpu+%7C+where+hostname+in+%28%27host_1%27%2C+%27host_2%27%29+and+timestamp+%3E%3D+datetime%28%271970-01-01T00%3A16%3A22Z%27%29+and+timestamp+%3C+datetime%28%271970-01-01T08%3A16%3A22Z%27%29+%7C+summarize+max%28usage_user%29%2Cmax%28usage_system%29%2Cmax%28usage_idle%29%2Cmax%28usage_nice%29%2Cmax%28usage_iowait%29%2Cmax%28usage_irq%29%2Cmax%28usage_softirq%29%2Cmax%28usage_steal%29%2Cmax%28usage_guest%29%2Cmax%28usage_guest_nice%29+by+bin%28timestamp%2C+1h%29+%7C+order+by+timestamp",
                    Body := none },
            rand := 982000000003 })
    ∧ ∃ fuel w1,
        MaxAllCPU counterSampler { Interval := { start := 0, stop := 9 * Hour }, Scale := 10 } fuel
          2 { qi := NewHTTP, rand := 982000000000 } = some (Outcome.ok (), w1) :=
  ⟨by decide, by decide, by decide, by decide,
    match MaxAllCPU_label_and_text counterSampler
      { Interval := { start := 0, stop := 9 * Hour }, Scale := 10 } 2
      { qi := NewHTTP, rand := 982000000000 } (by decide) (by decide) (by decide) with
    | ⟨_, _, _, _, hfair, _⟩ => hfair counterSampler_fair⟩

/-- C15 (code defect): `GroupByTime` ends its text with the stage
`order by timestamp asc`, but the texts of `GroupByTimeAndPrimaryTag` and
`MaxAllCPU` end with `order by timestamp`: their last stage names no direction. -/
theorem order_stage_names_no_direction :
    GroupByTimeAndPrimaryTag counterSampler
        { Interval := { start := 0, stop := 13 * Hour }, Scale := 10 } 1
        { qi := NewHTTP, rand := 982000000000 }
      = some (Outcome.ok (),
          { qi := fillHTTP NewHTTP "Kusto mean of 1 metrics, all hosts, random 12h0m0s by 1h"
              "Kusto mean of 1 metrics, all hosts, random 12h0m0s by 1h: 1970-01-01T00:16:22Z"
              "cpu | where timestamp >= datetime('1970-01-01T00:16:22Z') and timestamp < datetime('1970-01-01T12:16:22Z') | summarize avg(usage_user) by bin(timestamp, 1h), hostname | order by timestamp",
            rand := 982000000001 })
    ∧ MaxAllCPU counterSampler { Interval := { start := 0, stop := 9 * Hour }, Scale := 10 } 3 1
        { qi := NewHTTP, rand := 982000000000 }
      = some (Outcome.ok (),
          { qi := fillHTTP NewHTTP
              "Kusto max of all CPU metrics, random    1 hosts, random 8h0m0s by 1h"
              "Kusto max of all CPU metrics, random    1 hosts, random 8h0m0s by 1h: 1970-01-01T00:16:22Z"
              "cpu | where hostname in ('host_1') and timestamp >= datetime('1970-01-01T00:16:22Z') and timestamp < datetime('1970-01-01T08:16:22Z') | summarize max(usage_user),max(usage_system),max(usage_idle),max(usage_nice),max(usage_iowait),max(usage_irq),max(usage_softirq),max(usage_steal),max(usage_guest),max(usage_guest_nice) by bin(timestamp, 1h) | order by timestamp",
            rand := 982000000002 })
    ∧ List.isSuffixOf "order by timestamp asc".data
        "cpu | where timestamp >= datetime('1970-01-01T00:16:22Z') and timestamp < datetime('1970-01-01T12:16:22Z') | summarize avg(usage_user) by bin(timestamp, 1h), hostname | order by timestamp".data
        = false
    ∧ List.isSuffixOf "order by timestamp asc".data
        "cpu | where hostname in ('host_1') and timestamp >= datetime('1970-01-01T00:16:22Z') and timestamp < datetime('1970-01-01T08:16:22Z') | summarize max(usage_user),max(usage_system),max(usage_idle),max(usage_nice),max(usage_iowait),max(usage_irq),max(usage_softirq),max(usage_steal),max(usage_guest),max(usage_guest_nice) by bin(timestamp, 1h) | order by timestamp".data
        = false
    ∧ GroupByTime counterSampler { Interval := { start := 0, stop := Hour }, Scale := 10 } 3 1 1
        Second { qi := NewHTTP, rand := 358000000000 }
      = some (Outcome.ok (),
          { qi := fillHTTP NewHTTP "Kusto 1 cpu metric(s), random    1 hosts, random 1s by 1m"
              "Kusto 1 cpu metric(s), random    1 hosts, random 1s by 1m: 1970-01-01T00:05:58Z"
              "cpu | where hostname in ('host_1') and timestamp >= datetime('1970-01-01T00:05:58Z') and timestamp < datetime('1970-01-01T00:05:59Z') | summarize max(usage_user) by bin(timestamp, 1m) | order by timestamp asc",
            rand := 358000000002 }) := by
  refine ⟨by decide, by decide, by decide, by decide, by decide⟩

/-- C17: for every successful call of a window-sampling pattern the time
bounds in the text that the request carries are the start `S` and the end `E`
of the one window drawn in that call, the window whose start appears in the
description; `S <= E`, `E - S` is the requested duration (`timeRange`, 12h, 8h,
1h), `horizon.start <= S` and `E <= horizon.end`. -/
theorem window_bounds_of_successful_call {σ : Type} (rng : Sampler σ) (d : Core) (fuel : Nat)
    (w w1 : World σ) :
    (∀ nHosts numMetrics timeRange : Int,
      GroupByTime rng d fuel nHosts numMetrics timeRange w = some (Outcome.ok (), w1) →
      ∃ iv s1 label clause aggs,
        RandWindow rng d.Interval timeRange w.rand = (Except.ok iv, s1)
        ∧ iv.stop - iv.start = timeRange ∧ iv.start ≤ iv.stop
        ∧ d.Interval.start ≤ iv.start ∧ iv.stop ≤ d.Interval.stop
        ∧ w1.qi = { HumanLabel := label,
                    HumanDescription :=
                      label ++ ": " ++ iv.StartString,
                    Method := "GET",
                    Path := "/v2/rest/query?" ++ ValuesEncode
                        [("csl", "let cpu = CpuMetrics_v2; "
                          ++ ("cpu | where " ++ clause ++ " and timestamp >= datetime('" ++ iv.StartString
                             ++ "') and timestamp < datetime('" ++ iv.EndString ++ "') | summarize " ++ aggs
                             ++ " by bin(timestamp, 1m) | order by timestamp asc"))],
                    Body := none })
    ∧ (∀ numMetrics : Int,
      GroupByTimeAndPrimaryTag rng d numMetrics w = some (Outcome.ok (), w1) →
      ∃ iv s1 label aggs,
        RandWindow rng d.Interval DoubleGroupByDuration w.rand = (Except.ok iv, s1)
        ∧ iv.stop - iv.start = 12 * Hour ∧ iv.start ≤ iv.stop
        ∧ d.Interval.start ≤ iv.start ∧ iv.stop ≤ d.Interval.stop
        ∧ w1.qi = { HumanLabel := label,
                    HumanDescription :=
                      label ++ ": " ++ iv.StartString,
                    Method := "GET",
                    Path := "/v2/rest/query?" ++ ValuesEncode
                        [("csl", "let cpu = CpuMetrics_v2; "
                          ++ ("cpu | where timestamp >= datetime('" ++ iv.StartString
                             ++ "') and timestamp < datetime('" ++ iv.EndString ++ "') | summarize " ++ aggs
                             ++ " by bin(timestamp, 1h), hostname | order by timestamp"))],
                    Body := none })
    ∧ (∀ nHosts : Int,
      MaxAllCPU rng d fuel nHosts w = some (Outcome.ok (), w1) →
      ∃ iv s1 label clause aggs,
        RandWindow rng d.Interval MaxAllDuration w.rand = (Except.ok iv, s1)
        ∧ iv.stop - iv.start = 8 * Hour ∧ iv.start ≤ iv.stop
        ∧ d.Interval.start ≤ iv.start ∧ iv.stop ≤ d.Interval.stop
        ∧ w1.qi = { HumanLabel := label,
                    HumanDescription :=
                      label ++ ": " ++ iv.StartString,
                    Method := "GET",
                    Path := "/v2/rest/query?" ++ ValuesEncode
                        [("csl", "let cpu = CpuMetrics_v2; "
                          ++ ("cpu | where " ++ clause ++ " and timestamp >= datetime('" ++ iv.StartString
                             ++ "') and timestamp < datetime('" ++ iv.EndString ++ "') | summarize " ++ aggs
                             ++ " by bin(timestamp, 1h) | order by timestamp"))],
                    Body := none })
    ∧ (∀ nHosts : Int,
      HighCPUForHosts rng d fuel nHosts w = some (Outcome.ok (), w1) →
      ∃ iv s1 label hostWhereClause,
        RandWindow rng d.Interval HighCPUDuration w.rand = (Except.ok iv, s1)
        ∧ iv.stop - iv.start = 12 * Hour ∧ iv.start ≤ iv.stop
        ∧ d.Interval.start ≤ iv.start ∧ iv.stop ≤ d.Interval.stop
        ∧ w1.qi = { HumanLabel := label,
                    HumanDescription :=
                      label ++ ": " ++ iv.StartString,
                    Method := "GET",
                    Path := "/v2/rest/query?" ++ ValuesEncode
                        [("csl", "let cpu = CpuMetrics_v2; "
                          ++ ("cpu | where usage_user > 90.0 " ++ hostWhereClause
                             ++ " and timestamp >= datetime('" ++ iv.StartString
                             ++ "') and timestamp < datetime('" ++ iv.EndString ++ "')"))],
                    Body := none })
    ∧ (GroupByOrderByLimit rng d w = some (Outcome.ok (), w1) →
      ∃ iv s1 label,
        RandWindow rng d.Interval Hour w.rand = (Except.ok iv, s1)
        ∧ iv.stop - iv.start = Hour ∧ iv.start ≤ iv.stop
        ∧ d.Interval.start ≤ iv.start ∧ iv.stop ≤ d.Interval.stop
        ∧ w1.qi = { HumanLabel := label,
                    HumanDescription :=
                      label ++ ": " ++ iv.StartString,
                    Method := "GET",
                    Path := "/v2/rest/query?" ++ ValuesEncode
                        [("csl", "let cpu = CpuMetrics_v2; "
                          ++ ("cpu | where timestamp < datetime('" ++ iv.EndString
                             ++ "') | summarize max(usage_user) by bin(timestamp, 1m) | top 5 by timestamp desc"))],
                    Body := none }) := by
  simp only [← fillHTTP_eq w.qi]
  have hH : Hour = 3600000000000 := by decide
  have hD : DoubleGroupByDuration = 12 * Hour := rfl
  have hM : MaxAllDuration = 8 * Hour := rfl
  have hC : HighCPUDuration = 12 * Hour := rfl
  refine ⟨?_, ?_, ?_, ?_, ?_⟩
  · intro nHosts numMetrics timeRange h
    obtain ⟨iv, s1, idx, s2, hw, _, _, _, _, _, _, hq⟩ := GroupByTime_ok_inv _ _ _ _ _ _ _ _ _ h
    obtain ⟨_, b1, b2, b3⟩ := RandWindow_ok_inv rng d.Interval timeRange w.rand s1 iv hw
    have b0 := RandWindow_ok_nonneg rng d.Interval timeRange w.rand s1 iv hw
    exact ⟨iv, s1, _, _, _, hw, b1, by omega, b2, b3, by rw [hq]⟩
  · intro numMetrics h
    obtain ⟨iv, s1, hw, _, _, hq⟩ := GroupByTimeAndPrimaryTag_ok_inv _ _ _ _ _ _ h
    obtain ⟨_, b1, b2, b3⟩ := RandWindow_ok_inv rng d.Interval _ w.rand s1 iv hw
    rw [hD] at b1
    exact ⟨iv, s1, _, _, hw, b1, by omega, b2, b3, by rw [hq]⟩
  · intro nHosts h
    obtain ⟨iv, s1, idx, s2, hw, _, _, _, _, hq⟩ := MaxAllCPU_ok_inv _ _ _ _ _ _ _ h
    obtain ⟨_, b1, b2, b3⟩ := RandWindow_ok_inv rng d.Interval _ w.rand s1 iv hw
    rw [hM] at b1
    exact ⟨iv, s1, _, _, _, hw, b1, by omega, b2, b3, by rw [hq]⟩
  · intro nHosts h
    obtain ⟨iv, s1, label, hc, hw, hq⟩ := HighCPUForHosts_ok_inv _ _ _ _ _ _ _ h
    obtain ⟨_, b1, b2, b3⟩ := RandWindow_ok_inv rng d.Interval _ w.rand s1 iv hw
    rw [hC] at b1
    exact ⟨iv, s1, label, hc, hw, b1, by omega, b2, b3, hq⟩
  · intro h
    obtain ⟨iv, s1, hw, hq⟩ := GroupByOrderByLimit_ok_inv _ _ _ _ _ h
    obtain ⟨_, b1, b2, b3⟩ := RandWindow_ok_inv rng d.Interval _ w.rand s1 iv hw
    refine ⟨iv, s1, "Kusto max cpu over last 5 min-intervals (random end)", hw, b1, by omega,
      b2, b3, ?_⟩
    rw [hq]
    have et : "cpu | " ++ ("where timestamp < datetime('" ++ iv.EndString ++ "')")
          ++ " | summarize max(usage_user) by bin(timestamp, 1m) | top 5 by timestamp desc"
        = "cpu | where timestamp < datetime('" ++ iv.EndString
          ++ "') | summarize max(usage_user) by bin(timestamp, 1m) | top 5 by timestamp desc" := by
      apply String.ext
      simp only [String.data_append, List.append_assoc]
      rfl
    rw [et]

theorem window_bounds_of_successful_call_witness :
    GroupByTime counterSampler { Interval := { start := 0, stop := Hour }, Scale := 10 } 3 1 1
        Second { qi := NewHTTP, rand := 358000000000 }
      = some (Outcome.ok (),
          { qi := { HumanLabel := "Kusto 1 cpu metric(s), random    1 hosts, random 1s by 1m",
                    HumanDescription := "Kusto 1 cpu metric(s), random    1 hosts, random 1s by 1m: 1970-01-01T00:05:58Z",
                    Method := "GET",
                    Path := "/v2/rest/query?csl=let+cpu+%3D+CpuMetrics_v2%3B+cpu+%7C+where+hostname+in+%28%27host_1%27%29+and+timestamp+%3E%3D+datetime%28%271970-01-01T00%3A05%3A58Z%27%29+and+timestamp+%3C+datetime%28%271970-01-01T00%3A05%3A59Z%27%29+%7C+summarize+max%28usage_user%29+by+bin%28timestamp%2C+1m%29+%7C+order+by+timestamp+asc",
                    Body := none },
            rand := 358000000002 })
    ∧ ∃ iv s1 label clause aggs,
        RandWindow counterSampler { start := 0, stop := Hour } Second 358000000000
          = (Except.ok iv, s1)
        ∧ iv.stop - iv.start = Second ∧ iv.start ≤ iv.stop
        ∧ (0 : Int) ≤ iv.start ∧ iv.stop ≤ Hour
        ∧ ({ HumanLabel := "Kusto 1 cpu metric(s), random    1 hosts, random 1s by 1m",
             HumanDescription := "Kusto 1 cpu metric(s), random    1 hosts, random 1s by 1m: 1970-01-01T00:05:58Z",
             Method := "GET",
             Path := "/v2/rest/query?csl=let+cpu+%3D+CpuMetrics_v2%3B+cpu+%7C+where+hostname+in+%28%27host_1%27%29+and+timestamp+%3E%3D+datetime%28%271970-01-01T00%3A05%3A58Z%27%29+and+timestamp+%3C+datetime%28%271970-01-01T00%3A05%3A59Z%27%29+%7C+summarize+max%28usage_user%29+by+bin%28timestamp%2C+1m%29+%7C+order+by+timestamp+asc",
             Body := none } : HTTP)
          = { HumanLabel := label,
              HumanDescription :=
                label ++ ": " ++ iv.StartString,
              Method := "GET",
              Path := "/v2/rest/query?" ++ ValuesEncode
                  [("csl", "let cpu = CpuMetrics_v2; "
                    ++ ("cpu | where " ++ clause ++ " and timestamp >= datetime('" ++ iv.StartString
                       ++ "') and timestamp < datetime('" ++ iv.EndString ++ "') | summarize " ++ aggs
                       ++ " by bin(timestamp, 1m) | order by timestamp asc"))],
              Body := none } :=
  ⟨by decide,
    (window_bounds_of_successful_call counterSampler
      { Interval := { start := 0, stop := Hour }, Scale := 10 } 3
      { qi := NewHTTP, rand := 358000000000 }
      { qi := { HumanLabel := "Kusto 1 cpu metric(s), random    1 hosts, random 1s by 1m",
                HumanDescription := "Kusto 1 cpu metric(s), random    1 hosts, random 1s by 1m: 1970-01-01T00:05:58Z",
                Method := "GET",
                Path := "/v2/rest/query?csl=let+cpu+%3D+CpuMetrics_v2%3B+cpu+%7C+where+hostname+in+%28%27host_1%27%29+and+timestamp+%3E%3D+datetime%28%271970-01-01T00%3A05%3A58Z%27%29+and+timestamp+%3C+datetime%28%271970-01-01T00%3A05%3A59Z%27%29+%7C+summarize+max%28usage_user%29+by+bin%28timestamp%2C+1m%29+%7C+order+by+timestamp+asc",
                Body := none },
        rand := 358000000002 }).1 1 1 Second (by decide)⟩

/-- C18: for a point with one tag value per tag key and one field value per
field key and a writer that accepts every write, `Serialize` returns no error
and hands the writer, in order, the timestamp in RFC3339 (UTC, second precision)
followed by `,` and the value for every tag, and then `,` and the rendered
value for every field followed by one newline; written to a buffer the bytes
are the timestamp, the `,`-prefixed tag values, the `,`-prefixed field values
and the newline.  Neither the keys nor the measurement name are written. -/
theorem Serialize_bytes {ω ε V : Type} (wr : Writer ω ε) (format : V → String) (p : Point V)
    (w : ω) (ht : p.tagValues.length = p.tagKeys.length)
    (hf : p.fieldValues.length = p.fieldKeys.length)
    (hacc : ∀ (s : ω) (buf : String), (wr.Write s buf).2 = none) :
    (∃ w2, CsvSerializer.Serialize (recording wr) format p (w, [])
        = (SerializeResult.returned none,
            (w2, [formatRFC3339 p.timestamp ++ sepConcat "," p.tagValues,
                  sepConcat "," (p.fieldValues.map format) ++ "\n"])))
    ∧ (∀ out : String, CsvSerializer.Serialize (bufferWriter ε) format p out
        = (SerializeResult.returned none,
            out ++ formatRFC3339 p.timestamp ++ sepConcat "," p.tagValues
              ++ sepConcat "," (p.fieldValues.map format) ++ "\n"))
    ∧ sepConcat "," ["host_0", "eu"] = ",host_0,eu" := by
  have e1 : tagRow p = formatRFC3339 p.timestamp ++ sepConcat "," p.tagValues := by
    simp only [tagRow]
    rw [List.take_of_length_le (by omega)]
  have e2 : fieldRow format p = sepConcat "," (p.fieldValues.map format) ++ "\n" := by
    simp only [fieldRow]
    rw [List.take_of_length_le (by omega)]
  refine ⟨?_, ?_, by decide⟩
  · rw [Serialize_wellformed (recording wr) format p (w, []) (by omega) (by omega)]
    simp only [recording, hacc, e1, e2, List.nil_append, List.singleton_append]
    exact ⟨_, rfl⟩
  · intro out
    rw [Serialize_wellformed (bufferWriter ε) format p out (by omega) (by omega)]
    simp only [bufferWriter, e1, e2, String.append_assoc]

theorem Serialize_bytes_witness :
    (["host_0", "eu"] : List String).length = (["hostname", "region"] : List String).length
    ∧ ([42, -7] : List Int).length = (["usage_user", "usage_system"] : List String).length
    ∧ (∀ (s : String) (buf : String), ((bufferWriter Unit).Write s buf).2 = none)
    ∧ CsvSerializer.Serialize (bufferWriter Unit) sprintD
        { measurementName := "cpu", tagKeys := ["hostname", "region"],
          tagValues := ["host_0", "eu"], fieldKeys := ["usage_user", "usage_system"],
          fieldValues := [42, -7], timestamp := 358000000005 } ""
      = (SerializeResult.returned none,
          "" ++ formatRFC3339 358000000005 ++ sepConcat "," ["host_0", "eu"]
            ++ sepConcat "," (([42, -7] : List Int).map sprintD) ++ "\n")
    ∧ "" ++ formatRFC3339 358000000005 ++ sepConcat "," ["host_0", "eu"]
          ++ sepConcat "," (([42, -7] : List Int).map sprintD) ++ "\n"
        = "1970-01-01T00:05:58Z,host_0,eu,42,-7\n" :=
  ⟨rfl, rfl, fun _ _ => rfl,
    (Serialize_bytes (bufferWriter Unit) sprintD
      { measurementName := "cpu", tagKeys := ["hostname", "region"],
        tagValues := ["host_0", "eu"], fieldKeys := ["usage_user", "usage_system"],
        fieldValues := [42, -7], timestamp := 358000000005 } "" rfl rfl (fun _ _ => rfl)).2.1 "",
    by decide⟩

/-- C19 (code defect): for a point with two tags and two fields `Serialize`
writes `1970-01-01T00:05:58Z,host_0,eu` and then `,42,-7` with a newline: the
first buffer ends without a newline, so the output is one newline-terminated
row and not the two rows the doc comment of `Serialize` describes. -/
theorem Serialize_writes_one_line :
    CsvSerializer.Serialize (recording (bufferWriter Unit)) sprintD
        { measurementName := "cpu", tagKeys := ["hostname", "region"],
          tagValues := ["host_0", "eu"], fieldKeys := ["usage_user", "usage_system"],
          fieldValues := [42, -7], timestamp := 358000000005 } ("", [])
      = (SerializeResult.returned none,
          ("1970-01-01T00:05:58Z,host_0,eu,42,-7\n",
            ["1970-01-01T00:05:58Z,host_0,eu", ",42,-7\n"]))
    ∧ List.count (Char.ofNat 10) "1970-01-01T00:05:58Z,host_0,eu,42,-7\n".data = 1
    ∧ List.count (Char.ofNat 10) "1970-01-01T00:05:58Z,host_0,eu".data = 0 := by
  refine ⟨by decide, by decide, by decide⟩

/-- C20: `Serialize` hands the writer at most two buffers.  If the first write
returns the error `e`, `Serialize` returns `e` and that write is the only one.
If a second write is made, the first one succeeded, and `Serialize` returns
what the second write returns, its error `e` included.  `Serialize` returns no
error exactly when it made two writes and both succeeded. -/
theorem Serialize_propagates_errors {ω ε V : Type} (wr : Writer ω ε) (format : V → String)
    (p : Point V) (w : ω) :
    (CsvSerializer.Serialize (recording wr) format p (w, [])).2.2.length ≤ 2
    ∧ (∀ (row1 : String) (e : ε),
        (CsvSerializer.Serialize (recording wr) format p (w, [])).2.2.head? = some row1 →
        (wr.Write w row1).2 = some e →
        CsvSerializer.Serialize (recording wr) format p (w, [])
          = (SerializeResult.returned (some e), ((wr.Write w row1).1, [row1])))
    ∧ (∀ (row1 row2 : String),
        (CsvSerializer.Serialize (recording wr) format p (w, [])).2.2 = [row1, row2] →
        (wr.Write w row1).2 = none
          ∧ CsvSerializer.Serialize (recording wr) format p (w, [])
            = (SerializeResult.returned (wr.Write (wr.Write w row1).1 row2).2,
                ((wr.Write (wr.Write w row1).1 row2).1, [row1, row2])))
    ∧ ((CsvSerializer.Serialize (recording wr) format p (w, [])).1 = SerializeResult.returned none
        ↔ ∃ row1 row2,
            (CsvSerializer.Serialize (recording wr) format p (w, [])).2.2 = [row1, row2]
            ∧ (wr.Write w row1).2 = none
            ∧ (wr.Write (wr.Write w row1).1 row2).2 = none) := by
  rw [Serialize_cases]
  generalize appendTags p.tagValues (List.range p.tagKeys.length)
    ("" ++ formatRFC3339 p.timestamp) = T
  cases T with
  | none => simp
  | some b1 =>
    simp only
    generalize hE : (wr.Write w b1).2 = E
    cases E with
    | some err =>
      simp only
      refine ⟨by simp, ?_, by simp, ?_⟩
      · intro row1 e h1 h2
        simp only [List.head?_cons, Option.some.injEq] at h1
        subst h1
        rw [hE] at h2
        simp only [Option.some.injEq] at h2
        rw [h2]
      · simp
    | none =>
      simp only
      generalize appendFields format p.fieldValues (List.range p.fieldKeys.length) "" = F
      cases F with
      | none =>
        simp only
        refine ⟨by simp, ?_, by simp, by simp⟩
        intro row1 e h1 h2
        simp only [List.head?_cons, Option.some.injEq] at h1
        subst h1
        rw [hE] at h2
        exact Option.noConfusion h2
      | some b2 =>
        simp only
        refine ⟨by simp, ?_, ?_, ?_⟩
        · intro row1 e h1 h2
          simp only [List.head?_cons, Option.some.injEq] at h1
          subst h1
          rw [hE] at h2
          exact Option.noConfusion h2
        · intro row1 row2 h
          simp only [List.cons.injEq, and_true] at h
          obtain ⟨h1, h2⟩ := h
          subst h1 h2
          exact ⟨hE, rfl⟩
        · constructor
          · intro h
            simp only [SerializeResult.returned.injEq] at h
            exact ⟨b1, b2 ++ "\n", rfl, hE, h⟩
          · rintro ⟨row1, row2, h, _, h3⟩
            simp only [List.cons.injEq, and_true] at h
            obtain ⟨h1, h2⟩ := h
            subst h1 h2
            rw [h3]

theorem Serialize_propagates_errors_witness :
    (CsvSerializer.Serialize (recording (limitedWriter 0 "disk full")) sprintD
        { measurementName := "cpu", tagKeys := ["hostname", "region"],
          tagValues := ["host_0", "eu"], fieldKeys := ["usage_user", "usage_system"],
          fieldValues := [42, -7], timestamp := 358000000005 } ("", [])).2.2.head?
      = some "1970-01-01T00:05:58Z,host_0,eu"
    ∧ ((limitedWriter 0 "disk full").Write "" "1970-01-01T00:05:58Z,host_0,eu").2
      = some "disk full"
    ∧ CsvSerializer.Serialize (recording (limitedWriter 0 "disk full")) sprintD
        { measurementName := "cpu", tagKeys := ["hostname", "region"],
          tagValues := ["host_0", "eu"], fieldKeys := ["usage_user", "usage_system"],
          fieldValues := [42, -7], timestamp := 358000000005 } ("", [])
      = (SerializeResult.returned (some "disk full"),
          (((limitedWriter 0 "disk full").Write "" "1970-01-01T00:05:58Z,host_0,eu").1,
            ["1970-01-01T00:05:58Z,host_0,eu"])) :=
  ⟨by decide, by decide,
    (Serialize_propagates_errors (limitedWriter 0 "disk full") sprintD
      { measurementName := "cpu", tagKeys := ["hostname", "region"],
        tagValues := ["host_0", "eu"], fieldKeys := ["usage_user", "usage_system"],
        fieldValues := [42, -7], timestamp := 358000000005 } "").2.1
      "1970-01-01T00:05:58Z,host_0,eu" "disk full" (by decide) (by decide)⟩

/-- C21: the window draw comes first.  When the window fits the horizon
(`0 <= window <= horizon length`), a
`GroupByTime` call that fails on the metric count or on the host count, a
`MaxAllCPU` call that fails on the host count and a `HighCPUForHosts` call
with a non-zero host count that fails on it all panic with the request
untouched and the sampler in the state after exactly one draw with the window
bound `len - window + 1`, whatever the fuel; `GroupByTimeAndPrimaryTag` with
zero metrics panics with the whole world, sampler included, unchanged.  In the
harness, with a sampler whose first two raw values are the offsets 00:16:22
and 00:54:10, the case after the failing zero-metric case gets 00:16:22, and
the cases after the failing `MaxAllCPU 0` and `HighCPUForHosts (-1)` get
00:54:10. -/
theorem window_draw_comes_first {σ : Type} (rng : Sampler σ) (d : Core) (fuel : Nat)
    (w : World σ) :
    (∀ nHosts numMetrics timeRange : Int,
      0 ≤ timeRange → timeRange ≤ d.Interval.stop - d.Interval.start →
      numMetrics < 1 ∨ 10 < numMetrics →
      GroupByTime rng d fuel nHosts numMetrics timeRange w
        = some (Outcome.panic
            (if numMetrics < 1 then PanicValue.text "cannot get 0 metrics"
             else PanicValue.tooManyMetrics numMetrics),
            { qi := w.qi,
              rand := afterDraws rng
                (d.Interval.stop - d.Interval.start - timeRange + 1).toNat 1 w.rand }))
    ∧ (∀ nHosts numMetrics timeRange : Int,
      0 ≤ timeRange → timeRange ≤ d.Interval.stop - d.Interval.start →
      1 ≤ numMetrics → numMetrics ≤ 10 →
      nHosts < 1 ∨ d.Scale < nHosts →
      GroupByTime rng d fuel nHosts numMetrics timeRange w
        = some (Outcome.panic
            (if nHosts < 1 then
              PanicValue.text ("number of hosts cannot be < 1; got " ++ sprintD nHosts)
             else PanicValue.hostsExceedScale nHosts d.Scale),
            { qi := w.qi,
              rand := afterDraws rng
                (d.Interval.stop - d.Interval.start - timeRange + 1).toNat 1 w.rand }))
    ∧ (∀ nHosts : Int,
      MaxAllDuration ≤ d.Interval.stop - d.Interval.start →
      nHosts < 1 ∨ d.Scale < nHosts →
      MaxAllCPU rng d fuel nHosts w
        = some (Outcome.panic
            (if nHosts < 1 then
              PanicValue.text ("number of hosts cannot be < 1; got " ++ sprintD nHosts)
             else PanicValue.hostsExceedScale nHosts d.Scale),
            { qi := w.qi,
              rand := afterDraws rng
                (d.Interval.stop - d.Interval.start - MaxAllDuration + 1).toNat 1 w.rand }))
    ∧ (∀ nHosts : Int,
      HighCPUDuration ≤ d.Interval.stop - d.Interval.start →
      nHosts ≠ 0 →
      nHosts < 1 ∨ d.Scale < nHosts →
      HighCPUForHosts rng d fuel nHosts w
        = some (Outcome.panic
            (if nHosts < 1 then
              PanicValue.text ("number of hosts cannot be < 1; got " ++ sprintD nHosts)
             else PanicValue.hostsExceedScale nHosts d.Scale),
            { qi := w.qi,
              rand := afterDraws rng
                (d.Interval.stop - d.Interval.start - HighCPUDuration + 1).toNat 1 w.rand }))
    ∧ GroupByTimeAndPrimaryTag rng d 0 w
        = some (Outcome.panic (PanicValue.text "cannot get 0 metrics"), w)
    ∧ runCases scriptedSampler
        { Interval := { start := 0, stop := DoubleGroupByDuration + Hour }, Scale := 10 } 0
        [Call.groupByTimeAndPrimaryTag 0, Call.groupByTimeAndPrimaryTag 1]
        [982000000000, 3250000000000]
        = some ([Observation.failed (PanicValue.text "cannot get 0 metrics"),
            Observation.filled
              "Kusto mean of 1 metrics, all hosts, random 12h0m0s by 1h"
              "Kusto mean of 1 metrics, all hosts, random 12h0m0s by 1h: 1970-01-01T00:16:22Z"
              (fillHTTP GenerateEmptyQuery "" ""
                ("cpu | where timestamp >= datetime('1970-01-01T00:16:22Z') and timestamp < datetime('1970-01-01T12:16:22Z') "
                  ++ "| summarize avg(usage_user) by bin(timestamp, 1h), hostname | order by timestamp")).Path],
          [3250000000000])
    ∧ runCases scriptedSampler
        { Interval := { start := 0, stop := MaxAllDuration + Hour }, Scale := 10 } 1
        [Call.maxAllCPU 0, Call.maxAllCPU 1]
        [982000000000, 3250000000000, 3]
        = some ([Observation.failed (PanicValue.text "number of hosts cannot be < 1; got 0"),
            Observation.filled
              "Kusto max of all CPU metrics, random    1 hosts, random 8h0m0s by 1h"
              "Kusto max of all CPU metrics, random    1 hosts, random 8h0m0s by 1h: 1970-01-01T00:54:10Z"
              (fillHTTP GenerateEmptyQuery "" ""
                ("cpu | where hostname in ('host_3') and "
                  ++ "timestamp >= datetime('1970-01-01T00:54:10Z') and timestamp < datetime('1970-01-01T08:54:10Z') "
                  ++ "| summarize max(usage_user),max(usage_system),max(usage_idle),max(usage_nice),max(usage_iowait),max(usage_irq),max(usage_softirq),max(usage_steal),max(usage_guest),max(usage_guest_nice) by bin(timestamp, 1h) | order by timestamp")).Path],
          [])
    ∧ runCases scriptedSampler
        { Interval := { start := 0, stop := HighCPUDuration + Hour }, Scale := 10 } 0
        [Call.highCPUForHosts (-1), Call.highCPUForHosts 0]
        [982000000000, 3250000000000]
        = some ([Observation.failed (PanicValue.text "number of hosts cannot be < 1; got -1"),
            Observation.filled
              "Kusto CPU over threshold, all hosts"
              "Kusto CPU over threshold, all hosts: 1970-01-01T00:54:10Z"
              (fillHTTP GenerateEmptyQuery "" ""
                ("cpu | where usage_user > 90.0  and "
                  ++ "timestamp >= datetime('1970-01-01T00:54:10Z') and timestamp < datetime('1970-01-01T12:54:10Z')")).Path],
          []) := by
  refine ⟨?_, ?_, ?_, ?_, rfl, by decide, by decide, by decide⟩
  · intro nHosts numMetrics timeRange h0 ht hn
    by_cases hlt : numMetrics < 1
    · rw [if_pos hlt]
      exact GroupByTime_metrics_lt_one rng d fuel nHosts numMetrics timeRange w hlt ht h0
    · rw [if_neg hlt]
      have hgt : 10 < numMetrics := by
        rcases hn with h | h
        · exact absurd h hlt
        · exact h
      exact GroupByTime_metrics_gt_ten rng d fuel nHosts numMetrics timeRange w hgt ht h0
  · intro nHosts numMetrics timeRange h0 ht h1 h2 hn
    exact GroupByTime_hosts_invalid rng d fuel nHosts numMetrics timeRange w ht h0 h1 h2 hn
  · intro nHosts ht hn
    exact MaxAllCPU_hosts_invalid rng d fuel nHosts w ht hn
  · intro nHosts ht h0 hn
    exact HighCPUForHosts_hosts_invalid rng d fuel nHosts w ht h0 hn

theorem window_draw_comes_first_witness :
    ((0 : Int) ≤ Hour)
    ∧ (Hour ≤ (MaxAllDuration + Hour) - 0)
    ∧ (MaxAllDuration ≤ (MaxAllDuration + Hour) - 0)
    ∧ ((0 : Int) < 1 ∨ (10 : Int) < 0)
    ∧ ((12 : Int) < 1 ∨ (10 : Int) < 12)
    ∧ GroupByTime counterSampler
        { Interval := { start := 0, stop := MaxAllDuration + Hour }, Scale := 10 } 0 1 0 Hour
        { qi := GenerateEmptyQuery, rand := 5 }
      = some (Outcome.panic (PanicValue.text "cannot get 0 metrics"),
          { qi := GenerateEmptyQuery, rand := 6 })
    ∧ GroupByTime counterSampler
        { Interval := { start := 0, stop := MaxAllDuration + Hour }, Scale := 10 } 0 12 1 Hour
        { qi := GenerateEmptyQuery, rand := 5 }
      = some (Outcome.panic (PanicValue.hostsExceedScale 12 10),
          { qi := GenerateEmptyQuery, rand := 6 })
    ∧ MaxAllCPU counterSampler
        { Interval := { start := 0, stop := MaxAllDuration + Hour }, Scale := 10 } 0 0
        { qi := GenerateEmptyQuery, rand := 5 }
      = some (Outcome.panic (PanicValue.text "number of hosts cannot be < 1; got 0"),
          { qi := GenerateEmptyQuery, rand := 6 })
    ∧ HighCPUForHosts counterSampler
        { Interval := { start := 0, stop := HighCPUDuration + Hour }, Scale := 10 } 0 (-1)
        { qi := GenerateEmptyQuery, rand := 5 }
      = some (Outcome.panic (PanicValue.text "number of hosts cannot be < 1; got -1"),
          { qi := GenerateEmptyQuery, rand := 6 }) :=
  ⟨by decide, by decide, by decide, by decide, by decide,
    ((window_draw_comes_first counterSampler
      { Interval := { start := 0, stop := MaxAllDuration + Hour }, Scale := 10 } 0
      { qi := GenerateEmptyQuery, rand := 5 }).1 1 0 Hour (by decide) (by decide)
        (Or.inl (by decide))).trans (by decide),
    ((window_draw_comes_first counterSampler
      { Interval := { start := 0, stop := MaxAllDuration + Hour }, Scale := 10 } 0
      { qi := GenerateEmptyQuery, rand := 5 }).2.1 12 1 Hour (by decide) (by decide) (by decide)
        (by decide) (Or.inr (by decide))).trans (by decide),
    ((window_draw_comes_first counterSampler
      { Interval := { start := 0, stop := MaxAllDuration + Hour }, Scale := 10 } 0
      { qi := GenerateEmptyQuery, rand := 5 }).2.2.1 0 (by decide)
        (Or.inl (by decide))).trans (by decide),
    ((window_draw_comes_first counterSampler
      { Interval := { start := 0, stop := HighCPUDuration + Hour }, Scale := 10 } 0
      { qi := GenerateEmptyQuery, rand := 5 }).2.2.2.1 (-1) (by decide) (by decide)
        (Or.inl (by decide))).trans (by decide)⟩

/-- C22: `getHostWhereWithHostnames` copies the hostnames between single quotes
without escaping them.  The one-element list with the name `a', 'b` and the
two-element list `a`, `b` are different and both render
`hostname in ('a', 'b')`, so the rendering is not injective on arbitrary
hostname lists; on lists none of whose hostnames contains a single quote it is
injective: two such lists with the same clause are equal. -/
theorem getHostWhereWithHostnames_not_injective :
    getHostWhereWithHostnames ["a', 'b"] = "hostname in ('a', 'b')"
    ∧ getHostWhereWithHostnames ["a", "b"] = "hostname in ('a', 'b')"
    ∧ (["a', 'b"] : List String) ≠ ["a", "b"]
    ∧ ¬ Function.Injective getHostWhereWithHostnames
    ∧ ∀ l1 l2 : List String,
        (∀ x ∈ l1, Char.ofNat 39 ∉ x.data) → (∀ x ∈ l2, Char.ofNat 39 ∉ x.data) →
        getHostWhereWithHostnames l1 = getHostWhereWithHostnames l2 → l1 = l2 := by
  refine ⟨by decide, by decide, by decide, ?_, ?_⟩
  · intro hinj
    have e : getHostWhereWithHostnames ["a', 'b"] = getHostWhereWithHostnames ["a", "b"] := by
      decide
    exact absurd (hinj e) (by decide)
  · intro l1 l2 h1 h2 e
    exact getHostWhereWithHostnames_injective_of_no_quote l1 l2 h1 h2 e

theorem getHostWhereWithHostnames_not_injective_witness :
    (∀ x ∈ ["a, b", "c"], Char.ofNat 39 ∉ x.data)
    ∧ getHostWhereWithHostnames ["a, b", "c"] = "hostname in ('a, b', 'c')"
    ∧ (["a, b", "c"] : List String) = ["a, b", "c"]
    ∧ getHostWhereWithHostnames ["a, b"] ≠ getHostWhereWithHostnames ["a", "b"] :=
  ⟨by decide, by decide,
    getHostWhereWithHostnames_not_injective.2.2.2.2 ["a, b", "c"] ["a, b", "c"]
      (by decide) (by decide) rfl,
    fun e => absurd
      (getHostWhereWithHostnames_not_injective.2.2.2.2 ["a, b"] ["a", "b"]
        (by decide) (by decide) e) (by decide)⟩

end Kusto
